import Mathlib

/-!
# Library Management System: borrowing engine

A shallow embedding of `cs253Assgn_code.cpp` and the properties of its
borrow / reserve / return / pay-fine operations.

Modelling conventions.

* C++ `int` and `time_t` values are integers (`Int`); the values of `int`
  are those satisfying `IsInt`.  Comparisons and copies of `int` values are
  exact.  Where the program computes with `int` (`maxId + 1`,
  `(borrowDays + 60) * 86400`, `elapsedDays - allowedDays`, `overdue * 10`)
  the result is `wrapInt` of the exact result: the exact result when it is an
  `int`, and its residue modulo 2^32 otherwise, which is what the compiled
  program computes where the C++ standard leaves the overflow undefined.
* `difftime(a, b) / 86400` converted with `static_cast<int>` is `castToInt`
  of the truncation toward zero of the exact quotient,
  `Int.tdiv (a - b) 86400`: the double quotient truncates to that value
  whenever it is an `int`, and outside the range of `int` the conversion
  (undefined in C++) yields the smallest `int` on x86-64.
* `Account::fineDue` is a `double` that receives `0` and sums of the integer
  amounts `overdue * 10`; it is an `Int` here.  The double sum is the exact
  sum as long as the fine is an integer of magnitude at most 2^52
  (`IsExactFine`), which the statement about the amount of a fine assumes.
* `time(0)` is an explicit argument `now`: an operation happens at one
  instant, so every clock read inside it yields the same value.
* A `Book*` / `User*` into the library's vectors is the position of the
  element in the list (`this` is the position `self` of the acting user).
  Object lifetimes are not modelled, except that `removeUserFromLibrary`
  reports when it deletes the object of a user who stays in the vector.
* Console input (`cin >> bookId`, `cin >> days`) is passed as arguments, the
  printed message is the returned `Outcome`.
* `books.txt` / `users.txt` are the fields `savedBooks` / `savedUsers`:
  `none` while the file is absent, `some c` once the collection `c` has been
  written.  The transaction log (free text with wall-clock strings) is not
  part of the model.
* For the text of the data files a `std::string` is its list of characters
  and a stream is the list of characters still to be read with its state
  bits (`IStream`).  `std::stoi` yields `none` where it throws.  Reading
  beyond the end of a string is undefined behaviour and is reported as
  `none` (`trim`) or `Loaded.readPastEnd`.
* `Account::deserialize` parses a `double`; the loader of the users takes it
  as a parameter `accountOf`, and what is proved of the loader holds for
  every such function.
-/

namespace LMS

/-! ## Data model -/

/-- Enumeration `BookStatus`. -/
inductive BookStatus where
  | Available
  | Borrowed
  | Reserved
  deriving DecidableEq, Repr

/-- Class `Book`: one copy of a book. -/
structure Book where
  id : Int
  title : String
  author : String
  publisher : String
  year : Int
  ISBN : String
  status : BookStatus
  borrowedBy : Int
  reservedBy : Int
  deriving DecidableEq, Repr

/-- Struct `BorrowRecord`. -/
structure BorrowRecord where
  bookId : Int
  borrowTimestamp : Int
  borrowDays : Int
  deriving DecidableEq, Repr

/-- Class `Account`: borrow records and fine. -/
structure Account where
  borrowRecords : List BorrowRecord
  fineDue : Int
  deriving DecidableEq, Repr

/-- The dynamic type of a `User` object. -/
inductive Role where
  | Student
  | Faculty
  | Librarian
  deriving DecidableEq, Repr

/-- Class `User` together with the dynamic type of the object. -/
structure User where
  userId : Int
  username : String
  password : String
  account : Account
  role : Role
  deriving DecidableEq, Repr

/-- Class `Library`: the two in-memory collections and the two data files. -/
structure Library where
  books : List Book
  users : List User
  savedBooks : Option (List Book)
  savedUsers : Option (List User)
  deriving DecidableEq, Repr

/-- The message an operation prints. -/
inductive Outcome where
  /-- The operation went through ("successfully borrowed", "reserved
  successfully", "Book returned successfully.", "Fine cleared."). -/
  | ok
  /-- Message "Outstanding fine of ... rupees. Please pay fine before borrowing." -/
  | outstandingFine
  /-- Message "You have a book overdue by more than 60 days. ..." -/
  | overdueBlocked
  /-- Message "Borrowing limit reached (... books maximum)." -/
  | limitReached
  /-- Message "Book not found." -/
  | bookNotFound
  /-- Message "Book is not available." -/
  | notAvailable
  /-- Message "Borrowing period exceeds the maximum allowed for ...". -/
  | periodExceeded
  /-- Message "You can only reserve a book that is currently borrowed." -/
  | notBorrowed
  /-- Message "Book is already reserved by another user." -/
  | alreadyReserved
  /-- Message "You have already borrowed this book; reservation not allowed." -/
  | ownBorrow
  /-- Message "You did not borrow this book." -/
  | didNotBorrow
  /-- Message "No fine due." -/
  | noFineDue
  /-- Message "Librarian cannot borrow books." or "Librarian does not return
  books.", or no menu entry for the role. -/
  | librarianNoop
  /-- Message "You cannot remove your own account." -/
  | ownAccount
  /-- Message "User with ID ... not found." -/
  | userNotFound
  /-- Message "Invalid user type." -/
  | invalidUserType
  /-- Message "Passwords do not match. Registration failed." -/
  | passwordMismatch
  /-- The position `self` is not a user of the library (no such call exists
  in the program: `this` is always a live object). -/
  | noSuchUser
  /-- No message: `removeUserFromLibrary` has deleted the object of a user who
  stays in the vector, and the behaviour of the program is undefined from
  there on. -/
  | deletedLiveUser
  deriving DecidableEq, Repr

/-! ## Machine integers -/

/-- The values of the C++ type `int`. -/
def IsInt (v : Int) : Prop :=
  -2147483648 ≤ v ∧ v ≤ 2147483647

instance (v : Int) : Decidable (IsInt v) := by
  unfold IsInt
  infer_instance

/-- The value an `int` addition, subtraction or multiplication leaves when
its exact result is `x`: `x` when it is an `int`, and otherwise the `int`
congruent to `x` modulo 2^32 (two's complement; the C++ standard leaves the
overflow undefined). -/
def wrapInt (x : Int) : Int :=
  (x + 2147483648) % 4294967296 - 2147483648

/-- The conversion `static_cast<int>(d)` of a `double` whose truncation toward
zero is `x`: `x` when it is an `int`, and otherwise the smallest `int` (the
conversion is undefined in C++ there; this is the result of the x86-64
conversion instruction). -/
def castToInt (x : Int) : Int :=
  if IsInt x then x else -2147483648

/-- The fines whose `double` arithmetic is exact: the integers of magnitude at
most 2^52. -/
def IsExactFine (x : Int) : Prop :=
  -4503599627370496 ≤ x ∧ x ≤ 4503599627370496

instance (x : Int) : Decidable (IsExactFine x) := by
  unfold IsExactFine
  infer_instance

/-! ## Vector helpers -/

/-- First position whose element satisfies `p`, with the element: the result
of the `for (auto & x : v) if (p x) return &x; return nullptr;` loops. -/
def firstWith {α : Type} (p : α → Bool) : List α → Option (Nat × α)
  | [] => none
  | x :: xs =>
    if p x then some (0, x)
    else match firstWith p xs with
      | none => none
      | some (k, y) => some (k + 1, y)

/-- The algorithm `std::remove_if`: the elements that do not satisfy `p` are
moved to the front in their original order; returns the vector (same length,
the positions from the new logical end on are never written) and the position
of the new logical end. -/
def removeIf {α : Type} (p : α → Bool) (v : List α) : List α × Nat :=
  let kept := v.filter (fun x => !p x)
  (kept ++ v.drop kept.length, kept.length)

/-- The call `v.erase(it, v.end())`. -/
def eraseToEnd {α : Type} (v : List α) (it : Nat) : List α :=
  v.take it

/-! ## Account -/

/-- The method `Account::addBorrowedBook`. -/
def Account.addBorrowedBook (a : Account) (now bookId borrowDays : Int) : Account :=
  { a with borrowRecords :=
      a.borrowRecords ++ [{ bookId := bookId, borrowTimestamp := now, borrowDays := borrowDays }] }

/-- The method `Account::removeBorrowedBook`. -/
def Account.removeBorrowedBook (a : Account) (bookId : Int) : Account :=
  let r := removeIf (fun rec => decide (rec.bookId = bookId)) a.borrowRecords
  if r.2 ≠ r.1.length then { a with borrowRecords := eraseToEnd r.1 r.2 }
  else { a with borrowRecords := r.1 }

/-- The method `Account::addFine`. -/
def Account.addFine (a : Account) (fine : Int) : Account :=
  { a with fineDue := a.fineDue + fine }

/-- The method `Account::resetFine`. -/
def Account.resetFine (a : Account) : Account :=
  { a with fineDue := 0 }

/-- The method `Account::resetBorrowTimestamps`. -/
def Account.resetBorrowTimestamps (a : Account) (now : Int) : Account :=
  { a with borrowRecords := a.borrowRecords.map (fun r => { r with borrowTimestamp := now }) }

/-! ## Library -/

/-- The method `Library::findBookById`. -/
def Library.findBookById (lib : Library) (id : Int) : Option (Nat × Book) :=
  firstWith (fun b => decide (b.id = id)) lib.books

/-- The method `Library::findUserById`. -/
def Library.findUserById (lib : Library) (id : Int) : Option (Nat × User) :=
  firstWith (fun u => decide (u.userId = id)) lib.users

/-- An update through a `Book*`: the book at position `k` becomes `f` of it. -/
def Library.modifyBook (lib : Library) (k : Nat) (f : Book → Book) : Library :=
  { lib with books := lib.books.modify f k }

/-- An update through `user->getAccount()`: the account of the user at
position `j` becomes `f` of it. -/
def Library.modifyAccount (lib : Library) (j : Nat) (f : Account → Account) : Library :=
  { lib with users := lib.users.modify (fun u => { u with account := f u.account }) j }

/-- The method `Library::saveBooks`. -/
def Library.saveBooks (lib : Library) : Library :=
  { lib with savedBooks := some lib.books }

/-- The method `Library::saveUsers`. -/
def Library.saveUsers (lib : Library) : Library :=
  { lib with savedUsers := some lib.users }

/-- The method `Library::generateBookId`: the `int` sum `maxId + 1`. -/
def Library.generateBookId (lib : Library) : Int :=
  wrapInt (lib.books.foldl (fun maxId b => max maxId b.id) 0 + 1)

/-- The method `Library::generateUserId`: the `int` sum `maxId + 1`. -/
def Library.generateUserId (lib : Library) : Int :=
  wrapInt (lib.users.foldl (fun maxId u => max maxId u.userId) 0 + 1)

/-- The method `Library::addBookToLibrary`. -/
def Library.addBookToLibrary (lib : Library) (book : Book) : Library :=
  Library.saveBooks { lib with books := lib.books ++ [book] }

/-- The method `Library::removeBookFromLibrary`. -/
def Library.removeBookFromLibrary (lib : Library) (bookId : Int) : Outcome × Library :=
  let r := removeIf (fun b => decide (b.id = bookId)) lib.books
  if r.2 ≠ r.1.length then
    (Outcome.ok, Library.saveBooks { lib with books := eraseToEnd r.1 r.2 })
  else
    (Outcome.bookNotFound, { lib with books := r.1 })

/-- The method `Library::addUserToLibrary`. -/
def Library.addUserToLibrary (lib : Library) (user : User) : Library :=
  Library.saveUsers { lib with users := lib.users ++ [user] }

/-- The method `Library::removeUserFromLibrary`.  After `remove_if` the
positions behind the new end still hold the pointers they held before, and
the loop of the source deletes the objects they point to.  These are the
removed users exactly when every one of them has the id `userId`; the vector
then keeps the users whose id differs from `userId` and is saved.  Otherwise
the loop deletes an object that stays in the vector: the outcome is
`Outcome.deletedLiveUser`, with the vector of (partly dangling) pointers the
program holds before `saveUsers` reads through them. -/
def Library.removeUserFromLibrary (lib : Library) (userId : Int) : Outcome × Library :=
  let r := removeIf (fun u => decide (u.userId = userId)) lib.users
  if r.2 ≠ r.1.length then
    if (r.1.drop r.2).all (fun u => decide (u.userId = userId)) = true then
      (Outcome.ok, Library.saveUsers { lib with users := eraseToEnd r.1 r.2 })
    else
      (Outcome.deletedLiveUser, { lib with users := eraseToEnd r.1 r.2 })
  else
    (Outcome.userNotFound, { lib with users := r.1 })

/-! ## Students -/

/-- The constant `maxBooks` of every `Student` object. -/
def Student.maxBooks : Nat := 3

/-- The constant `maxDays` of every `Student` object. -/
def Student.maxDays : Int := 15

/-- The method `Student::borrowBook`. -/
def Student.borrowBook (lib : Library) (self : Nat) (now bookId days : Int) :
    Outcome × Library :=
  match lib.users[self]? with
  | none => (Outcome.noSuchUser, lib)
  | some u =>
    if u.account.fineDue > 0 then (Outcome.outstandingFine, lib)
    else if u.account.borrowRecords.length ≥ Student.maxBooks then (Outcome.limitReached, lib)
    else
      match lib.findBookById bookId with
      | none => (Outcome.bookNotFound, lib)
      | some (k, book) =>
        if book.borrowedBy ≠ 0 then (Outcome.notAvailable, lib)
        else if days > Student.maxDays then (Outcome.periodExceeded, lib)
        else
          let lib := lib.modifyBook k (fun b => { b with status := BookStatus.Borrowed })
          let lib := lib.modifyBook k (fun b => { b with borrowedBy := u.userId })
          let lib := lib.modifyAccount self (fun a => a.addBorrowedBook now book.id days)
          (Outcome.ok, lib.saveBooks)

/-- The methods `Student::reserveBook` and `Faculty::reserveBook` (the two
bodies differ only in the word written to the log). -/
def reserveBookBody (lib : Library) (self : Nat) (bookId : Int) : Outcome × Library :=
  match lib.users[self]? with
  | none => (Outcome.noSuchUser, lib)
  | some u =>
    match lib.findBookById bookId with
    | none => (Outcome.bookNotFound, lib)
    | some (k, book) =>
      if book.status ≠ BookStatus.Borrowed then (Outcome.notBorrowed, lib)
      else if book.reservedBy ≠ 0 then (Outcome.alreadyReserved, lib)
      else if book.borrowedBy = u.userId then (Outcome.ownBorrow, lib)
      else
        let lib := lib.modifyBook k (fun b => { b with reservedBy := u.userId })
        let lib := lib.modifyBook k (fun b => { b with status := BookStatus.Reserved })
        (Outcome.ok, lib.saveBooks)

/-- The method `Student::reserveBook`. -/
def Student.reserveBook (lib : Library) (self : Nat) (bookId : Int) : Outcome × Library :=
  reserveBookBody lib self bookId

/-- The value `static_cast<int>(difftime(now, borrowTime) / 86400)`.  While
the exact quotient is an `int`, the difference and the truncation of the
`double` quotient are exact (the difference is below 2^48, and the quotient
is further from the next integer than its rounding error); otherwise the
`double` quotient is outside the range of `int` as well. -/
def elapsedDays (now borrowTime : Int) : Int :=
  castToInt (Int.tdiv (now - borrowTime) 86400)

/-- The amount `overdue * 10` of `Student::returnBook`, where
`int overdue = elapsedDays - allowedDays`: two `int` operations. -/
def Student.overdueFine (elapsedDays allowedDays : Int) : Int :=
  wrapInt (wrapInt (elapsedDays - allowedDays) * 10)

/-- The scan of `returnBook` for the record of the book: the first record,
in insertion order, whose `bookId` is the id of the book. -/
def findRecord (records : List BorrowRecord) (bookId : Int) : Option BorrowRecord :=
  match firstWith (fun r => decide (r.bookId = bookId)) records with
  | none => none
  | some (_, r) => some r

/-- The method `Student::returnBook`.  The source reads the clock for the
elapsed days and again inside `addBorrowedBook`; both reads are `now`. -/
def Student.returnBook (lib : Library) (self : Nat) (now bookId : Int) : Outcome × Library :=
  match lib.users[self]? with
  | none => (Outcome.noSuchUser, lib)
  | some u =>
    match lib.findBookById bookId with
    | none => (Outcome.bookNotFound, lib)
    | some (k, book) =>
      match findRecord u.account.borrowRecords book.id with
      | none => (Outcome.didNotBorrow, lib)
      | some record =>
        let elapsed := elapsedDays now record.borrowTimestamp
        let allowedDays : Int := 15
        let lib :=
          if elapsed > allowedDays then
            lib.modifyAccount self
              (fun a => a.addFine (Student.overdueFine elapsed allowedDays))
          else lib
        let lib :=
          if book.reservedBy ≠ 0 then
            match lib.findUserById book.reservedBy with
            | some (j, reservingUser) =>
              let defaultDays : Int := if reservingUser.role = Role.Faculty then 30 else 15
              let lib := lib.modifyBook k (fun b => { b with status := BookStatus.Borrowed })
              let lib := lib.modifyBook k (fun b => { b with borrowedBy := reservingUser.userId })
              let lib := lib.modifyBook k (fun b => { b with reservedBy := 0 })
              lib.modifyAccount j (fun a => a.addBorrowedBook now book.id defaultDays)
            | none =>
              let lib := lib.modifyBook k (fun b => { b with status := BookStatus.Available })
              lib.modifyBook k (fun b => { b with borrowedBy := 0 })
          else
            let lib := lib.modifyBook k (fun b => { b with status := BookStatus.Available })
            lib.modifyBook k (fun b => { b with borrowedBy := 0 })
        let lib := lib.modifyAccount self (fun a => a.removeBorrowedBook book.id)
        (Outcome.ok, lib.saveBooks)

/-! ## Faculty -/

/-- The constant `maxBooks` of every `Faculty` object. -/
def Faculty.maxBooks : Nat := 5

/-- The constant `maxDays` of every `Faculty` object. -/
def Faculty.maxDays : Int := 30

/-- The test of the first loop of `Faculty::borrowBook` on one record:
`difftime(now, record.borrowTimestamp)` against the `int` product
`(record.borrowDays + 60) * 86400`.  The product is converted to `double`
exactly, and rounding the difference to a `double` does not move it across an
integer of that size, so the comparison is the comparison of the integers. -/
def overdueBeyond60 (now : Int) (record : BorrowRecord) : Bool :=
  decide (now - record.borrowTimestamp > wrapInt (wrapInt (record.borrowDays + 60) * 86400))

/-- The method `Faculty::borrowBook`.  The source reads the clock before the
loop and again inside `addBorrowedBook`; both reads are `now`. -/
def Faculty.borrowBook (lib : Library) (self : Nat) (now bookId days : Int) :
    Outcome × Library :=
  match lib.users[self]? with
  | none => (Outcome.noSuchUser, lib)
  | some u =>
    if u.account.borrowRecords.any (overdueBeyond60 now) then (Outcome.overdueBlocked, lib)
    else if u.account.borrowRecords.length ≥ Faculty.maxBooks then (Outcome.limitReached, lib)
    else
      match lib.findBookById bookId with
      | none => (Outcome.bookNotFound, lib)
      | some (k, book) =>
        if book.borrowedBy ≠ 0 then (Outcome.notAvailable, lib)
        else if days > Faculty.maxDays then (Outcome.periodExceeded, lib)
        else
          let lib := lib.modifyBook k (fun b => { b with status := BookStatus.Borrowed })
          let lib := lib.modifyBook k (fun b => { b with borrowedBy := u.userId })
          let lib := lib.modifyAccount self (fun a => a.addBorrowedBook now book.id days)
          (Outcome.ok, lib.saveBooks)

/-- The method `Faculty::reserveBook`. -/
def Faculty.reserveBook (lib : Library) (self : Nat) (bookId : Int) : Outcome × Library :=
  reserveBookBody lib self bookId

/-- The method `Faculty::returnBook`.  The elapsed and overdue days are only
printed by this method (no fine is imposed), so they leave no trace in the
result. -/
def Faculty.returnBook (lib : Library) (self : Nat) (now bookId : Int) : Outcome × Library :=
  match lib.users[self]? with
  | none => (Outcome.noSuchUser, lib)
  | some u =>
    match lib.findBookById bookId with
    | none => (Outcome.bookNotFound, lib)
    | some (k, book) =>
      match findRecord u.account.borrowRecords book.id with
      | none => (Outcome.didNotBorrow, lib)
      | some _ =>
        let lib :=
          if book.reservedBy ≠ 0 then
            match lib.findUserById book.reservedBy with
            | some (j, reservingUser) =>
              let defaultDays : Int := 30
              let lib := lib.modifyBook k (fun b => { b with status := BookStatus.Borrowed })
              let lib := lib.modifyBook k (fun b => { b with borrowedBy := reservingUser.userId })
              let lib := lib.modifyBook k (fun b => { b with reservedBy := 0 })
              lib.modifyAccount j (fun a => a.addBorrowedBook now book.id defaultDays)
            | none =>
              let lib := lib.modifyBook k (fun b => { b with status := BookStatus.Available })
              lib.modifyBook k (fun b => { b with borrowedBy := 0 })
          else
            let lib := lib.modifyBook k (fun b => { b with status := BookStatus.Available })
            lib.modifyBook k (fun b => { b with borrowedBy := 0 })
        let lib := lib.modifyAccount self (fun a => a.removeBorrowedBook book.id)
        (Outcome.ok, lib.saveBooks)

/-! ## Dispatch of the user portal menu -/

/-- The virtual call `user->borrowBook(lib)` (menu entry 2). -/
def User.borrowBook (lib : Library) (self : Nat) (now bookId days : Int) :
    Outcome × Library :=
  match lib.users[self]? with
  | none => (Outcome.noSuchUser, lib)
  | some u =>
    match u.role with
    | Role.Student => Student.borrowBook lib self now bookId days
    | Role.Faculty => Faculty.borrowBook lib self now bookId days
    | Role.Librarian => (Outcome.librarianNoop, lib)

/-- The menu entry 3 of `userPortalMenu` (Reserve Book). -/
def User.reserveBook (lib : Library) (self : Nat) (bookId : Int) : Outcome × Library :=
  match lib.users[self]? with
  | none => (Outcome.noSuchUser, lib)
  | some u =>
    match u.role with
    | Role.Student => Student.reserveBook lib self bookId
    | Role.Faculty => Faculty.reserveBook lib self bookId
    | Role.Librarian => (Outcome.librarianNoop, lib)

/-- The virtual call `user->returnBook(lib)` (menu entry 4). -/
def User.returnBook (lib : Library) (self : Nat) (now bookId : Int) : Outcome × Library :=
  match lib.users[self]? with
  | none => (Outcome.noSuchUser, lib)
  | some u =>
    match u.role with
    | Role.Student => Student.returnBook lib self now bookId
    | Role.Faculty => Faculty.returnBook lib self now bookId
    | Role.Librarian => (Outcome.librarianNoop, lib)

/-- The menu entry 6 of `userPortalMenu` (Pay Fine). -/
def User.payFine (lib : Library) (self : Nat) (now : Int) : Outcome × Library :=
  match lib.users[self]? with
  | none => (Outcome.noSuchUser, lib)
  | some u =>
    if u.account.fineDue > 0 then
      let lib := lib.modifyAccount self (fun a => a.resetFine)
      let lib :=
        if u.role = Role.Student then
          lib.modifyAccount self (fun a => a.resetBorrowTimestamps now)
        else lib
      (Outcome.ok, lib)
    else (Outcome.noFineDue, lib)

/-! ## Librarians and registration -/

/-- The method `Librarian::addBook`. -/
def Librarian.addBook (lib : Library) (title author publisher : String) (year : Int)
    (isbn : String) : Outcome × Library :=
  let newId := lib.generateBookId
  let newBook : Book :=
    { id := newId, title := title, author := author, publisher := publisher, year := year,
      ISBN := isbn, status := BookStatus.Available, borrowedBy := 0, reservedBy := 0 }
  (Outcome.ok, lib.addBookToLibrary newBook)

/-- The method `Librarian::removeBook`. -/
def Librarian.removeBook (lib : Library) (id : Int) : Outcome × Library :=
  lib.removeBookFromLibrary id

/-- The constructors `Student(id, uname, pwd)` and `Faculty(id, uname, pwd)`:
a user with an empty account. -/
def User.new (role : Role) (id : Int) (uname pwd : String) : User :=
  { userId := id, username := uname, password := pwd,
    account := { borrowRecords := [], fineDue := 0 }, role := role }

/-- The method `Librarian::addUser`; `type` is the number typed at the prompt
"Enter user type (1 for Student, 2 for Faculty)". -/
def Librarian.addUser (lib : Library) (type : Int) (uname pwd : String) : Outcome × Library :=
  let newId := lib.generateUserId
  if type = 1 then (Outcome.ok, lib.addUserToLibrary (User.new Role.Student newId uname pwd))
  else if type = 2 then (Outcome.ok, lib.addUserToLibrary (User.new Role.Faculty newId uname pwd))
  else (Outcome.invalidUserType, lib)

/-- The method `Librarian::removeUser`. -/
def Librarian.removeUser (lib : Library) (self : Nat) (id : Int) : Outcome × Library :=
  match lib.users[self]? with
  | none => (Outcome.noSuchUser, lib)
  | some u =>
    if id = u.userId then (Outcome.ownAccount, lib)
    else lib.removeUserFromLibrary id

/-- The function `registrationProcess`; `main` calls it with `role` 1
(Student) or 2 (Faculty) only, and the model leaves the library unchanged for
any other value. -/
def registrationProcess (lib : Library) (role : Int) (uname pwd cpwd : String) :
    Outcome × Library :=
  if pwd ≠ cpwd then (Outcome.passwordMismatch, lib)
  else
    let newId := lib.generateUserId
    if role = 1 then (Outcome.ok, lib.addUserToLibrary (User.new Role.Student newId uname pwd))
    else if role = 2 then (Outcome.ok, lib.addUserToLibrary (User.new Role.Faculty newId uname pwd))
    else (Outcome.invalidUserType, lib)

/-! ## Default data -/

/-- The table `defaultTitles` of `Library::loadDefaultBooks`. -/
def defaultTitles : List (String × String × String × Int × String) :=
  [ ("The C++ Programming Language", "Bjarne Stroustrup", "Addison-Wesley", 2013, "9780321563842"),
    ("Effective C++", "Scott Meyers", "O\x27Reilly", 2005, "9780321334879"),
    ("Clean Code", "Robert C. Martin", "Prentice Hall", 2008, "9780132350884"),
    ("Design Patterns", "Erich Gamma et al.", "Addison-Wesley", 1994, "9780201633610"),
    ("Modern Operating Systems", "Andrew Tanenbaum", "Pearson", 2014, "9780133591620"),
    ("Introduction to Algorithms", "Cormen et al.", "MIT Press", 2009, "9780262033848"),
    ("Artificial Intelligence: A Modern Approach", "Stuart Russell", "Pearson", 2009,
      "9780136042594"),
    ("The Pragmatic Programmer", "Andrew Hunt", "Addison-Wesley", 1999, "9780201616224"),
    ("Code Complete", "Steve McConnell", "Microsoft Press", 2004, "9780735619678"),
    ("Refactoring", "Martin Fowler", "Addison-Wesley", 1999, "9780201485677") ]

/-- The method `Library::loadDefaultBooks`: five copies of every title, the ids
counting up from 1. -/
def loadDefaultBooks : List Book :=
  (defaultTitles.foldl
    (fun (st : List Book × Int) tpl =>
      (List.range 5).foldl
        (fun (st : List Book × Int) _ =>
          (st.1 ++ [{ id := st.2, title := tpl.1, author := tpl.2.1, publisher := tpl.2.2.1,
                      year := tpl.2.2.2.1, ISBN := tpl.2.2.2.2,
                      status := BookStatus.Available, borrowedBy := 0, reservedBy := 0 }],
           st.2 + 1))
        st)
    ([], 1)).1

/-- The default users of `Library::loadUsers`. -/
def defaultUsers : List User :=
  [ User.new Role.Student 1 "alice" "pass1",
    User.new Role.Student 2 "bob" "pass2",
    User.new Role.Student 3 "charlie" "pass3",
    User.new Role.Student 4 "diana" "pass4",
    User.new Role.Student 5 "eric" "pass5",
    User.new Role.Faculty 6 "profX" "pass6",
    User.new Role.Faculty 7 "drY" "pass7",
    User.new Role.Faculty 8 "mrZ" "pass8",
    User.new Role.Librarian 9 "librarian1" "admin1",
    User.new Role.Librarian 10 "librarian2" "admin2",
    User.new Role.Librarian 11 "librarian3" "admin3" ]

/-- The library built by the constructor `Library()` when neither data file
exists: the default seed. -/
def defaultSeed : Library :=
  { books := loadDefaultBooks, users := defaultUsers, savedBooks := none, savedUsers := none }

/-! ## Sessions -/

/-- One operation of the program, with the position of the logged-in user
and the values typed at the prompts. -/
inductive Op where
  | borrow (self : Nat) (now bookId days : Int)
  | reserve (self : Nat) (bookId : Int)
  | returnBook (self : Nat) (now bookId : Int)
  | payFine (self : Nat) (now : Int)
  | addBook (self : Nat) (title author publisher : String) (year : Int) (isbn : String)
  | removeBook (self : Nat) (id : Int)
  | addUser (self : Nat) (type : Int) (uname pwd : String)
  | removeUser (self : Nat) (id : Int)
  | register (role : Int) (uname pwd cpwd : String)
  deriving Repr

/-- Whether the user at position `self` has the dynamic type `role` (the
`dynamic_cast` tests of `loginProcess`). -/
def hasRole (lib : Library) (self : Nat) (role : Role) : Bool :=
  match lib.users[self]? with
  | none => false
  | some u => decide (u.role = role)

/-- The effect of one operation: the user portal serves students and faculty,
the librarian portal serves librarians. -/
def step (lib : Library) : Op → Library
  | Op.borrow self now bookId days => (User.borrowBook lib self now bookId days).2
  | Op.reserve self bookId => (User.reserveBook lib self bookId).2
  | Op.returnBook self now bookId => (User.returnBook lib self now bookId).2
  | Op.payFine self now =>
    if hasRole lib self Role.Librarian then lib else (User.payFine lib self now).2
  | Op.addBook self title author publisher year isbn =>
    if hasRole lib self Role.Librarian then
      (Librarian.addBook lib title author publisher year isbn).2
    else lib
  | Op.removeBook self id =>
    if hasRole lib self Role.Librarian then (Librarian.removeBook lib id).2 else lib
  | Op.addUser self type uname pwd =>
    if hasRole lib self Role.Librarian then (Librarian.addUser lib type uname pwd).2 else lib
  | Op.removeUser self id =>
    if hasRole lib self Role.Librarian then (Librarian.removeUser lib self id).2 else lib
  | Op.register role uname pwd cpwd => (registrationProcess lib role uname pwd cpwd).2

/-- The library after a sequence of operations. -/
def run (lib : Library) (ops : List Op) : Library :=
  ops.foldl step lib

/-! ## Notions used in the statements -/

/-- The book an operation addresses by `bookId`: the first book of the
collection with that id. -/
def bookWithId (lib : Library) (bookId : Int) : Option Book :=
  lib.books.find? (fun b => decide (b.id = bookId))

/-- The default duration the hand-off of `returnBook` gives the reserving
user: `Student::returnBook` starts from 15 and tests the reserving user for
`Faculty`, `Faculty::returnBook` uses the constant 30. -/
def handoffDays (returner reserver : Role) : Int :=
  match returner with
  | Role.Student => if reserver = Role.Faculty then 30 else 15
  | _ => 30

/-! ## Concrete scenarios -/

/-- The default user `alice` (student, id 1, position 0). -/
def alice : User := User.new Role.Student 1 "alice" "pass1"

/-- The default user `bob` (student, id 2, position 1). -/
def bob : User := User.new Role.Student 2 "bob" "pass2"

/-- The default user `profX` (faculty, id 6, position 5). -/
def profX : User := User.new Role.Faculty 6 "profX" "pass6"

/-- The first default book (id 1, position 0). -/
def book1 : Book :=
  { id := 1, title := "The C++ Programming Language", author := "Bjarne Stroustrup",
    publisher := "Addison-Wesley", year := 2013, ISBN := "9780321563842",
    status := BookStatus.Available, borrowedBy := 0, reservedBy := 0 }

/-- The user `alice` holding book 1, borrowed for 5 days at time 0. -/
def aliceWithLoan : User :=
  { alice with account :=
      { borrowRecords := [{ bookId := 1, borrowTimestamp := 0, borrowDays := 5 }],
        fineDue := 0 } }

/-- The user `profX` holding book 1, borrowed for 10 days at time 0. -/
def profXWithLoan : User :=
  { profX with account :=
      { borrowRecords := [{ bookId := 1, borrowTimestamp := 0, borrowDays := 10 }],
        fineDue := 0 } }

/-- The default seed after `alice` borrowed book 1 for 5 days at time 0. -/
def aliceLoan : Library :=
  run defaultSeed [Op.borrow 0 0 1 5]

/-- The default seed after `alice` borrowed book 1 for 5 days at time 0 and
`bob` reserved it. -/
def aliceLoanBobReserved : Library :=
  run defaultSeed [Op.borrow 0 0 1 5, Op.reserve 1 1]

/-- The default seed after `profX` borrowed book 1 for 10 days at time 0. -/
def profLoan : Library :=
  run defaultSeed [Op.borrow 5 0 1 10]

/-- The default seed after `profX` borrowed book 1 for 10 days at time 0 and
`alice` reserved it. -/
def profLoanAliceReserved : Library :=
  run defaultSeed [Op.borrow 5 0 1 10, Op.reserve 0 1]

/-- A session in which `alice` ends up holding a record for a book that is
reserved by herself: she borrows book 50, `librarian1` removes book 50 and
adds a new book (which gets the id 50 again), `bob` borrows the new book 50
and `alice` reserves it. -/
def staleRecordSession : List Op :=
  [ Op.borrow 0 0 50 10,
    Op.removeBook 8 50,
    Op.addBook 8 "Compilers" "Aho et al." "Pearson" 2006 "9780321486813",
    Op.borrow 1 10 50 10,
    Op.reserve 0 50 ]

/-- The library after `staleRecordSession`. -/
def staleRecordState : Library :=
  run defaultSeed staleRecordSession

/-- A session that ends with a book borrowed and reserved by the same id: a
student registers (id 12), `alice` borrows book 1, the new student reserves
it, `librarian1` removes the new student, `alice` returns book 1, another
student registers (id 12 again) and borrows book 1. -/
def reusedIdSession : List Op :=
  [ Op.register 1 "zed" "pw" "pw",
    Op.borrow 0 1000 1 10,
    Op.reserve 11 1,
    Op.removeUser 8 12,
    Op.returnBook 0 2000 1,
    Op.register 1 "yan" "pw" "pw",
    Op.borrow 11 3000 1 10 ]

/-! ## Book list of the user portal -/

/-- The status text `Library::printBooksForUser` computes for one book. -/
def shownStatus (book : Book) (currentUserId : Int) : String :=
  if book.borrowedBy = 0 then "Available"
  else if book.borrowedBy = currentUserId then "Borrowed"
  else if book.reservedBy ≠ 0 then
    if book.reservedBy = currentUserId then "Reserved (For You)"
    else "Reserved"
  else "Borrowed"

/-- One block printed by `Library::printBooksForUser`. -/
structure BookListEntry where
  id : Int
  title : String
  publisher : String
  year : Int
  ISBN : String
  status : String
  deriving DecidableEq, Repr

/-- The method `Library::printBooksForUser`: the blocks printed, in order. -/
def Library.printBooksForUser (lib : Library) (currentUserId : Int) : List BookListEntry :=
  lib.books.map (fun book =>
    { id := book.id, title := book.title, publisher := book.publisher, year := book.year,
      ISBN := book.ISBN, status := shownStatus book currentUserId })

/-- The derived status in the words of the specification, as a function of
the two owner references and the viewer. -/
def specStatus (borrowedBy reservedBy viewerId : Int) : String :=
  match decide (borrowedBy = 0), decide (borrowedBy = viewerId), decide (reservedBy = 0),
      decide (reservedBy = viewerId) with
  | true, _, _, _ => "Available"
  | false, true, _, _ => "Borrowed"
  | false, false, false, true => "Reserved (For You)"
  | false, false, false, false => "Reserved"
  | false, false, true, _ => "Borrowed"

/-- The quotient `floor((now - borrowTimestamp) / 86400)` of the
specification, taken in the rationals. -/
def floorDays (now borrowTimestamp : Int) : Int :=
  Int.floor (((now - borrowTimestamp : Int) : ℚ) / 86400)

/-- The quotient `(now - borrowTimestamp) / 86400` rounded up. -/
def ceilDays (now borrowTimestamp : Int) : Int :=
  Int.ceil (((now - borrowTimestamp : Int) : ℚ) / 86400)

/-- The amount `returnBook` adds to the fine of the returning user:
`Student::returnBook` charges 10 per day beyond 15 elapsed days,
`Faculty::returnBook` charges nothing. -/
def returnFine (role : Role) (elapsed : Int) : Int :=
  if role = Role.Student ∧ elapsed > 15 then Student.overdueFine elapsed 15 else 0

/-! ## Reachability through the user portal -/

/-- The operations Borrow, Reserve, Return and PayFine. -/
def Op.isUserOp : Op → Bool
  | Op.borrow _ _ _ _ => true
  | Op.reserve _ _ => true
  | Op.returnBook _ _ _ => true
  | Op.payFine _ _ => true
  | _ => false

/-- The states reachable from `init` by Borrow, Reserve, Return and PayFine. -/
def ReachableByUserOps (init lib : Library) : Prop :=
  ∃ ops : List Op, (∀ op ∈ ops, op.isUserOp = true) ∧ run init ops = lib

/-- Consistency of a library: user ids are non-zero and pairwise distinct,
book ids are pairwise distinct, a book without borrower has the stored status
`Available`, and every record of an account is for a book borrowed by the
owner of the account. -/
def Consistent (lib : Library) : Prop :=
  (∀ u ∈ lib.users, u.userId ≠ 0) ∧
  (lib.users.map (fun u => u.userId)).Nodup ∧
  (lib.books.map (fun b => b.id)).Nodup ∧
  (∀ b ∈ lib.books, b.borrowedBy = 0 → b.status = BookStatus.Available) ∧
  (∀ u ∈ lib.users, ∀ r ∈ u.account.borrowRecords, ∀ b ∈ lib.books,
    b.id = r.bookId → b.borrowedBy = u.userId)

/-! ## Further scenarios -/

/-- A session after which `alice` holds two records for the id 50: she
borrows book 50, `librarian1` removes book 50 and adds a new book (which gets
the id 50 again), and `alice` borrows the new book 50. -/
def duplicateRecordSession : List Op :=
  [ Op.borrow 0 0 50 10,
    Op.removeBook 8 50,
    Op.addBook 8 "Compilers" "Aho et al." "Pearson" 2006 "9780321486813",
    Op.borrow 0 10 50 10 ]

/-- The library after `duplicateRecordSession`. -/
def duplicateRecordState : Library :=
  run defaultSeed duplicateRecordSession

/-- The user `alice` with an outstanding fine of 50 and book 2 on loan. -/
def aliceFined : User :=
  { alice with account :=
      { borrowRecords := [{ bookId := 2, borrowTimestamp := 0, borrowDays := 5 }],
        fineDue := 50 } }

/-- The default seed with `aliceFined` in place of `alice` and book 2 borrowed
by her. -/
def finedState : Library :=
  { defaultSeed with
    users := defaultSeed.users.set 0 aliceFined,
    books := defaultSeed.books.modify
      (fun b => { b with status := BookStatus.Borrowed, borrowedBy := 1 }) 1 }

/-- The session in which `profX` borrows book 1 of the default seed for
-30000 days at time 0. -/
def negativeDaysSession : List Op :=
  [Op.borrow 5 0 1 (-30000)]

/-- The library after `negativeDaysSession`. -/
def negativeDaysState : Library :=
  run defaultSeed negativeDaysSession

/-! ## Trimming -/

/-- The function `isspace` of the C locale. -/
def isspace (c : Char) : Bool :=
  c = ' ' || c = '\t' || c = '\n' || c = '\x0b' || c = '\x0c' || c = '\r'

/-- The first loop of `trim`: the number of steps `start` advances, that is
the number of leading whitespace characters. -/
def skipSpaces : List Char → Nat
  | [] => 0
  | c :: cs => if isspace c then skipSpaces cs + 1 else 0

/-- The loop `do { end--; } while (distance(start, end) > 0 && isspace(*end))`
of `trim`, started with `end` at the argument (at least 1): the final `end`. -/
def trimEndLoop (s : List Char) (start : Nat) : Nat → Nat
  | 0 => 0
  | e + 1 => if start < e ∧ isspace (s.getD e ' ') = true then trimEndLoop s start e else e

/-- The function `trim` on the characters of the string.  The result is
`string(start, end + 1)`; it is `none` when `end + 1` lies beyond `s.end()`,
where the range constructor reads outside the string (undefined behaviour). -/
def trim (s : List Char) : Option (List Char) :=
  let start := skipSpaces s
  let stop := if start ≠ s.length then trimEndLoop s start s.length else s.length
  if stop + 1 ≤ s.length then some ((s.drop start).take (stop + 1 - start)) else none

/-- The string without its leading and its trailing whitespace, as the
specification describes the result of `trim`. -/
def specTrim (s : List Char) : List Char :=
  ((s.dropWhile isspace).reverse.dropWhile isspace).reverse

/-! ## Sessions of Borrow, Reserve and Return -/

/-- The operations Borrow, Reserve and Return. -/
def Op.isLoanOp : Op → Bool
  | Op.borrow _ _ _ _ => true
  | Op.reserve _ _ => true
  | Op.returnBook _ _ _ => true
  | _ => false

/-- A session after which the student `bob` holds four books: he borrows the
books 1, 2 and 3, `alice` borrows book 4, `bob` reserves it and `alice`
returns it. -/
def studentOverCapacitySession : List Op :=
  [ Op.borrow 1 0 1 5, Op.borrow 1 0 2 5, Op.borrow 1 0 3 5,
    Op.borrow 0 0 4 5, Op.reserve 1 4, Op.returnBook 0 10 4 ]

/-- A session after which the faculty member `profX` holds six books: he
borrows the books 1 to 5, `alice` borrows book 6, `profX` reserves it and
`alice` returns it. -/
def facultyOverCapacitySession : List Op :=
  [ Op.borrow 5 0 1 5, Op.borrow 5 0 2 5, Op.borrow 5 0 3 5, Op.borrow 5 0 4 5,
    Op.borrow 5 0 5 5, Op.borrow 0 0 6 5, Op.reserve 5 6, Op.returnBook 0 10 6 ]

/-- A session that leaves a reservation of a removed user on book 1: a
student registers (id 12), `alice` borrows book 1, the new student reserves
it and `librarian1` removes the new student. -/
def orphanReservationSession : List Op :=
  [ Op.register 1 "zed" "pw" "pw",
    Op.borrow 0 1000 1 10,
    Op.reserve 11 1,
    Op.removeUser 8 12 ]

/-- The library after `orphanReservationSession`. -/
def orphanReservationState : Library :=
  run defaultSeed orphanReservationSession

/-- A library with a single book of id -5. -/
def negativeIdLibrary : Library :=
  { books := [{ book1 with id := -5 }], users := [], savedBooks := none, savedUsers := none }

/-- A library with a single user of id -5. -/
def negativeUserIdLibrary : Library :=
  { books := [], users := [User.new Role.Student (-5) "eve" "pw"], savedBooks := none,
    savedUsers := none }

/-! ## Start states and coherence -/

/-- A start state: user ids non-zero and pairwise distinct, book ids pairwise
distinct, every account without record, every book with `borrowedBy = 0`,
`reservedBy = 0` and stored status `Available`. -/
def FreshStart (lib : Library) : Prop :=
  (∀ u ∈ lib.users, u.userId ≠ 0) ∧
  (lib.users.map (fun u => u.userId)).Nodup ∧
  (lib.books.map (fun b => b.id)).Nodup ∧
  (∀ u ∈ lib.users, u.account.borrowRecords = []) ∧
  (∀ b ∈ lib.books, b.borrowedBy = 0 ∧ b.reservedBy = 0 ∧ b.status = BookStatus.Available)

/-- The stored status of a book agrees with its owner references, and a
reservation is held by an existing user other than the borrower. -/
def Book.Settled (users : List User) (b : Book) : Prop :=
  (b.borrowedBy = 0 → b.reservedBy = 0 ∧ b.status = BookStatus.Available) ∧
  (b.borrowedBy ≠ 0 → b.reservedBy = 0 → b.status = BookStatus.Borrowed) ∧
  (b.reservedBy ≠ 0 →
    b.status = BookStatus.Reserved ∧ b.reservedBy ≠ b.borrowedBy ∧
      ∃ v ∈ users, v.userId = b.reservedBy)

/-- Coherence of a library: it is `Consistent`, every book is `Settled`, the
borrower of a book holds a record for it, and no account holds two records for
one book id. -/
def Coherent (lib : Library) : Prop :=
  Consistent lib ∧
  (∀ b ∈ lib.books, b.Settled lib.users) ∧
  (∀ u ∈ lib.users, ∀ b ∈ lib.books, b.borrowedBy = u.userId →
    ∃ r ∈ u.account.borrowRecords, r.bookId = b.id) ∧
  (∀ u ∈ lib.users, (u.account.borrowRecords.map (fun r => r.bookId)).Nodup)

/-- A start state in which the stored status of the only book is `Borrowed`
although nobody has borrowed or reserved it. -/
def misleadingStatusStart : Library :=
  { books := [{ book1 with status := BookStatus.Borrowed }], users := [alice],
    savedBooks := none, savedUsers := none }

/-- The session Reserve, Borrow, Return of book 1 by the user at position 0. -/
def selfHandoffSession : List Op :=
  [ Op.reserve 0 1, Op.borrow 0 10 1 5, Op.returnBook 0 20 1 ]

/-! ## Text of the data files -/

/-- The state of an input stream (`istringstream`, `ifstream`): the
characters not yet read and the state bits `eofbit` and `failbit`. -/
structure IStream where
  rest : List Char
  eof : Bool
  fail : Bool
  deriving DecidableEq, Repr

/-- The call `getline(is, str, delim)`, returning the stream and `str`.  On a
stream that is not `good()` it sets `failbit` and leaves `str` as it is.
Otherwise `str` is erased and receives the characters up to the delimiter,
which is extracted and dropped; when the input ends first, `eofbit` is set,
and `failbit` too when nothing at all was extracted. -/
def IStream.getline (is : IStream) (str : List Char) (delim : Char) : IStream × List Char :=
  if is.eof = true ∨ is.fail = true then ({ is with fail := true }, str)
  else
    let token := is.rest.takeWhile (fun c => decide (c ≠ delim))
    match is.rest.dropWhile (fun c => decide (c ≠ delim)) with
    | [] => ({ rest := [], eof := true, fail := token.isEmpty }, token)
    | _ :: rest => ({ rest := rest, eof := false, fail := false }, token)

/-- The value of a sequence of decimal digits. -/
def digitsVal (digits : List Char) : Nat :=
  digits.foldl (fun acc c => acc * 10 + (c.toNat - 48)) 0

/-- The function `std::stoi` in base 10: leading whitespace is skipped, an
optional sign and the longest run of digits are read.  The result is `none`
when the call throws: `invalid_argument` without a digit, `out_of_range`
when the value is not an `int`. -/
def stoi (str : List Char) : Option Int :=
  let s := str.dropWhile isspace
  let body := if s.head? = some '-' ∨ s.head? = some '+' then s.tail else s
  let digits := body.takeWhile Char.isDigit
  if digits = [] then none
  else
    let value : Int := if s.head? = some '-' then - (digitsVal digits : Int) else digitsVal digits
    if -2147483648 ≤ value ∧ value ≤ 2147483647 then some value else none

/-- The characters `operator<<` writes for an `int`. -/
def showInt (v : Int) : List Char :=
  if v < 0 then '-' :: Nat.toDigits 10 v.natAbs else Nat.toDigits 10 v.natAbs

/-- Function `statusToString`. -/
def statusToString (status : BookStatus) : String :=
  match status with
  | BookStatus.Available => "Available"
  | BookStatus.Borrowed => "Borrowed"
  | BookStatus.Reserved => "Reserved"

/-- Function `stringToStatus`. -/
def stringToStatus (str : String) : BookStatus :=
  if str = "Available" then BookStatus.Available
  else if str = "Borrowed" then BookStatus.Borrowed
  else if str = "Reserved" then BookStatus.Reserved
  else BookStatus.Available

/-- The default constructor `Book()`, which is also the value the `catch`
block of `Book::deserialize` assigns. -/
def Book.empty : Book :=
  { id := 0, title := "", author := "", publisher := "", year := 0, ISBN := "",
    status := BookStatus.Available, borrowedBy := 0, reservedBy := 0 }

/-- Method `Book::serialize`. -/
def Book.serialize (self : Book) : String :=
  String.mk (showInt self.id ++ ';' :: (self.title.data ++ ';' :: (self.author.data ++ ';' ::
    (self.publisher.data ++ ';' :: (showInt self.year ++ ';' :: (self.ISBN.data ++ ';' ::
    ((statusToString self.status).data ++ ';' :: (showInt self.borrowedBy ++ ';' ::
    showInt self.reservedBy))))))))

/-- Method `Book::deserialize`: the object after the call.  The variable
`token` and the string members keep their content when a `getline` fails;
an exception of `stoi` leads to the `catch` block. -/
def Book.deserialize (self : Book) (data : String) : Book :=
  let iss : IStream := { rest := data.data, eof := false, fail := false }
  let r1 := iss.getline [] ';'
  match stoi r1.2 with
  | none => Book.empty
  | some id =>
    let r2 := r1.1.getline self.title.data ';'
    let r3 := r2.1.getline self.author.data ';'
    let r4 := r3.1.getline self.publisher.data ';'
    let r5 := r4.1.getline r1.2 ';'
    match stoi r5.2 with
    | none => Book.empty
    | some year =>
      let r6 := r5.1.getline self.ISBN.data ';'
      let r7 := r6.1.getline r5.2 ';'
      let r8 := r7.1.getline r7.2 ';'
      match stoi r8.2 with
      | none => Book.empty
      | some borrowedBy =>
        let r9 := r8.1.getline r8.2 ';'
        match stoi r9.2 with
        | none => Book.empty
        | some reservedBy =>
          { id := id, title := String.mk r2.2, author := String.mk r3.2,
            publisher := String.mk r4.2, year := year, ISBN := String.mk r6.2,
            status := stringToStatus (String.mk r7.2), borrowedBy := borrowedBy,
            reservedBy := reservedBy }

/-- The loop `while (getline(fin, line))` of `Library::loadBooks`: the final
`tempBooks`.  One iteration per unit of fuel. -/
def loadBooksLoop : Nat → IStream → List Char → List Book → List Book
  | 0, _, _, tempBooks => tempBooks
  | fuel + 1, fin, line, tempBooks =>
    let r := fin.getline line '\n'
    if r.1.fail = true then tempBooks
    else if r.2.isEmpty = true then loadBooksLoop fuel r.1 r.2 tempBooks
    else loadBooksLoop fuel r.1 r.2 (tempBooks ++ [Book.empty.deserialize (String.mk r.2)])

/-- Method `Library::loadBooks`: the collection `books` after the call, for
the content of `books.txt` (`none` when the file cannot be opened).  The
loop reads at least one character per line, so the length of the file plus
one bounds its iterations. -/
def Library.loadBooks (file : Option String) : List Book :=
  match file with
  | none => loadDefaultBooks
  | some content =>
    if content.data = [] then loadDefaultBooks
    else
      let tempBooks := loadBooksLoop (content.data.length + 1)
        { rest := content.data, eof := false, fail := false } [] []
      match tempBooks with
      | [] => loadDefaultBooks
      | first :: _ => if first.title.data = [] then loadDefaultBooks else tempBooks

/-- The result of code that can fail to return. -/
inductive Loaded (α : Type) where
  /-- The code returns. -/
  | ok (value : α)
  /-- An exception leaves the function. -/
  | raised
  /-- The code reads beyond the end of a string (undefined behaviour). -/
  | readPastEnd
  deriving DecidableEq, Repr

/-- Method `User::deserialize`, on an object of dynamic type `role`.  The
account part is left to `accountOf`, which stands for `Account::deserialize`
(it catches its exceptions, and its result depends on its argument only).
The `stoi` of the user id is outside any `try` block. -/
def User.deserialize (accountOf : List Char → Account) (self : User) (data : List Char) :
    Loaded User :=
  let iss : IStream := { rest := data, eof := false, fail := false }
  let r1 := iss.getline [] ';'
  match stoi r1.2 with
  | none => Loaded.raised
  | some userId =>
    let r2 := r1.1.getline self.username.data ';'
    match trim r2.2 with
    | none => Loaded.readPastEnd
    | some username =>
      let r3 := r2.1.getline self.password.data ';'
      match trim r3.2 with
      | none => Loaded.readPastEnd
      | some password =>
        let r4 := r3.1.getline [] '\n'
        Loaded.ok { self with userId := userId, username := String.mk username,
                              password := String.mk password, account := accountOf r4.2 }

/-- The object `new Student()`, `new Faculty()` or `new Librarian()` for the
type name of a line of `users.txt`, `none` for any other name. -/
def newUserOfType (type : List Char) : Option User :=
  if type = "Student".data then some (User.new Role.Student 0 "" "")
  else if type = "Faculty".data then some (User.new Role.Faculty 0 "" "")
  else if type = "Librarian".data then some (User.new Role.Librarian 0 "" "")
  else none

/-- The loop `while (getline(fin, line))` of `Library::loadUsers`: the final
`users`.  One iteration per unit of fuel. -/
def loadUsersLoop (accountOf : List Char → Account) :
    Nat → IStream → List Char → List User → Loaded (List User)
  | 0, _, _, users => Loaded.ok users
  | fuel + 1, fin, line, users =>
    let r := fin.getline line '\n'
    if r.1.fail = true then Loaded.ok users
    else if r.2.isEmpty = true then loadUsersLoop accountOf fuel r.1 r.2 users
    else
      let iss : IStream := { rest := r.2, eof := false, fail := false }
      let t := iss.getline [] ';'
      match newUserOfType t.2 with
      | none => loadUsersLoop accountOf fuel r.1 r.2 users
      | some user =>
        let d := t.1.getline [] '\n'
        match User.deserialize accountOf user d.2 with
        | Loaded.ok user => loadUsersLoop accountOf fuel r.1 r.2 (users ++ [user])
        | Loaded.raised => Loaded.raised
        | Loaded.readPastEnd => Loaded.readPastEnd

/-- Method `Library::loadUsers`: the collection `users` after the call, for
the content of `users.txt` (`none` when the file cannot be opened). -/
def Library.loadUsers (accountOf : List Char → Account) (file : Option String) :
    Loaded (List User) :=
  match file with
  | none => Loaded.ok defaultUsers
  | some content =>
    if content.data = [] then Loaded.ok defaultUsers
    else loadUsersLoop accountOf (content.data.length + 1)
      { rest := content.data, eof := false, fail := false } [] []

/-- A `books.txt` whose first line is a book and whose second line is not. -/
def malformedBooksFile : String :=
  "1;Dune;Frank Herbert;Chilton;1965;ISBN1;Available;0;0\nnot a book\n"

/-- A `books.txt` whose second line has two fields only. -/
def shortLineBooksFile : String :=
  "1;Dune;Frank Herbert;Chilton;1965;ISBN1;Available;0;0\n7;Emma\n"

/-- The first book of `malformedBooksFile`. -/
def dune : Book :=
  { id := 1, title := "Dune", author := "Frank Herbert", publisher := "Chilton", year := 1965,
    ISBN := "ISBN1", status := BookStatus.Available, borrowedBy := 0, reservedBy := 0 }

/-! ## Properties -/

/-- An `int` operation whose exact result is an `int` yields that result. -/
theorem wrapInt_of_isInt (x : Int) (h : IsInt x) : wrapInt x = x := by
  unfold IsInt at h
  unfold wrapInt
  omega

/-- The result of an `int` operation is an `int`. -/
theorem isInt_wrapInt (x : Int) : IsInt (wrapInt x) := by
  unfold IsInt wrapInt
  omega

/-- The conversion to `int` of a value in the range of `int` is that value. -/
theorem castToInt_of_isInt (x : Int) (h : IsInt x) : castToInt x = x := by
  unfold castToInt
  rw [if_pos h]

/-- The result of `static_cast<int>` is an `int`. -/
theorem isInt_castToInt (x : Int) : IsInt (castToInt x) := by
  unfold castToInt
  split
  · assumption
  · unfold IsInt; omega

/-- The elapsed days are an `int`. -/
theorem isInt_elapsedDays (now borrowTime : Int) : IsInt (elapsedDays now borrowTime) :=
  isInt_castToInt _

/-- For a record whose `borrowDays` lie between -24915 and 24795 the product
`(borrowDays + 60) * 86400` is an `int` and the test of the overdue loop is
the exact comparison. -/
theorem overdueBeyond60_of_range (now : Int) (r : BorrowRecord)
    (h : -24915 ≤ r.borrowDays ∧ r.borrowDays ≤ 24795) :
    overdueBeyond60 now r =
      decide (now - r.borrowTimestamp > (r.borrowDays + 60) * 86400) := by
  unfold overdueBeyond60
  rw [wrapInt_of_isInt (r.borrowDays + 60) (by unfold IsInt; omega),
    wrapInt_of_isInt _ (by unfold IsInt; omega)]

/-- For more than 15 and at most 214748379 elapsed days the amount
`overdue * 10` is an `int` and is the exact product. -/
theorem overdueFine_of_range (elapsed : Int) (h1 : 15 < elapsed) (h2 : elapsed ≤ 214748379) :
    Student.overdueFine elapsed 15 = (elapsed - 15) * 10 := by
  unfold Student.overdueFine
  rw [wrapInt_of_isInt (elapsed - 15) (by unfold IsInt; omega),
    wrapInt_of_isInt _ (by unfold IsInt; omega)]

theorem firstWith_map_snd {α : Type} (p : α → Bool) (xs : List α) :
    (firstWith p xs).map Prod.snd = xs.find? p := by
  induction xs with
  | nil => rfl
  | cons x xs ih =>
    by_cases h : p x = true
    · simp [firstWith, h]
    · simp only [firstWith, h, List.find?_cons]
      cases hf : firstWith p xs with
      | none => simp [hf] at ih ⊢; simpa using ih
      | some kv => simp [hf] at ih ⊢; simpa using ih

theorem firstWith_eq_none {α : Type} (p : α → Bool) (xs : List α) :
    firstWith p xs = none ↔ xs.find? p = none := by
  rw [← firstWith_map_snd]; simp

theorem firstWith_some {α : Type} (p : α → Bool) (xs : List α) (k : Nat) (x : α)
    (h : firstWith p xs = some (k, x)) :
    xs[k]? = some x ∧ p x = true ∧ xs.find? p = some x ∧
      ∀ j y, j < k → xs[j]? = some y → p y = false := by
  induction xs generalizing k with
  | nil => simp [firstWith] at h
  | cons a xs ih =>
    by_cases ha : p a = true
    · simp [firstWith, ha] at h
      obtain ⟨rfl, rfl⟩ := h
      simp [ha]
    · simp only [firstWith, ha] at h
      cases hf : firstWith p xs with
      | none => simp [hf] at h
      | some kv =>
        obtain ⟨k', y⟩ := kv
        simp [hf] at h
        obtain ⟨rfl, rfl⟩ := h
        obtain ⟨h1, h2, h3, h4⟩ := ih k' hf
        refine ⟨by simpa using h1, h2, by simp [List.find?_cons, ha, h3], ?_⟩
        intro j y hj hy
        cases j with
        | zero => simp at hy; subst hy; simpa using ha
        | succ j => exact h4 j y (by omega) (by simpa using hy)

theorem findBookById_none (lib : Library) (bookId : Int) :
    lib.findBookById bookId = none ↔ bookWithId lib bookId = none := by
  simp [Library.findBookById, bookWithId, firstWith_eq_none]

theorem findBookById_some (lib : Library) (bookId : Int) (k : Nat) (b : Book)
    (h : lib.findBookById bookId = some (k, b)) :
    lib.books[k]? = some b ∧ b.id = bookId ∧ bookWithId lib bookId = some b := by
  have := firstWith_some _ _ _ _ h
  exact ⟨this.1, by simpa using this.2.1, this.2.2.1⟩

theorem bookWithId_eq_none (lib : Library) (bookId : Int) :
    bookWithId lib bookId = none ↔ ∀ b ∈ lib.books, b.id ≠ bookId := by
  simp [bookWithId]

/-- C1: for every library state, Student user, book id and requested days,
Borrow succeeds exactly when the fine is not positive, the account holds fewer
than 3 records, a book with the id exists, that book has `borrowedBy = 0` and
the requested days are at most 15; the first of these conditions that fails,
in this order, determines the reported reason. -/
theorem student_borrow_first_failure (lib : Library) (self : Nat) (u : User)
    (now bookId days : Int)
    (hu : lib.users[self]? = some u) (hr : u.role = Role.Student) :
    ((User.borrowBook lib self now bookId days).1 = Outcome.ok ↔
        (¬ u.account.fineDue > 0 ∧ u.account.borrowRecords.length < 3 ∧
          ∃ b, bookWithId lib bookId = some b ∧ b.borrowedBy = 0 ∧ days ≤ 15)) ∧
    (u.account.fineDue > 0 →
        (User.borrowBook lib self now bookId days).1 = Outcome.outstandingFine) ∧
    (¬ u.account.fineDue > 0 → 3 ≤ u.account.borrowRecords.length →
        (User.borrowBook lib self now bookId days).1 = Outcome.limitReached) ∧
    (¬ u.account.fineDue > 0 → u.account.borrowRecords.length < 3 →
        (∀ b ∈ lib.books, b.id ≠ bookId) →
        (User.borrowBook lib self now bookId days).1 = Outcome.bookNotFound) ∧
    (∀ b, ¬ u.account.fineDue > 0 → u.account.borrowRecords.length < 3 →
        bookWithId lib bookId = some b → b.borrowedBy ≠ 0 →
        (User.borrowBook lib self now bookId days).1 = Outcome.notAvailable) ∧
    (∀ b, ¬ u.account.fineDue > 0 → u.account.borrowRecords.length < 3 →
        bookWithId lib bookId = some b → b.borrowedBy = 0 → days > 15 →
        (User.borrowBook lib self now bookId days).1 = Outcome.periodExceeded) := by
  simp only [User.borrowBook, hu, hr, Student.borrowBook, Student.maxBooks, Student.maxDays]
  by_cases hf : u.account.fineDue > 0
  · simp [hf]
  by_cases hl : u.account.borrowRecords.length ≥ 3
  · simp [hf, hl]
  cases hb : lib.findBookById bookId with
  | none =>
    have h1 := (findBookById_none lib bookId).1 hb
    have h2 := (bookWithId_eq_none lib bookId).1 h1
    simp [hf, hl, h1]
  | some kb =>
    obtain ⟨k, b⟩ := kb
    obtain ⟨h1, h2, h3⟩ := findBookById_some lib bookId k b hb
    have h4 : ¬ ∀ b ∈ lib.books, b.id ≠ bookId := by
      rw [← bookWithId_eq_none, h3]; simp
    by_cases hbb : b.borrowedBy = 0
    · by_cases hd : days > 15
      · simp [hf, hl, h3, hbb, hd, h4]
      · simp [hf, hl, h3, hbb, hd, h4]; omega
    · simp [hf, hl, h3, hbb, h4]
/-- C2 (amended): for every library state, book id, requested days and
Faculty user whose records all have `borrowDays` between -24915 and 24795
(the values for which `(borrowDays + 60) * 86400` is an `int`), Borrow is
rejected, whatever the number of records held, as soon as some record of the
user satisfies `now - borrowTimestamp > (borrowDays + 60) * 86400` (in
particular when a record is 61 days or more beyond its intended days); when
no record does, Borrow succeeds exactly when the user holds fewer than 5
records, the book exists, its `borrowedBy` is 0 and the requested days are at
most 30. -/
theorem faculty_borrow_overdue_gate (lib : Library) (self : Nat) (u : User)
    (now bookId days : Int)
    (hu : lib.users[self]? = some u) (hr : u.role = Role.Faculty)
    (hrange : ∀ r ∈ u.account.borrowRecords, -24915 ≤ r.borrowDays ∧ r.borrowDays ≤ 24795) :
    ((∃ r ∈ u.account.borrowRecords,
          now - r.borrowTimestamp > (r.borrowDays + 60) * 86400) →
        User.borrowBook lib self now bookId days = (Outcome.overdueBlocked, lib)) ∧
    ((∃ r ∈ u.account.borrowRecords,
          now - r.borrowTimestamp ≥ (r.borrowDays + 61) * 86400) →
        User.borrowBook lib self now bookId days = (Outcome.overdueBlocked, lib)) ∧
    ((∀ r ∈ u.account.borrowRecords,
          ¬ now - r.borrowTimestamp > (r.borrowDays + 60) * 86400) →
        ((User.borrowBook lib self now bookId days).1 = Outcome.ok ↔
          (u.account.borrowRecords.length < 5 ∧
            ∃ b, bookWithId lib bookId = some b ∧ b.borrowedBy = 0 ∧ days ≤ 30))) := by
  have key : (∃ r ∈ u.account.borrowRecords,
          now - r.borrowTimestamp > (r.borrowDays + 60) * 86400) →
        User.borrowBook lib self now bookId days = (Outcome.overdueBlocked, lib) := by
    rintro ⟨r, hr1, hr2⟩
    have : u.account.borrowRecords.any (overdueBeyond60 now) = true := by
      rw [List.any_eq_true]
      exact ⟨r, hr1, by
        rw [overdueBeyond60_of_range now r (hrange r hr1)]; simpa using hr2⟩
    simp [User.borrowBook, hu, hr, Faculty.borrowBook, this]
  refine ⟨key, ?_, ?_⟩
  · rintro ⟨r, hr1, hr2⟩
    exact key ⟨r, hr1, by omega⟩
  · intro hno
    have : u.account.borrowRecords.any (overdueBeyond60 now) = false := by
      rw [Bool.eq_false_iff]
      intro h
      rw [List.any_eq_true] at h
      obtain ⟨r, hr1, hr2⟩ := h
      rw [overdueBeyond60_of_range now r (hrange r hr1)] at hr2
      exact hno r hr1 (by simpa using hr2)
    simp only [User.borrowBook, hu, hr, Faculty.borrowBook, this, Faculty.maxBooks,
      Faculty.maxDays]
    by_cases hl : u.account.borrowRecords.length ≥ 5
    · simp [hl]
    cases hb : lib.findBookById bookId with
    | none =>
      have h1 := (findBookById_none lib bookId).1 hb
      simp [hl, h1]
    | some kb =>
      obtain ⟨k, b⟩ := kb
      obtain ⟨h1, h2, h3⟩ := findBookById_some lib bookId k b hb
      by_cases hbb : b.borrowedBy = 0
      · by_cases hd : days > 30
        · simp [hl, h3, hbb, hd]
        · simp [hl, h3, hbb, hd]; omega
      · simp [hl, h3, hbb]

theorem modifyBook_books_getElem? (lib : Library) (k : Nat) (f : Book → Book) (j : Nat) :
    (lib.modifyBook k f).books[j]? = (lib.books[j]?).map (fun b => if k = j then f b else b) := by
  simp [Library.modifyBook, List.getElem?_modify]

theorem modifyAccount_users_getElem? (lib : Library) (i : Nat) (f : Account → Account) (j : Nat) :
    (lib.modifyAccount i f).users[j]? =
      (lib.users[j]?).map (fun u => if i = j then { u with account := f u.account } else u) := by
  simp [Library.modifyAccount, List.getElem?_modify]

@[simp]
theorem modifyBook_users (lib : Library) (k : Nat) (f : Book → Book) :
    (lib.modifyBook k f).users = lib.users := rfl

@[simp]
theorem modifyAccount_books (lib : Library) (i : Nat) (f : Account → Account) :
    (lib.modifyAccount i f).books = lib.books := rfl

@[simp]
theorem saveBooks_books (lib : Library) : lib.saveBooks.books = lib.books := rfl

@[simp]
theorem saveBooks_users (lib : Library) : lib.saveBooks.users = lib.users := rfl

/-- C3: after a successful Borrow at time `now` the addressed book has
`borrowedBy` equal to the id of the user and status `Borrowed`, its other
fields (in particular `reservedBy`) and every other book are unchanged; the
record list of the user is the old list with the record
`(bookId, now, days)` appended, the fine of the user and every other user are
unchanged. -/
theorem borrow_success_effect (lib : Library) (self : Nat) (u : User)
    (now bookId days : Int)
    (hu : lib.users[self]? = some u)
    (hok : (User.borrowBook lib self now bookId days).1 = Outcome.ok) :
    ∃ k b, lib.findBookById bookId = some (k, b) ∧
      (User.borrowBook lib self now bookId days).2.books[k]? =
        some { b with status := BookStatus.Borrowed, borrowedBy := u.userId } ∧
      (∀ j, j ≠ k →
        (User.borrowBook lib self now bookId days).2.books[j]? = lib.books[j]?) ∧
      (User.borrowBook lib self now bookId days).2.users[self]? =
        some { u with account :=
          { borrowRecords := u.account.borrowRecords ++
              [{ bookId := bookId, borrowTimestamp := now, borrowDays := days }],
            fineDue := u.account.fineDue } } ∧
      (∀ j, j ≠ self →
        (User.borrowBook lib self now bookId days).2.users[j]? = lib.users[j]?) := by
  cases hrole : u.role with
  | Librarian => simp [User.borrowBook, hu, hrole] at hok
  | Student =>
    simp only [User.borrowBook, hu, hrole, Student.borrowBook] at hok ⊢
    by_cases h1 : u.account.fineDue > 0
    · simp [h1] at hok
    by_cases h2 : u.account.borrowRecords.length ≥ Student.maxBooks
    · simp [h1, h2] at hok
    cases hb : lib.findBookById bookId with
    | none => simp [h1, h2, hb] at hok
    | some kb =>
      obtain ⟨k, b⟩ := kb
      obtain ⟨hk, hid, -⟩ := findBookById_some lib bookId k b hb
      by_cases h3 : b.borrowedBy ≠ 0
      · simp [h1, h2, hb, h3] at hok
      by_cases h4 : days > Student.maxDays
      · simp [h1, h2, hb, h3, h4] at hok
      simp only [if_neg h1, if_neg h2, if_neg h3, if_neg h4]
      refine ⟨k, b, rfl, ?_, ?_, ?_, ?_⟩
      · simp [modifyBook_books_getElem?, hk]
      · intro j hj
        simp [modifyBook_books_getElem?, Ne.symm hj]
      · simp [modifyAccount_users_getElem?, hu, Account.addBorrowedBook, hid, hrole]
      · intro j hj
        simp [modifyAccount_users_getElem?, Ne.symm hj]
  | Faculty =>
    simp only [User.borrowBook, hu, hrole, Faculty.borrowBook] at hok ⊢
    by_cases h1 : u.account.borrowRecords.any (overdueBeyond60 now) = true
    · simp [h1] at hok
    by_cases h2 : u.account.borrowRecords.length ≥ Faculty.maxBooks
    · simp [h1, h2] at hok
    cases hb : lib.findBookById bookId with
    | none => simp [h1, h2, hb] at hok
    | some kb =>
      obtain ⟨k, b⟩ := kb
      obtain ⟨hk, hid, -⟩ := findBookById_some lib bookId k b hb
      by_cases h3 : b.borrowedBy ≠ 0
      · simp [h1, h2, hb, h3] at hok
      by_cases h4 : days > Faculty.maxDays
      · simp [h1, h2, hb, h3, h4] at hok
      simp only [if_neg h1, if_neg h2, if_neg h3, if_neg h4]
      refine ⟨k, b, rfl, ?_, ?_, ?_, ?_⟩
      · simp [modifyBook_books_getElem?, hk]
      · intro j hj
        simp [modifyBook_books_getElem?, Ne.symm hj]
      · simp [modifyAccount_users_getElem?, hu, Account.addBorrowedBook, hid, hrole]
      · intro j hj
        simp [modifyAccount_users_getElem?, Ne.symm hj]

theorem removeBorrowedBook_eq (a : Account) (bookId : Int) :
    a.removeBorrowedBook bookId =
      { borrowRecords := a.borrowRecords.filter (fun r => !decide (r.bookId = bookId)),
        fineDue := a.fineDue } := by
  unfold Account.removeBorrowedBook removeIf eraseToEnd
  simp only []
  split
  · simp
  · rename_i h
    simp only [ne_eq, Decidable.not_not, List.length_append, List.length_drop] at h
    have hle := List.length_filter_le (fun r : BorrowRecord => !decide (r.bookId = bookId))
      a.borrowRecords
    have : List.drop (List.filter (fun r => !decide (r.bookId = bookId)) a.borrowRecords).length
        a.borrowRecords = [] := by
      apply List.drop_eq_nil_of_le
      omega
    simp [this]

theorem findRecord_eq (rs : List BorrowRecord) (bookId : Int) :
    findRecord rs bookId = rs.find? (fun r => decide (r.bookId = bookId)) := by
  rw [← firstWith_map_snd]
  unfold findRecord
  cases firstWith (fun r => decide (r.bookId = bookId)) rs with
  | none => rfl
  | some kr => rfl

theorem firstWith_modify {α : Type} (p : α → Bool) (g : α → α) (hp : ∀ x, p (g x) = p x)
    (xs : List α) (i : Nat) :
    firstWith p (xs.modify g i) =
      (firstWith p xs).map (fun kx => (kx.1, if i = kx.1 then g kx.2 else kx.2)) := by
  induction xs generalizing i with
  | nil => simp [firstWith]
  | cons x xs ih =>
    cases i with
    | zero =>
      have hm : (x :: xs).modify g 0 = g x :: xs := rfl
      rw [hm]
      by_cases h : p x = true
      · simp [firstWith, h, hp]
      · simp only [firstWith, hp, h]
        cases firstWith p xs with
        | none => simp
        | some kv => simp
    | succ i =>
      have hm : (x :: xs).modify g (i + 1) = x :: xs.modify g i := rfl
      rw [hm]
      by_cases h : p x = true
      · simp [firstWith, h]
      · simp only [firstWith, h, ih]
        cases firstWith p xs with
        | none => simp
        | some kv => simp

theorem findUserById_modifyAccount (lib : Library) (i : Nat) (f : Account → Account) (id : Int) :
    (lib.modifyAccount i f).findUserById id =
      (lib.findUserById id).map
        (fun ju => (ju.1, if i = ju.1 then { ju.2 with account := f ju.2.account } else ju.2)) := by
  have h := firstWith_modify (fun u : User => decide (u.userId = id))
    (fun u : User => { u with account := f u.account }) (fun _ => rfl) lib.users i
  simpa [Library.findUserById, Library.modifyAccount] using h

theorem findUserById_none (lib : Library) (id : Int) :
    lib.findUserById id = none ↔ ∀ v ∈ lib.users, v.userId ≠ id := by
  simp [Library.findUserById, firstWith_eq_none]

theorem findUserById_some (lib : Library) (id : Int) (j : Nat) (v : User)
    (h : lib.findUserById id = some (j, v)) : lib.users[j]? = some v ∧ v.userId = id := by
  have := firstWith_some _ _ _ _ h
  exact ⟨this.1, by simpa using this.2.1⟩

/-- C4: for a Student or Faculty user, Return fails exactly when no book has
the id or no record of the account has that `bookId`; nothing else (such as
the `borrowedBy` of the book) enters the decision.  The first case reports
"Book not found.", the second "You did not borrow this book.", and neither
changes the library. -/
theorem return_fails_iff (lib : Library) (self : Nat) (u : User) (now bookId : Int)
    (hu : lib.users[self]? = some u)
    (hr : u.role = Role.Student ∨ u.role = Role.Faculty) :
    ((User.returnBook lib self now bookId).1 ≠ Outcome.ok ↔
      ((∀ b ∈ lib.books, b.id ≠ bookId) ∨
        (∀ r ∈ u.account.borrowRecords, r.bookId ≠ bookId))) ∧
    ((∀ b ∈ lib.books, b.id ≠ bookId) →
      User.returnBook lib self now bookId = (Outcome.bookNotFound, lib)) ∧
    ((∃ b ∈ lib.books, b.id = bookId) →
      (∀ r ∈ u.account.borrowRecords, r.bookId ≠ bookId) →
      User.returnBook lib self now bookId = (Outcome.didNotBorrow, lib)) := by
  have hnf : ∀ rs : List BorrowRecord,
      findRecord rs bookId = none ↔ ∀ r ∈ rs, r.bookId ≠ bookId := by
    intro rs; simp [findRecord_eq]
  cases hb : lib.findBookById bookId with
  | none =>
    have h1 := (bookWithId_eq_none lib bookId).1 ((findBookById_none lib bookId).1 hb)
    have h2 : ¬ ∃ b ∈ lib.books, b.id = bookId := by
      rintro ⟨b, hb1, hb2⟩; exact h1 b hb1 hb2
    have he : User.returnBook lib self now bookId = (Outcome.bookNotFound, lib) := by
      rcases hr with hr | hr <;>
        simp [User.returnBook, hu, hr, Student.returnBook, Faculty.returnBook, hb]
    refine ⟨?_, fun _ => he, fun h => absurd h h2⟩
    rw [he]
    simp only [ne_eq, reduceCtorEq, not_false_eq_true, true_iff]
    exact Or.inl h1
  | some kb =>
    obtain ⟨k, b⟩ := kb
    obtain ⟨hk, hid, hw⟩ := findBookById_some lib bookId k b hb
    have h1 : ¬ ∀ b ∈ lib.books, b.id ≠ bookId := by
      rw [← bookWithId_eq_none, hw]; simp
    cases hrec : findRecord u.account.borrowRecords bookId with
    | none =>
      have h3 := (hnf _).1 hrec
      have he : User.returnBook lib self now bookId = (Outcome.didNotBorrow, lib) := by
        rcases hr with hr | hr <;>
          simp [User.returnBook, hu, hr, Student.returnBook, Faculty.returnBook, hb, hid, hrec]
      refine ⟨?_, fun h => absurd h h1, fun _ _ => he⟩
      rw [he]
      simp only [ne_eq, reduceCtorEq, not_false_eq_true, true_iff]
      exact Or.inr h3
    | some r =>
      have h3 : ¬ ∀ r ∈ u.account.borrowRecords, r.bookId ≠ bookId := by
        rw [← hnf, hrec]; simp
      have he : (User.returnBook lib self now bookId).1 = Outcome.ok := by
        rcases hr with hr | hr <;>
          simp [User.returnBook, hu, hr, Student.returnBook, Faculty.returnBook, hb, hid, hrec]
      refine ⟨?_, fun h => absurd h h1, fun _ h => absurd h h3⟩
      rw [he]
      simp only [ne_eq, not_true_eq_false, false_iff, not_or]
      exact ⟨h1, h3⟩

theorem fine_modifyAccount (lib : Library) (j : Nat) (f : Account → Account)
    (hf : ∀ a, (f a).fineDue = a.fineDue) (i : Nat) :
    ((lib.modifyAccount j f).users[i]?).map (fun v => v.account.fineDue) =
      (lib.users[i]?).map (fun v => v.account.fineDue) := by
  rw [modifyAccount_users_getElem?]
  cases lib.users[i]? with
  | none => rfl
  | some v =>
    by_cases h : j = i
    · simp [h, hf]
    · simp [h]

theorem fine_after_remove (lib : Library) (j : Nat) (bookId : Int) (i : Nat) :
    ((lib.modifyAccount j (fun a => a.removeBorrowedBook bookId)).users[i]?).map
        (fun v => v.account.fineDue) =
      (lib.users[i]?).map (fun v => v.account.fineDue) :=
  fine_modifyAccount lib j (fun a => a.removeBorrowedBook bookId)
    (fun a => by simp only [removeBorrowedBook_eq]) i

theorem fine_after_add (lib : Library) (j : Nat) (now bookId d : Int) (i : Nat) :
    ((lib.modifyAccount j (fun a => a.addBorrowedBook now bookId d)).users[i]?).map
        (fun v => v.account.fineDue) =
      (lib.users[i]?).map (fun v => v.account.fineDue) :=
  fine_modifyAccount lib j (fun a => a.addBorrowedBook now bookId d) (fun _ => rfl) i

/-- C5 (amended): after a successful Return by a Student whose fine is an
integer of magnitude at most 2^52, with the elapsed days taken from the first
record in insertion order whose `bookId` matches and at most 214748379 (so
that `(elapsedDays - 15) * 10` is an `int`), the fine of the account is the
old fine plus `(elapsedDays - 15) * 10` when `elapsedDays > 15` and the old
fine otherwise, a value the `double` holds exactly; the `borrowDays` of the
record does not occur in the amount. -/
theorem student_return_fine (lib : Library) (self : Nat) (u : User) (now bookId : Int)
    (hu : lib.users[self]? = some u) (hr : u.role = Role.Student)
    (hok : (User.returnBook lib self now bookId).1 = Outcome.ok)
    (hfine : IsExactFine u.account.fineDue) :
    ∃ r, u.account.borrowRecords.find? (fun r => decide (r.bookId = bookId)) = some r ∧
      (elapsedDays now r.borrowTimestamp ≤ 214748379 →
        ((User.returnBook lib self now bookId).2.users[self]?).map
            (fun v => v.account.fineDue) =
          some (if elapsedDays now r.borrowTimestamp > 15 then
              u.account.fineDue + (elapsedDays now r.borrowTimestamp - 15) * 10
            else u.account.fineDue) ∧
        (∀ f, ((User.returnBook lib self now bookId).2.users[self]?).map
            (fun v => v.account.fineDue) = some f →
          -9007199254740992 ≤ f ∧ f ≤ 9007199254740992)) := by
  cases hb : lib.findBookById bookId with
  | none => simp [User.returnBook, hu, hr, Student.returnBook, hb] at hok
  | some kb =>
    obtain ⟨k, b⟩ := kb
    obtain ⟨hk, hid, -⟩ := findBookById_some lib bookId k b hb
    cases hrec : findRecord u.account.borrowRecords b.id with
    | none => simp [User.returnBook, hu, hr, Student.returnBook, hb, hrec] at hok
    | some r =>
      refine ⟨r, by rw [← findRecord_eq, ← hid]; exact hrec, fun hrange => ?_⟩
      have hval : ((User.returnBook lib self now bookId).2.users[self]?).map
            (fun v => v.account.fineDue) =
          some (if elapsedDays now r.borrowTimestamp > 15 then
              u.account.fineDue + (elapsedDays now r.borrowTimestamp - 15) * 10
            else u.account.fineDue) := by
        simp only [User.returnBook, hu, hr, Student.returnBook, hb, hrec, saveBooks_users,
          fine_after_remove]
        have hstep : ((if elapsedDays now r.borrowTimestamp > 15 then
              lib.modifyAccount self
                (fun a => a.addFine (Student.overdueFine (elapsedDays now r.borrowTimestamp) 15))
            else lib).users[self]?).map (fun v => v.account.fineDue) =
            some (if elapsedDays now r.borrowTimestamp > 15 then
              u.account.fineDue + (elapsedDays now r.borrowTimestamp - 15) * 10
            else u.account.fineDue) := by
          by_cases hel : elapsedDays now r.borrowTimestamp > 15
          · simp [hel, modifyAccount_users_getElem?, hu, Account.addFine,
              overdueFine_of_range _ hel hrange]
          · simp [hel, hu]
        rw [← hstep]
        split
        · split
          · simp only [fine_after_add, modifyBook_users]
          · simp only [modifyBook_users]
        · simp only [modifyBook_users]
      refine ⟨hval, fun f hf => ?_⟩
      rw [hval] at hf
      unfold IsExactFine at hfine
      have hint := isInt_elapsedDays now r.borrowTimestamp
      unfold IsInt at hint
      by_cases hel : elapsedDays now r.borrowTimestamp > 15
      · rw [if_pos hel] at hf
        cases hf
        omega
      · rw [if_neg hel] at hf
        cases hf
        omega

/-- C6 (amended): for every successful Return by the user at position `self`
at time `now`, where the book has a non-zero `reservedBy` and the lookup of
that id finds a user at a position `j` other than `self`: afterwards the book
has status `Borrowed`, `borrowedBy` equal to the old `reservedBy` and
`reservedBy = 0`; the account of the user at `j` is the old one with exactly
one record `(bookId, now, defaultDays)` appended, where `defaultDays` is 30
when that user is a Faculty member and 15 when that user is not and the
returning user is a Student (the duration a Faculty returner gives to a user
who is not Faculty is the subject of C7 and is left open here); and the
account of the returning user holds no record for `bookId`. -/
theorem return_handoff_effect (lib : Library) (self : Nat) (u : User) (now bookId : Int)
    (k : Nat) (b : Book) (j : Nat) (v : User)
    (hu : lib.users[self]? = some u)
    (hok : (User.returnBook lib self now bookId).1 = Outcome.ok)
    (hb : lib.findBookById bookId = some (k, b))
    (hres : b.reservedBy ≠ 0)
    (hj : lib.findUserById b.reservedBy = some (j, v))
    (hne : j ≠ self) :
    (User.returnBook lib self now bookId).2.books[k]? =
        some { b with status := BookStatus.Borrowed, borrowedBy := b.reservedBy,
                      reservedBy := 0 } ∧
    (∃ defaultDays : Int,
      (User.returnBook lib self now bookId).2.users[j]? =
        some { v with account :=
          { borrowRecords := v.account.borrowRecords ++
              [{ bookId := bookId, borrowTimestamp := now, borrowDays := defaultDays }],
            fineDue := v.account.fineDue } } ∧
      (v.role = Role.Faculty → defaultDays = 30) ∧
      (v.role ≠ Role.Faculty → u.role = Role.Student → defaultDays = 15)) ∧
    (∃ u', (User.returnBook lib self now bookId).2.users[self]? = some u' ∧
      ∀ r ∈ u'.account.borrowRecords, r.bookId ≠ bookId) := by
  obtain ⟨hk, hid, -⟩ := findBookById_some lib bookId k b hb
  obtain ⟨hv, hvid⟩ := findUserById_some lib b.reservedBy j v hj
  have hsj : ¬ self = j := fun h => hne h.symm
  cases hrec : findRecord u.account.borrowRecords b.id with
  | none =>
    cases hrole : u.role <;>
      simp [User.returnBook, hu, hrole, Student.returnBook, Faculty.returnBook, hb, hrec] at hok
  | some r =>
    cases hrole : u.role with
    | Librarian => simp [User.returnBook, hu, hrole] at hok
    | Student =>
      simp only [User.returnBook, hu, hrole, Student.returnBook, hb, hrec]
      by_cases hel : elapsedDays now r.borrowTimestamp > 15
      · have hj1 : (lib.modifyAccount self
            (fun a => a.addFine (Student.overdueFine (elapsedDays now r.borrowTimestamp) 15))).findUserById
              b.reservedBy = some (j, v) := by
          rw [findUserById_modifyAccount, hj]; simp [hsj]
        simp only [if_pos hel, if_pos hres, hj1]
        refine ⟨?_, ⟨if v.role = Role.Faculty then 30 else 15, ?_,
          fun hf => if_pos hf, fun hnf _ => if_neg hnf⟩, ?_⟩
        · simp [modifyBook_books_getElem?, hk, hvid]
        · simp [modifyAccount_users_getElem?, hv, hsj, Account.addBorrowedBook, hid]
        · simp [modifyAccount_users_getElem?, hu, hne, removeBorrowedBook_eq, hid]
      · have hj1 : lib.findUserById b.reservedBy = some (j, v) := hj
        simp only [if_neg hel, if_pos hres, hj1]
        refine ⟨?_, ⟨if v.role = Role.Faculty then 30 else 15, ?_,
          fun hf => if_pos hf, fun hnf _ => if_neg hnf⟩, ?_⟩
        · simp [modifyBook_books_getElem?, hk, hvid]
        · simp [modifyAccount_users_getElem?, hv, hsj, Account.addBorrowedBook, hid]
        · simp [modifyAccount_users_getElem?, hu, hne, removeBorrowedBook_eq, hid]
    | Faculty =>
      simp only [User.returnBook, hu, hrole, Faculty.returnBook, hb, hrec]
      simp only [if_pos hres, hj]
      refine ⟨?_, ⟨30, ?_, fun _ => rfl, fun _ h => by cases h⟩, ?_⟩
      · simp [modifyBook_books_getElem?, hk, hvid]
      · simp [modifyAccount_users_getElem?, hv, hsj, Account.addBorrowedBook, hid]
      · simp [modifyAccount_users_getElem?, hu, hne, removeBorrowedBook_eq, hid]

/-- C8: for every successful Return where the `reservedBy` of the book is 0,
or is the id of no user of the library, the book ends with status `Available`
and `borrowedBy = 0` (its other fields unchanged), and no user other than the
returning one is changed. -/
theorem return_without_handoff (lib : Library) (self : Nat) (u : User) (now bookId : Int)
    (k : Nat) (b : Book)
    (hu : lib.users[self]? = some u)
    (hok : (User.returnBook lib self now bookId).1 = Outcome.ok)
    (hb : lib.findBookById bookId = some (k, b))
    (hres : b.reservedBy = 0 ∨ ∀ v ∈ lib.users, v.userId ≠ b.reservedBy) :
    (User.returnBook lib self now bookId).2.books[k]? =
        some { b with status := BookStatus.Available, borrowedBy := 0 } ∧
    (∀ j, j ≠ self → (User.returnBook lib self now bookId).2.users[j]? = lib.users[j]?) := by
  obtain ⟨hk, hid, -⟩ := findBookById_some lib bookId k b hb
  cases hrec : findRecord u.account.borrowRecords b.id with
  | none =>
    cases hrole : u.role <;>
      simp [User.returnBook, hu, hrole, Student.returnBook, Faculty.returnBook, hb, hrec] at hok
  | some r =>
    have hnone : ∀ (i : Nat) (f : Account → Account), b.reservedBy ≠ 0 →
        (lib.modifyAccount i f).findUserById b.reservedBy = none ∧
          lib.findUserById b.reservedBy = none := by
      intro i f h0
      have h1 : lib.findUserById b.reservedBy = none := by
        rw [findUserById_none]
        rcases hres with h | h
        · exact absurd h h0
        · exact h
      exact ⟨by rw [findUserById_modifyAccount, h1]; rfl, h1⟩
    cases hrole : u.role with
    | Librarian => simp [User.returnBook, hu, hrole] at hok
    | Student =>
      simp only [User.returnBook, hu, hrole, Student.returnBook, hb, hrec]
      by_cases hel : elapsedDays now r.borrowTimestamp > 15
      · by_cases h0 : b.reservedBy ≠ 0
        · simp only [if_pos hel, if_pos h0, (hnone _ _ h0).1]
          refine ⟨by simp [modifyBook_books_getElem?, hk], ?_⟩
          intro j hj
          simp [modifyAccount_users_getElem?, Ne.symm hj]
        · simp only [if_pos hel, if_neg h0]
          refine ⟨by simp [modifyBook_books_getElem?, hk], ?_⟩
          intro j hj
          simp [modifyAccount_users_getElem?, Ne.symm hj]
      · by_cases h0 : b.reservedBy ≠ 0
        · simp only [if_neg hel, if_pos h0, (hnone 0 id h0).2]
          refine ⟨by simp [modifyBook_books_getElem?, hk], ?_⟩
          intro j hj
          simp [modifyAccount_users_getElem?, Ne.symm hj]
        · simp only [if_neg hel, if_neg h0]
          refine ⟨by simp [modifyBook_books_getElem?, hk], ?_⟩
          intro j hj
          simp [modifyAccount_users_getElem?, Ne.symm hj]
    | Faculty =>
      simp only [User.returnBook, hu, hrole, Faculty.returnBook, hb, hrec]
      by_cases h0 : b.reservedBy ≠ 0
      · simp only [if_pos h0, (hnone 0 id h0).2]
        refine ⟨by simp [modifyBook_books_getElem?, hk], ?_⟩
        intro j hj
        simp [modifyAccount_users_getElem?, Ne.symm hj]
      · simp only [if_neg h0]
        refine ⟨by simp [modifyBook_books_getElem?, hk], ?_⟩
        intro j hj
        simp [modifyAccount_users_getElem?, Ne.symm hj]

/-- C9: for a Student or Faculty user, Reserve succeeds exactly when the book
exists, its stored status is `Borrowed`, its `reservedBy` is 0 and its
`borrowedBy` is not the id of the user (no condition on how many books the user
has reserved already); on success the book gets `reservedBy` equal to the id of
the user and status `Reserved`, its `borrowedBy` and other fields, every other
book and the whole user collection are unchanged. -/
theorem reserve_iff_and_effect (lib : Library) (self : Nat) (u : User) (bookId : Int)
    (hu : lib.users[self]? = some u)
    (hr : u.role = Role.Student ∨ u.role = Role.Faculty) :
    ((User.reserveBook lib self bookId).1 = Outcome.ok ↔
      ∃ b, bookWithId lib bookId = some b ∧ b.status = BookStatus.Borrowed ∧
        b.reservedBy = 0 ∧ b.borrowedBy ≠ u.userId) ∧
    ((User.reserveBook lib self bookId).1 = Outcome.ok →
      ∃ k b, lib.findBookById bookId = some (k, b) ∧
        (User.reserveBook lib self bookId).2.books[k]? =
          some { b with reservedBy := u.userId, status := BookStatus.Reserved } ∧
        (∀ j, j ≠ k → (User.reserveBook lib self bookId).2.books[j]? = lib.books[j]?) ∧
        (User.reserveBook lib self bookId).2.users = lib.users) := by
  have hbody : User.reserveBook lib self bookId = reserveBookBody lib self bookId := by
    rcases hr with hr | hr <;>
      simp [User.reserveBook, hu, hr, Student.reserveBook, Faculty.reserveBook]
  rw [hbody]
  simp only [reserveBookBody, hu]
  cases hb : lib.findBookById bookId with
  | none =>
    have h1 := (findBookById_none lib bookId).1 hb
    simp [h1]
  | some kb =>
    obtain ⟨k, b⟩ := kb
    obtain ⟨hk, hid, hw⟩ := findBookById_some lib bookId k b hb
    by_cases h1 : b.status ≠ BookStatus.Borrowed
    · simp [hw, h1]
    by_cases h2 : b.reservedBy ≠ 0
    · simp [hw, h1, h2]
    by_cases h3 : b.borrowedBy = u.userId
    · simp [hw, h1, h2, h3]
    simp only [if_neg h1, if_neg h2, if_neg h3, hw]
    refine ⟨by simpa using ⟨by simpa using h1, by simpa using h2, h3⟩, fun _ => ?_⟩
    refine ⟨k, b, rfl, ?_, ?_, rfl⟩
    · simp [modifyBook_books_getElem?, hk]
    · intro j hj
      simp [modifyBook_books_getElem?, Ne.symm hj]

/-- Witness for C1: `alice` asks for book 1 of the default seed for 16 days. -/
theorem student_borrow_first_failure_witness :
    defaultSeed.users[0]? = some alice ∧ alice.role = Role.Student ∧
      (User.borrowBook defaultSeed 0 0 1 16).1 = Outcome.periodExceeded :=
  ⟨by decide, rfl,
    (student_borrow_first_failure defaultSeed 0 alice 0 1 16 (by decide) rfl).2.2.2.2.2
      book1 (by decide) (by decide) (by decide) (by decide) (by decide)⟩

/-- Witness for C2 (amended): `profX` holds one record (of five allowed) of 10
days from time 0, and asks for book 2 at day 71 (`6134400 = 71 * 86400`). -/
theorem faculty_borrow_overdue_gate_witness :
    profLoan.users[5]? = some profXWithLoan ∧ profXWithLoan.role = Role.Faculty ∧
      profXWithLoan.account.borrowRecords.length = 1 ∧
      (∀ r ∈ profXWithLoan.account.borrowRecords,
        -24915 ≤ r.borrowDays ∧ r.borrowDays ≤ 24795) ∧
      User.borrowBook profLoan 5 6134400 2 5 = (Outcome.overdueBlocked, profLoan) :=
  ⟨by decide, rfl, rfl, by decide,
    (faculty_borrow_overdue_gate profLoan 5 profXWithLoan 6134400 2 5 (by decide) rfl
      (by decide)).2.1
      ⟨{ bookId := 1, borrowTimestamp := 0, borrowDays := 10 }, by decide, by decide⟩⟩

/-- C2 (counterexample): in the default seed `profX` borrows book 1 for -30000
days at time 0 (the prompt only rejects more than 30 days).  At time 100 his
record satisfies `now - borrowTimestamp > (borrowDays + 60) * 86400`, the
right side being -2586816000; the `int` product of the program is 1708151296,
the test of the loop fails and his Borrow of book 2 succeeds. -/
theorem faculty_borrow_overflow_counterexample :
    (negativeDaysState.users[5]?).map (fun w => (w.role, w.account.borrowRecords)) =
        some (Role.Faculty, [{ bookId := 1, borrowTimestamp := 0, borrowDays := -30000 }]) ∧
      (100 : Int) - 0 > (-30000 + 60) * 86400 ∧
      wrapInt (wrapInt (-30000 + 60) * 86400) = 1708151296 ∧
      (User.borrowBook negativeDaysState 5 100 2 5).1 = Outcome.ok := by
  decide

/-- Witness for C3: `alice` borrows book 1 of the default seed for 5 days. -/
theorem borrow_success_effect_witness :
    defaultSeed.users[0]? = some alice ∧
      (User.borrowBook defaultSeed 0 0 1 5).1 = Outcome.ok ∧
      (User.borrowBook defaultSeed 0 0 1 5).2.users[0]? =
        some { alice with account :=
          { borrowRecords := [{ bookId := 1, borrowTimestamp := 0, borrowDays := 5 }],
            fineDue := 0 } } := by
  obtain ⟨_, _, _, _, _, h, _⟩ :=
    borrow_success_effect defaultSeed 0 alice 0 1 5 (by decide) (by decide)
  exact ⟨by decide, by decide, h⟩

/-- Witness for C4: `alice` returns book 1 of the default seed, which she has
not borrowed. -/
theorem return_fails_iff_witness :
    defaultSeed.users[0]? = some alice ∧ alice.role = Role.Student ∧
      User.returnBook defaultSeed 0 0 1 = (Outcome.didNotBorrow, defaultSeed) :=
  ⟨by decide, rfl,
    (return_fails_iff defaultSeed 0 alice 0 1 (by decide) (Or.inl rfl)).2.2
      ⟨book1, by decide, rfl⟩ (by decide)⟩

/-- Witness for C5 (amended): book 1 borrowed for 5 days and returned after 20
elapsed days (`1728000 = 20 * 86400`) adds exactly 50 to the fine. -/
theorem student_return_fine_witness :
    aliceLoan.users[0]? = some aliceWithLoan ∧ aliceWithLoan.role = Role.Student ∧
      (User.returnBook aliceLoan 0 1728000 1).1 = Outcome.ok ∧
      IsExactFine aliceWithLoan.account.fineDue ∧
      elapsedDays 1728000 0 = 20 ∧
      ((User.returnBook aliceLoan 0 1728000 1).2.users[0]?).map (fun v => v.account.fineDue) =
        some 50 := by
  obtain ⟨r, h1, h2⟩ :=
    student_return_fine aliceLoan 0 aliceWithLoan 1728000 1 (by decide) rfl (by decide)
      (by decide)
  refine ⟨by decide, rfl, by decide, by decide, by decide, ?_⟩
  have hr : r = { bookId := 1, borrowTimestamp := 0, borrowDays := 5 } := by
    simpa [aliceWithLoan] using h1.symm
  subst hr
  rw [(h2 (by decide)).1]
  decide

/-- C5 (counterexample): `alice` returns book 1, borrowed at time 0, after
214748380 elapsed days.  The amount `(elapsedDays - 15) * 10` is 2147483650;
the `int` product of the program is -2147483646, and that is her fine
afterwards. -/
theorem student_fine_overflow_counterexample :
    aliceLoan.users[0]? = some aliceWithLoan ∧ aliceWithLoan.account.fineDue = 0 ∧
      (User.returnBook aliceLoan 0 (214748380 * 86400) 1).1 = Outcome.ok ∧
      elapsedDays (214748380 * 86400) 0 = 214748380 ∧
      ((214748380 : Int) - 15) * 10 = 2147483650 ∧
      ((User.returnBook aliceLoan 0 (214748380 * 86400) 1).2.users[0]?).map
          (fun v => v.account.fineDue) = some (-2147483646) := by
  decide

/-- Witness for C6 (amended): `alice` returns book 1, which `bob` has reserved. -/
theorem return_handoff_effect_witness :
    aliceLoanBobReserved.users[0]? = some aliceWithLoan ∧
      (User.returnBook aliceLoanBobReserved 0 100 1).1 = Outcome.ok ∧
      aliceLoanBobReserved.findBookById 1 =
        some (0, { book1 with status := BookStatus.Reserved, borrowedBy := 1,
                              reservedBy := 2 }) ∧
      aliceLoanBobReserved.findUserById 2 = some (1, bob) ∧
      (User.returnBook aliceLoanBobReserved 0 100 1).2.books[0]? =
        some { book1 with status := BookStatus.Borrowed, borrowedBy := 2, reservedBy := 0 } ∧
      (User.returnBook aliceLoanBobReserved 0 100 1).2.users[1]? =
        some { bob with account :=
          { borrowRecords := [{ bookId := 1, borrowTimestamp := 100, borrowDays := 15 }],
            fineDue := 0 } } := by
  have h := return_handoff_effect aliceLoanBobReserved 0 aliceWithLoan 100 1 0
    { book1 with status := BookStatus.Reserved, borrowedBy := 1, reservedBy := 2 } 1 bob
    (by decide) (by decide) (by decide) (by decide) (by decide) (by decide)
  obtain ⟨d, h1, -, h2⟩ := h.2.1
  rw [h2 (by decide) rfl] at h1
  exact ⟨by decide, by decide, by decide, by decide, h.1, h1⟩

/-- Witness for C8: `alice` returns book 1, which nobody has reserved. -/
theorem return_without_handoff_witness :
    aliceLoan.users[0]? = some aliceWithLoan ∧
      (User.returnBook aliceLoan 0 100 1).1 = Outcome.ok ∧
      aliceLoan.findBookById 1 =
        some (0, { book1 with status := BookStatus.Borrowed, borrowedBy := 1 }) ∧
      (User.returnBook aliceLoan 0 100 1).2.books[0]? = some book1 :=
  ⟨by decide, by decide, by decide,
    (return_without_handoff aliceLoan 0 aliceWithLoan 100 1 0
      { book1 with status := BookStatus.Borrowed, borrowedBy := 1 }
      (by decide) (by decide) (by decide) (Or.inl rfl)).1⟩

/-- Witness for C9: `bob` reserves book 1, which `alice` has borrowed. -/
theorem reserve_iff_and_effect_witness :
    aliceLoan.users[1]? = some bob ∧ bob.role = Role.Student ∧
      (User.reserveBook aliceLoan 1 1).1 = Outcome.ok :=
  ⟨by decide, rfl,
    (reserve_iff_and_effect aliceLoan 1 bob 1 (by decide) (Or.inl rfl)).1.2
      ⟨{ book1 with status := BookStatus.Borrowed, borrowedBy := 1 },
        by decide, rfl, rfl, by decide⟩⟩

set_option maxRecDepth 8000 in
/-- C6 (counterexample): in the state reached by `staleRecordSession`, `alice`
(id 1, position 0) holds a record for book 50, which is borrowed by `bob` and
reserved by id 1, and the lookup of id 1 finds `alice` herself.  Her Return
of book 50 succeeds and the book becomes `Borrowed` by id 1 with `reservedBy`
0, yet her account ends with no record at all: the record appended by the
hand-off is erased together with the old one. -/
theorem handoff_to_returner_counterexample :
    staleRecordState.users[0]? = some { alice with account :=
        { borrowRecords := [{ bookId := 50, borrowTimestamp := 0, borrowDays := 10 }],
          fineDue := 0 } } ∧
      (staleRecordState.findBookById 50).map (fun kb => (kb.2.borrowedBy, kb.2.reservedBy)) =
        some (2, 1) ∧
      (staleRecordState.findUserById 1).map (fun ju => ju.1) = some 0 ∧
      (User.returnBook staleRecordState 0 20 50).1 = Outcome.ok ∧
      ((User.returnBook staleRecordState 0 20 50).2.findBookById 50).map
          (fun kb => (kb.2.status, kb.2.borrowedBy, kb.2.reservedBy)) =
        some (BookStatus.Borrowed, 1, 0) ∧
      ((User.returnBook staleRecordState 0 20 50).2.users[0]?).map
          (fun w => w.account.borrowRecords) = some [] :=
  ⟨by decide, by decide, by decide, by decide, by decide, by decide⟩

/-- C7 (code against the claim): `profX` (Faculty) holds book 1, reserved by
`alice` (Student).  The Return by `profX` at time 100 hands the book to
`alice` with a record of 30 days, where the claim says 15 for a reserving
user that is not a Faculty. -/
theorem faculty_return_gives_student_30_days :
    (profLoanAliceReserved.users[5]?).map (fun w => w.role) = some Role.Faculty ∧
      (profLoanAliceReserved.findBookById 1).map (fun kb => kb.2.reservedBy) = some 1 ∧
      (profLoanAliceReserved.findUserById 1).map (fun ju => (ju.1, ju.2.role)) =
        some (0, Role.Student) ∧
      (User.returnBook profLoanAliceReserved 5 100 1).1 = Outcome.ok ∧
      ((User.returnBook profLoanAliceReserved 5 100 1).2.users[0]?).map
          (fun w => w.account.borrowRecords) =
        some [{ bookId := 1, borrowTimestamp := 100, borrowDays := 30 }] := by
  decide

/-- C10 (code against the claim): after `reusedIdSession`, a sequence of
registrations, Borrow, Reserve, Return and a user removal from the default
seed, book 1 has `borrowedBy = 12` and `reservedBy = 12`. -/
theorem reused_id_borrows_own_reservation :
    ((run defaultSeed reusedIdSession).findBookById 1).map
        (fun kb => (kb.2.borrowedBy, kb.2.reservedBy)) = some (12, 12) := by
  decide

/-- The book written by a successful Borrow. -/
theorem borrowBook_effect (lib : Library) (self : Nat) (now bookId days : Int) :
    ((User.borrowBook lib self now bookId days).1 ≠ Outcome.ok ∧
        (User.borrowBook lib self now bookId days).2 = lib) ∨
    ∃ u k b, lib.users[self]? = some u ∧ lib.findBookById bookId = some (k, b) ∧
      b.borrowedBy = 0 ∧
      ((u.role = Role.Student ∧ u.account.borrowRecords.length < 3) ∨
        (u.role = Role.Faculty ∧ u.account.borrowRecords.length < 5)) ∧
      (User.borrowBook lib self now bookId days).1 = Outcome.ok ∧
      (∀ p, (User.borrowBook lib self now bookId days).2.books[p]? =
        (lib.books[p]?).map (fun x =>
          if k = p then { x with status := BookStatus.Borrowed, borrowedBy := u.userId }
          else x)) ∧
      (∀ i, (User.borrowBook lib self now bookId days).2.users[i]? =
        (lib.users[i]?).map (fun w =>
          if self = i then { w with account := w.account.addBorrowedBook now bookId days }
          else w)) := by
  cases hu : lib.users[self]? with
  | none => left; simp [User.borrowBook, hu]
  | some u =>
    cases hrole : u.role with
    | Librarian => left; simp [User.borrowBook, hu, hrole]
    | Student =>
      simp only [User.borrowBook, hu, hrole, Student.borrowBook, Student.maxBooks,
        Student.maxDays]
      by_cases h1 : u.account.fineDue > 0
      · left; simp [h1]
      by_cases h2 : u.account.borrowRecords.length ≥ 3
      · left; simp [h1, h2]
      cases hb : lib.findBookById bookId with
      | none => left; simp [h1, h2]
      | some kb =>
        obtain ⟨k, b⟩ := kb
        obtain ⟨hk, hid, -⟩ := findBookById_some lib bookId k b hb
        by_cases h3 : b.borrowedBy ≠ 0
        · left; simp [h1, h2, h3]
        by_cases h4 : days > 15
        · left; simp [h1, h2, h3, h4]
        right
        simp only [if_neg h1, if_neg h2, if_neg h3, if_neg h4]
        refine ⟨u, k, b, rfl, rfl, by simpa using h3, Or.inl ⟨hrole, by omega⟩, trivial, ?_, ?_⟩
        · intro p
          simp only [saveBooks_books, modifyAccount_books, modifyBook_books_getElem?,
            Option.map_map]
          congr 1
          funext x
          by_cases hkp : k = p <;> simp [hkp]
        · intro i
          simp only [saveBooks_users, modifyAccount_users_getElem?, modifyBook_users, hid]
    | Faculty =>
      simp only [User.borrowBook, hu, hrole, Faculty.borrowBook, Faculty.maxBooks,
        Faculty.maxDays]
      by_cases h1 : u.account.borrowRecords.any (overdueBeyond60 now) = true
      · left; simp [h1]
      by_cases h2 : u.account.borrowRecords.length ≥ 5
      · left; simp [h1, h2]
      cases hb : lib.findBookById bookId with
      | none => left; simp [h1, h2]
      | some kb =>
        obtain ⟨k, b⟩ := kb
        obtain ⟨hk, hid, -⟩ := findBookById_some lib bookId k b hb
        by_cases h3 : b.borrowedBy ≠ 0
        · left; simp [h1, h2, h3]
        by_cases h4 : days > 30
        · left; simp [h1, h2, h3, h4]
        right
        simp only [if_neg h1, if_neg h2, if_neg h3, if_neg h4]
        refine ⟨u, k, b, rfl, rfl, by simpa using h3, Or.inr ⟨hrole, by omega⟩, trivial, ?_, ?_⟩
        · intro p
          simp only [saveBooks_books, modifyAccount_books, modifyBook_books_getElem?,
            Option.map_map]
          congr 1
          funext x
          by_cases hkp : k = p <;> simp [hkp]
        · intro i
          simp only [saveBooks_users, modifyAccount_users_getElem?, modifyBook_users, hid]


theorem reserveBook_effect (lib : Library) (self : Nat) (bookId : Int) :
    ((User.reserveBook lib self bookId).1 ≠ Outcome.ok ∧
        (User.reserveBook lib self bookId).2 = lib) ∨
    ∃ u k b, lib.users[self]? = some u ∧ lib.findBookById bookId = some (k, b) ∧
      b.status = BookStatus.Borrowed ∧ b.reservedBy = 0 ∧ b.borrowedBy ≠ u.userId ∧
      (User.reserveBook lib self bookId).1 = Outcome.ok ∧
      (∀ p, (User.reserveBook lib self bookId).2.books[p]? =
        (lib.books[p]?).map (fun x =>
          if k = p then { x with reservedBy := u.userId, status := BookStatus.Reserved }
          else x)) ∧
      (User.reserveBook lib self bookId).2.users = lib.users := by
  cases hu : lib.users[self]? with
  | none => left; simp [User.reserveBook, hu]
  | some u =>
    have hbody : u.role ≠ Role.Librarian →
        User.reserveBook lib self bookId = reserveBookBody lib self bookId := by
      intro h
      cases hrole : u.role with
      | Librarian => exact absurd hrole h
      | Student => simp [User.reserveBook, hu, hrole, Student.reserveBook]
      | Faculty => simp [User.reserveBook, hu, hrole, Faculty.reserveBook]
    by_cases hl : u.role = Role.Librarian
    · left; simp [User.reserveBook, hu, hl]
    rw [hbody hl]
    simp only [reserveBookBody, hu]
    cases hb : lib.findBookById bookId with
    | none => left; simp
    | some kb =>
      obtain ⟨k, b⟩ := kb
      by_cases h1 : b.status ≠ BookStatus.Borrowed
      · left; simp [h1]
      by_cases h2 : b.reservedBy ≠ 0
      · left; simp [h1, h2]
      by_cases h3 : b.borrowedBy = u.userId
      · left; simp [h1, h2, h3]
      right
      simp only [if_neg h1, if_neg h2, if_neg h3]
      refine ⟨u, k, b, rfl, rfl, by simpa using h1, by simpa using h2, h3, trivial, ?_, rfl⟩
      intro p
      simp only [saveBooks_books, modifyBook_books_getElem?, Option.map_map]
      congr 1
      funext x
      by_cases hkp : k = p <;> simp [hkp]

theorem payFine_effect (lib : Library) (self : Nat) (now : Int) :
    (User.payFine lib self now).2.books = lib.books ∧
    (User.payFine lib self now).2.savedBooks = lib.savedBooks ∧
    (User.payFine lib self now).2.savedUsers = lib.savedUsers ∧
    (∀ i, (User.payFine lib self now).2.users[i]? =
      (lib.users[i]?).map (fun w =>
        if self = i ∧ w.account.fineDue > 0 then
          { w with account :=
            { borrowRecords :=
                if w.role = Role.Student then
                  w.account.borrowRecords.map (fun r => { r with borrowTimestamp := now })
                else w.account.borrowRecords,
              fineDue := 0 } }
        else w)) := by
  cases hu : lib.users[self]? with
  | none =>
    simp only [User.payFine, hu, true_and]
    intro i
    cases hi : lib.users[i]? with
    | none => rfl
    | some w =>
      have : self ≠ i := by rintro rfl; rw [hu] at hi; cases hi
      simp [this]
  | some u =>
    by_cases hf : u.account.fineDue > 0
    · by_cases hs : u.role = Role.Student
      · simp only [User.payFine, hu, if_pos hf, if_pos hs, modifyAccount_books, true_and]
        refine ⟨rfl, rfl, ?_⟩
        intro i
        simp only [modifyAccount_users_getElem?, Option.map_map]
        cases hi : lib.users[i]? with
        | none => rfl
        | some w =>
          by_cases hsi : self = i
          · subst hsi
            rw [hu] at hi; cases hi
            simp [hf, hs, Account.resetFine, Account.resetBorrowTimestamps]
          · simp [hsi]
      · simp only [User.payFine, hu, if_pos hf, if_neg hs, modifyAccount_books, true_and]
        refine ⟨rfl, rfl, ?_⟩
        intro i
        simp only [modifyAccount_users_getElem?, Option.map_map]
        cases hi : lib.users[i]? with
        | none => rfl
        | some w =>
          by_cases hsi : self = i
          · subst hsi
            rw [hu] at hi; cases hi
            simp [hf, hs, Account.resetFine]
          · simp [hsi]
    · simp only [User.payFine, hu, if_neg hf, true_and]
      intro i
      cases hi : lib.users[i]? with
      | none => rfl
      | some w =>
        by_cases hsi : self = i
        · subst hsi
          rw [hu] at hi; cases hi
          simp [hf]
        · simp [hsi]



theorem findRecord_some (rs : List BorrowRecord) (bookId : Int) (r : BorrowRecord)
    (h : findRecord rs bookId = some r) : r ∈ rs ∧ r.bookId = bookId := by
  rw [findRecord_eq] at h
  exact ⟨List.mem_of_find?_eq_some h, by simpa using List.find?_some h⟩

theorem returnBook_effect (lib : Library) (self : Nat) (now bookId : Int) :
    ((User.returnBook lib self now bookId).1 ≠ Outcome.ok ∧
        (User.returnBook lib self now bookId).2 = lib) ∨
    ∃ u k b r, lib.users[self]? = some u ∧ lib.findBookById bookId = some (k, b) ∧
      findRecord u.account.borrowRecords bookId = some r ∧
      (User.returnBook lib self now bookId).1 = Outcome.ok ∧
      ((∃ j v, b.reservedBy ≠ 0 ∧ lib.findUserById b.reservedBy = some (j, v) ∧
          (∀ p, (User.returnBook lib self now bookId).2.books[p]? =
            (lib.books[p]?).map (fun x =>
              if k = p then
                { x with status := BookStatus.Borrowed, borrowedBy := b.reservedBy,
                         reservedBy := 0 }
              else x)) ∧
          (∀ i, (User.returnBook lib self now bookId).2.users[i]? =
            (lib.users[i]?).map (fun w : User =>
              { w with account :=
                { borrowRecords :=
                    if self = i then
                      w.account.borrowRecords.filter (fun x => !decide (x.bookId = bookId))
                    else if j = i then
                      w.account.borrowRecords ++
                        [({ bookId := bookId, borrowTimestamp := now,
                            borrowDays := handoffDays u.role v.role } : BorrowRecord)]
                    else w.account.borrowRecords,
                  fineDue :=
                    if self = i then
                      w.account.fineDue +
                        returnFine u.role (elapsedDays now r.borrowTimestamp)
                    else w.account.fineDue } }))) ∨
        ((b.reservedBy = 0 ∨ lib.findUserById b.reservedBy = none) ∧
          (∀ p, (User.returnBook lib self now bookId).2.books[p]? =
            (lib.books[p]?).map (fun x =>
              if k = p then { x with status := BookStatus.Available, borrowedBy := 0 }
              else x)) ∧
          (∀ i, (User.returnBook lib self now bookId).2.users[i]? =
            (lib.users[i]?).map (fun w : User =>
              { w with account :=
                { borrowRecords :=
                    if self = i then
                      w.account.borrowRecords.filter (fun x => !decide (x.bookId = bookId))
                    else w.account.borrowRecords,
                  fineDue :=
                    if self = i then
                      w.account.fineDue +
                        returnFine u.role (elapsedDays now r.borrowTimestamp)
                    else w.account.fineDue } })))) := by
  cases hu : lib.users[self]? with
  | none => left; simp [User.returnBook, hu]
  | some u =>
    by_cases hl : u.role = Role.Librarian
    · left; simp [User.returnBook, hu, hl]
    cases hb : lib.findBookById bookId with
    | none =>
      left
      cases hrole : u.role <;>
        simp [User.returnBook, hu, hrole, Student.returnBook, Faculty.returnBook, hb]
    | some kb =>
      obtain ⟨k, b⟩ := kb
      obtain ⟨hk, hid, -⟩ := findBookById_some lib bookId k b hb
      subst hid
      cases hrec : findRecord u.account.borrowRecords b.id with
      | none =>
        left
        cases hrole : u.role <;>
          simp [User.returnBook, hu, hrole, Student.returnBook, Faculty.returnBook, hb, hrec]
      | some r =>
        right
        refine ⟨u, k, b, r, rfl, rfl, hrec, ?_, ?_⟩
        · cases hrole : u.role <;>
            first
            | exact absurd hrole hl
            | simp [User.returnBook, hu, hrole, Student.returnBook, Faculty.returnBook, hb, hrec]
        have books_pt : ∀ (L : Library) (g1 g2 g3 : Book → Book) (p : Nat),
            L.books = lib.books →
            (((L.modifyBook k g1).modifyBook k g2).modifyBook k g3).books[p]? =
              (lib.books[p]?).map (fun x => if k = p then g3 (g2 (g1 x)) else x) := by
          intro L g1 g2 g3 p hL
          simp only [modifyBook_books_getElem?, Option.map_map, hL]
          congr 1
          funext x
          by_cases hkp : k = p <;> simp [hkp]
        have books_pt2 : ∀ (L : Library) (g1 g2 : Book → Book) (p : Nat),
            L.books = lib.books →
            ((L.modifyBook k g1).modifyBook k g2).books[p]? =
              (lib.books[p]?).map (fun x => if k = p then g2 (g1 x) else x) := by
          intro L g1 g2 p hL
          simp only [modifyBook_books_getElem?, Option.map_map, hL]
          congr 1
          funext x
          by_cases hkp : k = p <;> simp [hkp]
        cases hrole : u.role with
        | Librarian => exact absurd hrole hl
        | Faculty =>
          simp only [User.returnBook, hu, hrole, Faculty.returnBook, hb, hrec]
          by_cases h0 : b.reservedBy ≠ 0
          · cases hj : lib.findUserById b.reservedBy with
            | none =>
              right
              simp only [if_pos h0]
              refine ⟨Or.inr trivial, ?_, ?_⟩
              · intro p
                simp only [saveBooks_books, modifyAccount_books]
                rw [books_pt2 lib _ _ p rfl]
              · intro i
                simp only [saveBooks_users, modifyAccount_users_getElem?, modifyBook_users]
                cases lib.users[i]? with
                | none => rfl
                | some w =>
                  by_cases hsi : self = i <;>
                    simp [hsi, removeBorrowedBook_eq, returnFine]
            | some jv =>
              obtain ⟨j, v⟩ := jv
              obtain ⟨hv, hvid⟩ := findUserById_some lib b.reservedBy j v hj
              left
              simp only [if_pos h0]
              refine ⟨j, v, h0, rfl, ?_, ?_⟩
              · intro p
                simp only [saveBooks_books, modifyAccount_books]
                rw [books_pt lib _ _ _ p rfl]
                simp only [hvid]
              · intro i
                simp only [saveBooks_users, modifyAccount_users_getElem?, modifyBook_users,
                  Option.map_map]
                cases lib.users[i]? with
                | none => rfl
                | some w =>
                  by_cases hsi : self = i <;> by_cases hji : j = i <;>
                    simp [hsi, hji, removeBorrowedBook_eq, returnFine, Account.addBorrowedBook,
                      List.filter_append, handoffDays]
          · right
            simp only [if_neg h0]
            refine ⟨Or.inl (by simpa using h0), ?_, ?_⟩
            · intro p
              simp only [saveBooks_books, modifyAccount_books]
              rw [books_pt2 lib _ _ p rfl]
            · intro i
              simp only [saveBooks_users, modifyAccount_users_getElem?, modifyBook_users]
              cases lib.users[i]? with
              | none => rfl
              | some w =>
                by_cases hsi : self = i <;>
                  simp [hsi, removeBorrowedBook_eq, returnFine]
        | Student =>
          simp only [User.returnBook, hu, hrole, Student.returnBook, hb, hrec]
          by_cases hel : elapsedDays now r.borrowTimestamp > 15
          · simp only [if_pos hel]
            by_cases h0 : b.reservedBy ≠ 0
            · cases hj : lib.findUserById b.reservedBy with
              | none =>
                right
                have hj1 : (lib.modifyAccount self (fun a =>
                    a.addFine (Student.overdueFine (elapsedDays now r.borrowTimestamp) 15))).findUserById
                      b.reservedBy = none := by
                  rw [findUserById_modifyAccount, hj]; rfl
                simp only [if_pos h0, hj1]
                refine ⟨Or.inr trivial, ?_, ?_⟩
                · intro p
                  simp only [saveBooks_books, modifyAccount_books]
                  rw [books_pt2 (lib.modifyAccount self _) _ _ p rfl]
                · intro i
                  simp only [saveBooks_users, modifyAccount_users_getElem?, modifyBook_users,
                    Option.map_map]
                  cases lib.users[i]? with
                  | none => rfl
                  | some w =>
                    by_cases hsi : self = i <;>
                      simp [hsi, removeBorrowedBook_eq, returnFine, hel, Account.addFine]
              | some jv =>
                obtain ⟨j, v⟩ := jv
                obtain ⟨hv, hvid⟩ := findUserById_some lib b.reservedBy j v hj
                left
                have hj1 : (lib.modifyAccount self (fun a =>
                    a.addFine (Student.overdueFine (elapsedDays now r.borrowTimestamp) 15))).findUserById
                      b.reservedBy = some (j, if self = j then
                        { v with account :=
                          v.account.addFine (Student.overdueFine (elapsedDays now r.borrowTimestamp) 15) }
                        else v) := by
                  rw [findUserById_modifyAccount, hj]; rfl
                simp only [if_pos h0, hj1]
                refine ⟨j, v, h0, rfl, ?_, ?_⟩
                · intro p
                  simp only [saveBooks_books, modifyAccount_books]
                  rw [books_pt (lib.modifyAccount self _) _ _ _ p rfl]
                  by_cases hsj : self = j <;> simp [hsj, hvid]
                · intro i
                  simp only [saveBooks_users, modifyAccount_users_getElem?, modifyBook_users,
                    Option.map_map]
                  cases lib.users[i]? with
                  | none => rfl
                  | some w =>
                    by_cases hsi : self = i <;> by_cases hji : j = i <;>
                      by_cases hsj : self = j <;>
                      simp [hsi, hji, hsj, removeBorrowedBook_eq, returnFine, hel,
                        Account.addBorrowedBook, Account.addFine, List.filter_append,
                        handoffDays]
            · right
              simp only [if_neg h0]
              refine ⟨Or.inl (by simpa using h0), ?_, ?_⟩
              · intro p
                simp only [saveBooks_books, modifyAccount_books]
                rw [books_pt2 (lib.modifyAccount self _) _ _ p rfl]
              · intro i
                simp only [saveBooks_users, modifyAccount_users_getElem?, modifyBook_users,
                  Option.map_map]
                cases lib.users[i]? with
                | none => rfl
                | some w =>
                  by_cases hsi : self = i <;>
                    simp [hsi, removeBorrowedBook_eq, returnFine, hel, Account.addFine]
          · simp only [if_neg hel]
            by_cases h0 : b.reservedBy ≠ 0
            · cases hj : lib.findUserById b.reservedBy with
              | none =>
                right
                simp only [if_pos h0]
                refine ⟨Or.inr trivial, ?_, ?_⟩
                · intro p
                  simp only [saveBooks_books, modifyAccount_books]
                  rw [books_pt2 lib _ _ p rfl]
                · intro i
                  simp only [saveBooks_users, modifyAccount_users_getElem?, modifyBook_users]
                  cases lib.users[i]? with
                  | none => rfl
                  | some w =>
                    by_cases hsi : self = i <;>
                      simp [hsi, removeBorrowedBook_eq, returnFine, hel]
              | some jv =>
                obtain ⟨j, v⟩ := jv
                obtain ⟨hv, hvid⟩ := findUserById_some lib b.reservedBy j v hj
                left
                simp only [if_pos h0]
                refine ⟨j, v, h0, rfl, ?_, ?_⟩
                · intro p
                  simp only [saveBooks_books, modifyAccount_books]
                  rw [books_pt lib _ _ _ p rfl]
                  simp only [hvid]
                · intro i
                  simp only [saveBooks_users, modifyAccount_users_getElem?, modifyBook_users,
                    Option.map_map]
                  cases lib.users[i]? with
                  | none => rfl
                  | some w =>
                    by_cases hsi : self = i <;> by_cases hji : j = i <;>
                      simp [hsi, hji, removeBorrowedBook_eq, returnFine, hel,
                        Account.addBorrowedBook, List.filter_append, handoffDays]
            · right
              simp only [if_neg h0]
              refine ⟨Or.inl (by simpa using h0), ?_, ?_⟩
              · intro p
                simp only [saveBooks_books, modifyAccount_books]
                rw [books_pt2 lib _ _ p rfl]
              · intro i
                simp only [saveBooks_users, modifyAccount_users_getElem?, modifyBook_users]
                cases lib.users[i]? with
                | none => rfl
                | some w =>
                  by_cases hsi : self = i <;>
                    simp [hsi, removeBorrowedBook_eq, returnFine, hel]


theorem list_eq_modify_of_pointwise {α : Type} (l l' : List α) (g : α → α) (k : Nat)
    (h : ∀ p, l'[p]? = (l[p]?).map (fun x => if k = p then g x else x)) :
    l' = l.modify g k := by
  apply List.ext_getElem?
  intro p
  rw [h p, List.getElem?_modify]
  rfl

theorem findBookById_of_pointwise (lib lib1 : Library) (g : Book → Book)
    (hg : ∀ x, (g x).id = x.id) (k : Nat)
    (h : ∀ p, lib1.books[p]? = (lib.books[p]?).map (fun x => if k = p then g x else x))
    (id : Int) :
    lib1.findBookById id =
      (lib.findBookById id).map (fun kb => (kb.1, if k = kb.1 then g kb.2 else kb.2)) := by
  have h1 := list_eq_modify_of_pointwise lib.books lib1.books g k h
  have h2 := firstWith_modify (fun b : Book => decide (b.id = id)) g
    (fun x => by simp [hg]) lib.books k
  unfold Library.findBookById
  rw [h1, h2]

theorem returnBook_ok_of (lib : Library) (self : Nat) (u : User) (now bookId : Int)
    (k : Nat) (b : Book) (r : BorrowRecord)
    (hu : lib.users[self]? = some u) (hl : u.role ≠ Role.Librarian)
    (hb : lib.findBookById bookId = some (k, b))
    (hrec : findRecord u.account.borrowRecords bookId = some r) :
    (User.returnBook lib self now bookId).1 = Outcome.ok := by
  obtain ⟨-, hid, -⟩ := findBookById_some lib bookId k b hb
  subst hid
  cases hrole : u.role with
  | Librarian => exact absurd hrole hl
  | Student => simp [User.returnBook, hu, hrole, Student.returnBook, hb, hrec]
  | Faculty => simp [User.returnBook, hu, hrole, Faculty.returnBook, hb, hrec]

theorem nodup_map_pos_unique {α β : Type} (f : α → β) (l : List α) (h : (l.map f).Nodup)
    {i j : Nat} {a b : α} (hi : l[i]? = some a) (hj : l[j]? = some b) (hab : f a = f b) :
    i = j := by
  obtain ⟨hi1, hi2⟩ := List.getElem?_eq_some.1 hi
  obtain ⟨hj1, hj2⟩ := List.getElem?_eq_some.1 hj
  have hi' : i < (l.map f).length := by simpa using hi1
  have hj' : j < (l.map f).length := by simpa using hj1
  refine (@List.Nodup.getElem_inj_iff _ _ h i hi' j hj').1 ?_
  rw [List.getElem_map, List.getElem_map, hi2, hj2, hab]

theorem map_eq_of_pointwise {α β : Type} (f : α → β) (l l' : List α) (F : Nat → α → α)
    (h : ∀ i, l'[i]? = (l[i]?).map (F i)) (hf : ∀ i x, f (F i x) = f x) :
    l'.map f = l.map f := by
  apply List.ext_getElem?
  intro i
  rw [List.getElem?_map, List.getElem?_map, h i, Option.map_map]
  cases l[i]? with
  | none => rfl
  | some x => simp [hf]

theorem mem_of_pointwise {α : Type} (l l' : List α) (F : Nat → α → α)
    (h : ∀ i, l'[i]? = (l[i]?).map (F i)) {y : α} (hy : y ∈ l') :
    ∃ i x, l[i]? = some x ∧ y = F i x := by
  obtain ⟨i, hi⟩ := List.mem_iff_getElem?.1 hy
  rw [h i, Option.map_eq_some'] at hi
  obtain ⟨x, hx, hxy⟩ := hi
  exact ⟨i, x, hx, hxy.symm⟩

theorem consistent_of_pointwise (lib lib' : Library) (F : Nat → User → User)
    (G : Nat → Book → Book) (hc : Consistent lib)
    (hU : ∀ i, lib'.users[i]? = (lib.users[i]?).map (F i))
    (hB : ∀ p, lib'.books[p]? = (lib.books[p]?).map (G p))
    (hFid : ∀ i w, (F i w).userId = w.userId)
    (hGid : ∀ p x, (G p x).id = x.id)
    (h4 : ∀ p x, lib.books[p]? = some x → (G p x).borrowedBy = 0 →
      (G p x).status = BookStatus.Available)
    (h5 : ∀ i w p x r, lib.users[i]? = some w → lib.books[p]? = some x →
      r ∈ (F i w).account.borrowRecords → x.id = r.bookId →
      (G p x).borrowedBy = w.userId) :
    Consistent lib' := by
  obtain ⟨c1, c2, c3, -, -⟩ := hc
  have hum := map_eq_of_pointwise (fun u : User => u.userId) lib.users lib'.users F hU hFid
  have hbm := map_eq_of_pointwise (fun b : Book => b.id) lib.books lib'.books G hB hGid
  refine ⟨?_, by rw [hum]; exact c2, by rw [hbm]; exact c3, ?_, ?_⟩
  · intro u' hu'
    obtain ⟨i, w, hw, rfl⟩ := mem_of_pointwise _ _ F hU hu'
    rw [hFid]
    exact c1 w (List.getElem?_mem hw)
  · intro b' hb'
    obtain ⟨p, x, hx, rfl⟩ := mem_of_pointwise _ _ G hB hb'
    exact h4 p x hx
  · intro u' hu' r hr b' hb' hid
    obtain ⟨i, w, hw, rfl⟩ := mem_of_pointwise _ _ F hU hu'
    obtain ⟨p, x, hx, rfl⟩ := mem_of_pointwise _ _ G hB hb'
    rw [hFid]
    rw [hGid] at hid
    exact h5 i w p x r hw hx hr hid

theorem Consistent.book_unique {lib : Library} (hc : Consistent lib) {p q : Nat} {x y : Book}
    (hp : lib.books[p]? = some x) (hq : lib.books[q]? = some y) (h : x.id = y.id) : p = q :=
  nodup_map_pos_unique (fun b : Book => b.id) lib.books hc.2.2.1 hp hq h

theorem Consistent.user_unique {lib : Library} (hc : Consistent lib) {i j : Nat} {x y : User}
    (hi : lib.users[i]? = some x) (hj : lib.users[j]? = some y) (h : x.userId = y.userId) :
    i = j :=
  nodup_map_pos_unique (fun u : User => u.userId) lib.users hc.2.1 hi hj h

theorem Consistent.record_owner {lib : Library} (hc : Consistent lib) {i p : Nat} {w : User}
    {x : Book} {r : BorrowRecord} (hi : lib.users[i]? = some w) (hp : lib.books[p]? = some x)
    (hr : r ∈ w.account.borrowRecords) (h : x.id = r.bookId) : x.borrowedBy = w.userId :=
  hc.2.2.2.2 w (List.getElem?_mem hi) r hr x (List.getElem?_mem hp) h

theorem borrowBook_consistent (lib : Library) (self : Nat) (now bookId days : Int)
    (hc : Consistent lib) : Consistent (User.borrowBook lib self now bookId days).2 := by
  rcases borrowBook_effect lib self now bookId days with ⟨-, h⟩ | h
  · rw [h]; exact hc
  obtain ⟨u, k, b, hu, hb, hbb, -, -, hbooks, husers⟩ := h
  obtain ⟨hk, hid, -⟩ := findBookById_some lib bookId k b hb
  have hu0 : u.userId ≠ 0 := hc.1 u (List.getElem?_mem hu)
  refine consistent_of_pointwise lib _
    (fun i w => if self = i then
      { w with account := w.account.addBorrowedBook now bookId days } else w)
    (fun p x => if k = p then
      { x with status := BookStatus.Borrowed, borrowedBy := u.userId } else x)
    hc husers hbooks ?_ ?_ ?_ ?_
  · intro i w; by_cases h : self = i <;> simp [h]
  · intro p x; by_cases h : k = p <;> simp [h]
  · intro p x hx
    by_cases h : k = p
    · simp [h, hu0]
    · simp only [if_neg h]
      exact hc.2.2.2.1 x (List.getElem?_mem hx)
  · intro i w p x r hw hx hr hxr
    have hold : r ∈ w.account.borrowRecords → (if k = p then
        { x with status := BookStatus.Borrowed, borrowedBy := u.userId } else x).borrowedBy =
          w.userId := by
      intro hr0
      have hown := hc.record_owner hw hx hr0 hxr
      by_cases h : k = p
      · subst h
        rw [hk] at hx; cases hx
        rw [hbb] at hown
        exact absurd hown.symm (hc.1 w (List.getElem?_mem hw))
      · simpa [h] using hown
    by_cases hs : self = i
    · subst hs
      rw [hu] at hw; cases hw
      simp only [if_true, Account.addBorrowedBook, List.mem_append, List.mem_singleton] at hr
      rcases hr with hr | hr
      · exact hold hr
      · subst hr
        have hpk : p = k := hc.book_unique hx hk (by simpa [hid] using hxr)
        simp [hpk]
    · simp only [if_neg hs] at hr
      exact hold hr

theorem reserveBook_consistent (lib : Library) (self : Nat) (bookId : Int)
    (hc : Consistent lib) : Consistent (User.reserveBook lib self bookId).2 := by
  rcases reserveBook_effect lib self bookId with ⟨-, h⟩ | h
  · rw [h]; exact hc
  obtain ⟨u, k, b, hu, hb, hst, -, -, -, hbooks, husers⟩ := h
  obtain ⟨hk, hid, -⟩ := findBookById_some lib bookId k b hb
  refine consistent_of_pointwise lib _ (fun _ w => w)
    (fun p x => if k = p then
      { x with reservedBy := u.userId, status := BookStatus.Reserved } else x)
    hc ?_ hbooks ?_ ?_ ?_ ?_
  · intro i; rw [husers]; simp
  · intro i w; rfl
  · intro p x; by_cases h : k = p <;> simp [h]
  · intro p x hx
    by_cases h : k = p
    · subst h
      rw [hk] at hx; cases hx
      intro h0
      have := hc.2.2.2.1 b (List.getElem?_mem hk) (by simpa using h0)
      rw [hst] at this; cases this
    · simp only [if_neg h]
      exact hc.2.2.2.1 x (List.getElem?_mem hx)
  · intro i w p x r hw hx hr hxr
    have hown := hc.record_owner hw hx hr hxr
    by_cases h : k = p <;> simpa [h] using hown

theorem payFine_consistent (lib : Library) (self : Nat) (now : Int)
    (hc : Consistent lib) : Consistent (User.payFine lib self now).2 := by
  obtain ⟨hbooks, -, -, husers⟩ := payFine_effect lib self now
  refine consistent_of_pointwise lib _
    (fun i w => if self = i ∧ w.account.fineDue > 0 then
      { w with account :=
        { borrowRecords :=
            if w.role = Role.Student then
              w.account.borrowRecords.map (fun r => { r with borrowTimestamp := now })
            else w.account.borrowRecords,
          fineDue := 0 } }
      else w)
    (fun _ x => x) hc husers ?_ ?_ ?_ ?_ ?_
  · intro p; rw [hbooks]; simp
  · intro i w; by_cases h : self = i ∧ w.account.fineDue > 0 <;> simp [h]
  · intro p x; rfl
  · intro p x hx
    exact hc.2.2.2.1 x (List.getElem?_mem hx)
  · intro i w p x r hw hx hr hxr
    by_cases h : self = i ∧ w.account.fineDue > 0
    · simp only [if_pos h] at hr
      by_cases hs : w.role = Role.Student
      · simp only [if_pos hs, List.mem_map] at hr
        obtain ⟨r0, hr0, rfl⟩ := hr
        exact hc.record_owner hw hx hr0 hxr
      · simp only [if_neg hs] at hr
        exact hc.record_owner hw hx hr hxr
    · simp only [if_neg h] at hr
      exact hc.record_owner hw hx hr hxr

theorem returnBook_consistent (lib : Library) (self : Nat) (now bookId : Int)
    (hc : Consistent lib) : Consistent (User.returnBook lib self now bookId).2 := by
  rcases returnBook_effect lib self now bookId with ⟨-, h⟩ | h
  · rw [h]; exact hc
  obtain ⟨u, k, b, r, hu, hb, hrec, -, hcases⟩ := h
  obtain ⟨hk, hid, -⟩ := findBookById_some lib bookId k b hb
  obtain ⟨hr1, hr2⟩ := findRecord_some _ _ _ hrec
  have hbu : b.borrowedBy = u.userId := hc.record_owner hu hk hr1 (hid.trans hr2.symm)
  -- a record of the returner that survives the erasure is for another book
  have hself : ∀ (p : Nat) (x : Book) (r' : BorrowRecord),
      lib.books[p]? = some x →
      r' ∈ u.account.borrowRecords.filter (fun y => !decide (y.bookId = bookId)) →
      x.id = r'.bookId → ¬ k = p ∧ x.borrowedBy = u.userId := by
    intro p x r' hx hr' hxr
    rw [List.mem_filter] at hr'
    have hne : r'.bookId ≠ bookId := by simpa using hr'.2
    have hkp : ¬ k = p := by
      rintro rfl
      rw [hk] at hx; cases hx
      exact hne (hxr.symm.trans hid)
    exact ⟨hkp, hc.record_owner hu hx hr'.1 hxr⟩
  -- a record of a user other than the returner is for another book
  have hother : ∀ (i p : Nat) (w : User) (x : Book) (r' : BorrowRecord),
      ¬ self = i → lib.users[i]? = some w → lib.books[p]? = some x →
      r' ∈ w.account.borrowRecords → x.id = r'.bookId →
      ¬ k = p ∧ x.borrowedBy = w.userId := by
    intro i p w x r' hs hw hx hr' hxr
    have hown := hc.record_owner hw hx hr' hxr
    have hkp : ¬ k = p := by
      rintro rfl
      rw [hk] at hx; cases hx
      exact hs (hc.user_unique hu hw (hbu.symm.trans hown))
    exact ⟨hkp, hown⟩
  rcases hcases with ⟨j, v, h0, hj, hbooks, husers⟩ | ⟨-, hbooks, husers⟩
  · obtain ⟨hv, hvid⟩ := findUserById_some lib b.reservedBy j v hj
    refine consistent_of_pointwise lib _
      (fun i w =>
        { w with account :=
          { borrowRecords :=
              if self = i then
                w.account.borrowRecords.filter (fun x => !decide (x.bookId = bookId))
              else if j = i then
                w.account.borrowRecords ++
                  [({ bookId := bookId, borrowTimestamp := now,
                      borrowDays := handoffDays u.role v.role } : BorrowRecord)]
              else w.account.borrowRecords,
            fineDue :=
              if self = i then
                w.account.fineDue + returnFine u.role (elapsedDays now r.borrowTimestamp)
              else w.account.fineDue } })
      (fun p x => if k = p then
        { x with status := BookStatus.Borrowed, borrowedBy := b.reservedBy, reservedBy := 0 }
        else x)
      hc husers hbooks ?_ ?_ ?_ ?_
    · intro i w; rfl
    · intro p x; by_cases h : k = p <;> simp [h]
    · intro p x hx
      by_cases h : k = p
      · simp [h, h0]
      · simp only [if_neg h]
        exact hc.2.2.2.1 x (List.getElem?_mem hx)
    · intro i w p x r' hw hx hr' hxr
      by_cases hs : self = i
      · subst hs
        rw [hu] at hw; cases hw
        simp only [if_true] at hr'
        obtain ⟨hkp, hown⟩ := hself p x r' hx hr' hxr
        simpa [hkp] using hown
      · simp only [if_neg hs] at hr'
        by_cases hji : j = i
        · subst hji
          rw [hv] at hw; cases hw
          simp only [if_true, List.mem_append, List.mem_singleton] at hr'
          rcases hr' with hr' | hr'
          · obtain ⟨hkp, hown⟩ := hother j p v x r' hs hv hx hr' hxr
            simpa [hkp] using hown
          · subst hr'
            have hpk : p = k := hc.book_unique hx hk (by simpa [hid] using hxr)
            simp [hpk, hvid]
        · simp only [if_neg hji] at hr'
          obtain ⟨hkp, hown⟩ := hother i p w x r' hs hw hx hr' hxr
          simpa [hkp] using hown
  · refine consistent_of_pointwise lib _
      (fun i w =>
        { w with account :=
          { borrowRecords :=
              if self = i then
                w.account.borrowRecords.filter (fun x => !decide (x.bookId = bookId))
              else w.account.borrowRecords,
            fineDue :=
              if self = i then
                w.account.fineDue + returnFine u.role (elapsedDays now r.borrowTimestamp)
              else w.account.fineDue } })
      (fun p x => if k = p then
        { x with status := BookStatus.Available, borrowedBy := 0 } else x)
      hc husers hbooks ?_ ?_ ?_ ?_
    · intro i w; rfl
    · intro p x; by_cases h : k = p <;> simp [h]
    · intro p x hx
      by_cases h : k = p
      · simp [h]
      · simp only [if_neg h]
        exact hc.2.2.2.1 x (List.getElem?_mem hx)
    · intro i w p x r' hw hx hr' hxr
      by_cases hs : self = i
      · subst hs
        rw [hu] at hw; cases hw
        simp only [if_true] at hr'
        obtain ⟨hkp, hown⟩ := hself p x r' hx hr' hxr
        simpa [hkp] using hown
      · simp only [if_neg hs] at hr'
        obtain ⟨hkp, hown⟩ := hother i p w x r' hs hw hx hr' hxr
        simpa [hkp] using hown

theorem step_consistent (lib : Library) (op : Op) (hop : op.isUserOp = true)
    (hc : Consistent lib) : Consistent (step lib op) := by
  cases op with
  | borrow self now bookId days => exact borrowBook_consistent lib self now bookId days hc
  | reserve self bookId => exact reserveBook_consistent lib self bookId hc
  | returnBook self now bookId => exact returnBook_consistent lib self now bookId hc
  | payFine self now =>
    simp only [step]
    split
    · exact hc
    · exact payFine_consistent lib self now hc
  | addBook _ _ _ _ _ _ => cases hop
  | removeBook _ _ => cases hop
  | addUser _ _ _ _ => cases hop
  | removeUser _ _ => cases hop
  | register _ _ _ _ => cases hop

theorem run_consistent (ops : List Op) (lib : Library) (hops : ∀ op ∈ ops, op.isUserOp = true)
    (hc : Consistent lib) : Consistent (run lib ops) := by
  induction ops generalizing lib with
  | nil => exact hc
  | cons op ops ih =>
    have h1 := step_consistent lib op (hops op (List.mem_cons_self _ _)) hc
    exact ih (step lib op) (fun o ho => hops o (List.mem_cons_of_mem _ ho)) h1

set_option maxRecDepth 8000 in
theorem defaultSeed_consistent : Consistent defaultSeed := by
  refine ⟨by decide, by decide, by decide, by decide, ?_⟩
  have h : ∀ u ∈ defaultSeed.users, u.account.borrowRecords = [] := by decide
  intro u hu r hr
  rw [h u hu] at hr
  cases hr

theorem reachable_consistent (lib : Library) (h : ReachableByUserOps defaultSeed lib) :
    Consistent lib := by
  obtain ⟨ops, hops, rfl⟩ := h
  exact run_consistent ops defaultSeed hops defaultSeed_consistent

/-- C11: after a successful Borrow the account of the borrower holds one
record more than before, which is at most 3 records for a Student and at most
5 for a Faculty. -/
theorem borrow_respects_capacity (lib : Library) (self : Nat) (u : User)
    (now bookId days : Int)
    (hu : lib.users[self]? = some u)
    (hok : (User.borrowBook lib self now bookId days).1 = Outcome.ok) :
    ((User.borrowBook lib self now bookId days).2.users[self]?).map
        (fun w => w.account.borrowRecords.length) =
      some (u.account.borrowRecords.length + 1) ∧
    (u.role = Role.Student → u.account.borrowRecords.length + 1 ≤ 3) ∧
    (u.role = Role.Faculty → u.account.borrowRecords.length + 1 ≤ 5) := by
  rcases borrowBook_effect lib self now bookId days with ⟨hne, -⟩ | h
  · exact absurd hok hne
  · obtain ⟨u0, k, b, hu0, -, -, hcap, -, -, husers⟩ := h
    rw [hu] at hu0
    cases hu0
    refine ⟨?_, ?_, ?_⟩
    · rw [husers self, hu]
      simp [Account.addBorrowedBook]
    · intro hs
      rcases hcap with ⟨-, h⟩ | ⟨hf, -⟩
      · omega
      · rw [hs] at hf; cases hf
    · intro hf
      rcases hcap with ⟨hs, -⟩ | ⟨-, h⟩
      · rw [hf] at hs; cases hs
      · omega

/-- Witness for C11: `alice` borrows book 1 of the default seed. -/
theorem borrow_respects_capacity_witness :
    defaultSeed.users[0]? = some alice ∧
      (User.borrowBook defaultSeed 0 0 1 5).1 = Outcome.ok ∧
      ((User.borrowBook defaultSeed 0 0 1 5).2.users[0]?).map
          (fun w => w.account.borrowRecords.length) = some 1 :=
  ⟨by decide, by decide,
    (borrow_respects_capacity defaultSeed 0 alice 0 1 5 (by decide) (by decide)).1⟩

/-- C12 (amended): after a successful Return, with or without hand-off, the
record list of the returner is the old list without the records whose
`bookId` is the id of the returned book (the others keep their order); at
least one record is removed, and the list is exactly one record shorter when
the account held exactly one record for the book. -/
theorem return_removes_all_matching (lib : Library) (self : Nat) (u : User)
    (now bookId : Int)
    (hu : lib.users[self]? = some u)
    (hok : (User.returnBook lib self now bookId).1 = Outcome.ok) :
    ((User.returnBook lib self now bookId).2.users[self]?).map
        (fun w => w.account.borrowRecords) =
      some (u.account.borrowRecords.filter (fun r => !decide (r.bookId = bookId))) ∧
    (u.account.borrowRecords.filter (fun r => decide (r.bookId = bookId))).length ≥ 1 ∧
    ((u.account.borrowRecords.filter (fun r => decide (r.bookId = bookId))).length = 1 →
      (u.account.borrowRecords.filter (fun r => !decide (r.bookId = bookId))).length + 1 =
        u.account.borrowRecords.length) := by
  rcases returnBook_effect lib self now bookId with ⟨hne, -⟩ | h
  · exact absurd hok hne
  · obtain ⟨u0, k, b, r, hu0, -, hrec, -, hcases⟩ := h
    rw [hu] at hu0
    cases hu0
    obtain ⟨hr1, hr2⟩ := findRecord_some _ _ _ hrec
    have hlen := List.length_eq_length_filter_add (l := u.account.borrowRecords)
      (fun r => decide (r.bookId = bookId))
    refine ⟨?_, ?_, ?_⟩
    · rcases hcases with ⟨j, v, -, -, -, husers⟩ | ⟨-, -, husers⟩
      · rw [husers self, hu]; simp
      · rw [husers self, hu]; simp
    · have : r ∈ u.account.borrowRecords.filter (fun r => decide (r.bookId = bookId)) := by
        simp [List.mem_filter, hr1, hr2]
      exact List.length_pos_of_mem this
    · intro h1
      beta_reduce at hlen
      omega

set_option maxRecDepth 8000 in
/-- Witness for C12 (amended): `alice` returns book 1, her only record. -/
theorem return_removes_all_matching_witness :
    aliceLoan.users[0]? = some aliceWithLoan ∧
      (User.returnBook aliceLoan 0 100 1).1 = Outcome.ok ∧
      ((User.returnBook aliceLoan 0 100 1).2.users[0]?).map
          (fun w => w.account.borrowRecords) = some [] := by
  have h := (return_removes_all_matching aliceLoan 0 aliceWithLoan 100 1
    (by decide) (by decide)).1
  exact ⟨by decide, by decide, h⟩

set_option maxRecDepth 8000 in
/-- C12 (counterexample): after `duplicateRecordSession` the account of
`alice` holds two records for the id 50, and her Return of book 50 removes
both: the account is two records shorter, not one. -/
theorem return_removes_two_records_counterexample :
    (duplicateRecordState.users[0]?).map (fun w => w.account.borrowRecords) =
        some [{ bookId := 50, borrowTimestamp := 0, borrowDays := 10 },
              { bookId := 50, borrowTimestamp := 10, borrowDays := 10 }] ∧
      (User.returnBook duplicateRecordState 0 20 50).1 = Outcome.ok ∧
      ((User.returnBook duplicateRecordState 0 20 50).2.users[0]?).map
          (fun w => w.account.borrowRecords) = some [] :=
  ⟨by decide, by decide, by decide⟩

/-- C13: a Borrow, Reserve or Return that fails, for whatever reason, returns
the library it was given: books, users with their records and fines, and the
saved collections are identical to those before the call. -/
theorem failed_operation_changes_nothing (lib : Library) (self : Nat)
    (now bookId days : Int) :
    ((User.borrowBook lib self now bookId days).1 ≠ Outcome.ok →
      (User.borrowBook lib self now bookId days).2 = lib) ∧
    ((User.reserveBook lib self bookId).1 ≠ Outcome.ok →
      (User.reserveBook lib self bookId).2 = lib) ∧
    ((User.returnBook lib self now bookId).1 ≠ Outcome.ok →
      (User.returnBook lib self now bookId).2 = lib) := by
  refine ⟨fun hne => ?_, fun hne => ?_, fun hne => ?_⟩
  · rcases borrowBook_effect lib self now bookId days with ⟨-, h⟩ | ⟨_, _, _, _, _, _, _, h, _⟩
    · exact h
    · exact absurd h hne
  · rcases reserveBook_effect lib self bookId with ⟨-, h⟩ | ⟨_, _, _, _, _, _, _, _, h, _⟩
    · exact h
    · exact absurd h hne
  · rcases returnBook_effect lib self now bookId with ⟨-, h⟩ | ⟨_, _, _, _, _, _, _, h, _⟩
    · exact h
    · exact absurd h hne

/-- Witness for C13: `bob` asks for book 1 while `alice` holds it, reserves
book 1 of the default seed, and returns book 1 which he has not borrowed. -/
theorem failed_operation_changes_nothing_witness :
    (User.borrowBook aliceLoan 1 5 1 10).1 = Outcome.notAvailable ∧
      (User.borrowBook aliceLoan 1 5 1 10).2 = aliceLoan ∧
      (User.reserveBook defaultSeed 1 1).1 = Outcome.notBorrowed ∧
      (User.reserveBook defaultSeed 1 1).2 = defaultSeed ∧
      (User.returnBook aliceLoan 1 5 1).1 = Outcome.didNotBorrow ∧
      (User.returnBook aliceLoan 1 5 1).2 = aliceLoan :=
  ⟨by decide,
    (failed_operation_changes_nothing aliceLoan 1 5 1 10).1 (by decide),
    by decide,
    (failed_operation_changes_nothing defaultSeed 1 0 1 0).2.1 (by decide),
    by decide,
    (failed_operation_changes_nothing aliceLoan 1 5 1 0).2.2 (by decide)⟩

/-- C14: when a Student holds no record for the book, the book is unreserved
and Borrow succeeds (so the book was unborrowed), a Return that follows with
at most 15 elapsed days succeeds, leaves the book with status `Available`,
`borrowedBy = 0` and `reservedBy = 0`, and leaves the Student (fine and record
list included) as before the Borrow. -/
theorem student_borrow_return_roundtrip (lib : Library) (self : Nat) (u : User)
    (now1 now2 bookId days : Int) (k : Nat) (b : Book)
    (hu : lib.users[self]? = some u) (hr : u.role = Role.Student)
    (hnorec : ∀ r ∈ u.account.borrowRecords, r.bookId ≠ bookId)
    (hb : lib.findBookById bookId = some (k, b))
    (hbr : b.reservedBy = 0)
    (hok : (User.borrowBook lib self now1 bookId days).1 = Outcome.ok)
    (hel : elapsedDays now2 now1 ≤ 15) :
    (User.returnBook (User.borrowBook lib self now1 bookId days).2 self now2 bookId).1 =
        Outcome.ok ∧
    (User.returnBook (User.borrowBook lib self now1 bookId days).2 self now2 bookId).2.books[k]? =
        some { b with status := BookStatus.Available, borrowedBy := 0, reservedBy := 0 } ∧
    (User.returnBook (User.borrowBook lib self now1 bookId days).2 self now2 bookId).2.users[self]? =
        some u := by
  rcases borrowBook_effect lib self now1 bookId days with ⟨hne, -⟩ | h
  · exact absurd hok hne
  obtain ⟨u0, k0, b0, hu0, hb0, -, -, -, hbooks, husers⟩ := h
  rw [hu] at hu0; cases hu0
  rw [hb] at hb0; cases hb0
  obtain ⟨hk, hid, -⟩ := findBookById_some lib bookId k b hb
  generalize (User.borrowBook lib self now1 bookId days).2 = lib1 at hbooks husers ⊢
  -- the state after the Borrow
  have hb1 : lib1.findBookById bookId =
      some (k, { b with status := BookStatus.Borrowed, borrowedBy := u.userId }) := by
    rw [findBookById_of_pointwise lib lib1
      (fun x => { x with status := BookStatus.Borrowed, borrowedBy := u.userId })
      (fun _ => rfl) k hbooks, hb]
    simp
  have hu1 : lib1.users[self]? =
      some { u with account := u.account.addBorrowedBook now1 bookId days } := by
    rw [husers self, hu]; simp
  have hfind : u.account.borrowRecords.find? (fun r => decide (r.bookId = bookId)) = none := by
    rw [List.find?_eq_none]
    intro r hr; simpa using hnorec r hr
  have hrec1 : findRecord (u.account.addBorrowedBook now1 bookId days).borrowRecords bookId =
      some { bookId := bookId, borrowTimestamp := now1, borrowDays := days } := by
    rw [findRecord_eq]
    simp [Account.addBorrowedBook, List.find?_append, hfind]
  have hok2 := returnBook_ok_of lib1 self _ now2 bookId k _ _ hu1 (by simp [hr]) hb1 hrec1
  refine ⟨hok2, ?_⟩
  rcases returnBook_effect lib1 self now2 bookId with ⟨hne, -⟩ | h
  · exact absurd hok2 hne
  obtain ⟨u2, k2, b2, r2, hu2, hb2, hrec2, -, hcases⟩ := h
  rw [hu1] at hu2; cases hu2
  rw [hb1] at hb2; cases hb2
  rw [hrec1] at hrec2; cases hrec2
  have hfilter : List.filter (fun r => !decide (r.bookId = bookId)) u.account.borrowRecords =
      u.account.borrowRecords := by
    rw [List.filter_eq_self]
    intro r hr; simpa using hnorec r hr
  have hfine : returnFine u.role (elapsedDays now2 now1) = 0 := by
    simp [returnFine, hr]; omega
  have hk1 : lib1.books[k]? =
      some { b with status := BookStatus.Borrowed, borrowedBy := u.userId } := by
    rw [hbooks k, hk]; simp
  rcases hcases with ⟨j, v, h0, -⟩ | ⟨-, hbooks2, husers2⟩
  · exact absurd hbr h0
  · refine ⟨?_, ?_⟩
    · rw [hbooks2 k, hk1]; simp [hbr]
    · rw [husers2 self, hu1]
      simp [Account.addBorrowedBook, List.filter_append, hfilter, hfine]

set_option maxRecDepth 8000 in
/-- Witness for C14: from the default seed, `alice` borrows book 1 for 10 days
at time 0 and returns it after 5 days (`432000 = 5 * 86400`): book 1 is
`Available` again and her fine is 0. -/
theorem student_borrow_return_roundtrip_witness :
    defaultSeed.users[0]? = some alice ∧ alice.role = Role.Student ∧
      defaultSeed.findBookById 1 = some (0, book1) ∧
      (User.borrowBook defaultSeed 0 0 1 10).1 = Outcome.ok ∧
      (User.returnBook (User.borrowBook defaultSeed 0 0 1 10).2 0 432000 1).1 = Outcome.ok ∧
      (User.returnBook (User.borrowBook defaultSeed 0 0 1 10).2 0 432000 1).2.books[0]? =
        some book1 ∧
      book1.status = BookStatus.Available ∧
      (User.returnBook (User.borrowBook defaultSeed 0 0 1 10).2 0 432000 1).2.users[0]? =
        some alice ∧
      alice.account.fineDue = 0 := by
  have h := student_borrow_return_roundtrip defaultSeed 0 alice 0 432000 1 10 0 book1
    (by decide) rfl (by decide) (by decide) rfl (by decide) (by decide)
  exact ⟨by decide, rfl, by decide, by decide, h.1, h.2.1, rfl, h.2.2, rfl⟩

theorem elapsedDays_self (now : Int) : elapsedDays now now = 0 := by
  simp [elapsedDays, castToInt, IsInt]

/-- C15: for an account with a positive fine, PayFine at time `now` succeeds
and sets the fine to 0; for a Student every record gets the timestamp `now`
and keeps its `bookId`, `borrowDays` and position, so the elapsed days at `now`
are 0 for every record; for any other user the records are unchanged.  No book
and no other user is changed. -/
theorem payFine_clears_fine (lib : Library) (self : Nat) (u : User) (now : Int)
    (hu : lib.users[self]? = some u) (hf : u.account.fineDue > 0) :
    (User.payFine lib self now).1 = Outcome.ok ∧
    (User.payFine lib self now).2.books = lib.books ∧
    (User.payFine lib self now).2.users[self]? =
      some { u with account :=
        { borrowRecords :=
            if u.role = Role.Student then
              u.account.borrowRecords.map (fun r => { r with borrowTimestamp := now })
            else u.account.borrowRecords,
          fineDue := 0 } } ∧
    (u.role = Role.Student →
      ∀ r ∈ u.account.borrowRecords.map (fun r => { r with borrowTimestamp := now }),
        elapsedDays now r.borrowTimestamp = 0) ∧
    (∀ j, j ≠ self → (User.payFine lib self now).2.users[j]? = lib.users[j]?) := by
  obtain ⟨hbooks, -, -, husers⟩ := payFine_effect lib self now
  refine ⟨?_, hbooks, ?_, ?_, ?_⟩
  · simp [User.payFine, hu, hf]
  · rw [husers self, hu]; simp [hf]
  · intro _ r hr
    rw [List.mem_map] at hr
    obtain ⟨r0, -, rfl⟩ := hr
    exact elapsedDays_self now
  · intro j hj
    rw [husers j]
    cases lib.users[j]? with
    | none => rfl
    | some w => simp [Ne.symm hj]

/-- Witness for C15: `alice` with a fine of 50 and one record pays at time 777. -/
theorem payFine_clears_fine_witness :
    finedState.users[0]? = some aliceFined ∧ aliceFined.account.fineDue = 50 ∧
      (User.payFine finedState 0 777).1 = Outcome.ok ∧
      (User.payFine finedState 0 777).2.users[0]? =
        some { alice with account :=
          { borrowRecords := [{ bookId := 2, borrowTimestamp := 777, borrowDays := 5 }],
            fineDue := 0 } } := by
  have h := payFine_clears_fine finedState 0 aliceFined 777 (by decide) (by decide)
  exact ⟨by decide, rfl, h.1, by decide⟩

/-- C16: for an account with fine 0, PayFine reports "No fine due." and
returns the library unchanged; and for every library and fixed time, PayFine
applied twice gives the same library as PayFine applied once. -/
theorem payFine_noop_and_idempotent (lib : Library) (self : Nat) (now : Int) :
    (∀ u, lib.users[self]? = some u → u.account.fineDue = 0 →
      User.payFine lib self now = (Outcome.noFineDue, lib)) ∧
    (User.payFine (User.payFine lib self now).2 self now).2 =
      (User.payFine lib self now).2 := by
  refine ⟨?_, ?_⟩
  · intro u hu hf
    simp [User.payFine, hu, hf]
  · obtain ⟨-, -, -, husers⟩ := payFine_effect lib self now
    generalize (User.payFine lib self now).2 = lib1 at husers ⊢
    cases hu1 : lib1.users[self]? with
    | none => simp [User.payFine, hu1]
    | some u1 =>
      have hfine : ¬ u1.account.fineDue > 0 := by
        have h := husers self
        rw [hu1] at h
        cases hu : lib.users[self]? with
        | none => rw [hu] at h; cases h
        | some u =>
          rw [hu] at h
          simp only [Option.map_some', true_and, Option.some.injEq] at h
          by_cases hf : u.account.fineDue > 0
          · rw [if_pos hf] at h
            rw [h]; simp
          · rw [if_neg hf] at h
            rw [h]; exact hf
      simp [User.payFine, hu1, hfine]

/-- Witness for C16: `alice` of the default seed has no fine to pay. -/
theorem payFine_noop_and_idempotent_witness :
    defaultSeed.users[0]? = some alice ∧ alice.account.fineDue = 0 ∧
      User.payFine defaultSeed 0 5 = (Outcome.noFineDue, defaultSeed) :=
  ⟨by decide, rfl,
    (payFine_noop_and_idempotent defaultSeed 0 5).1 alice (by decide) rfl⟩

/-- C18 (amended): for timestamps with `borrowTimestamp ≤ now` and less than
2^31 days apart, the elapsed days used by Return equal
`floor((now - borrowTimestamp) / 86400)`; for `now < borrowTimestamp`, less
than 2^31 + 1 days apart, they equal that quotient rounded up, the conversion
to `int` being truncation toward zero.  (Further apart the quotient is not an
`int`.) -/
theorem elapsedDays_floor_of_nonneg (now borrowTimestamp : Int) :
    (borrowTimestamp ≤ now → now - borrowTimestamp < 2147483648 * 86400 →
      elapsedDays now borrowTimestamp = floorDays now borrowTimestamp) ∧
    (now < borrowTimestamp → borrowTimestamp - now < 2147483649 * 86400 →
      elapsedDays now borrowTimestamp = ceilDays now borrowTimestamp) := by
  have hfloor : ∀ d : Int, Int.floor ((d : ℚ) / 86400) = d / 86400 := by
    intro d
    have := Rat.floor_intCast_div_natCast d 86400
    simpa using this
  refine ⟨fun h hlt => ?_, fun h hlt => ?_⟩
  · unfold elapsedDays floorDays
    rw [hfloor, Int.tdiv_eq_ediv (by omega) (by norm_num)]
    exact castToInt_of_isInt _ (by unfold IsInt; omega)
  · unfold elapsedDays ceilDays
    have h1 : now - borrowTimestamp = -(borrowTimestamp - now) := by ring
    have h2 : (((now - borrowTimestamp : Int) : ℚ) / 86400) =
        -(((borrowTimestamp - now : Int) : ℚ) / 86400) := by
      push_cast; ring
    rw [h2, Int.ceil_neg, hfloor, h1, Int.neg_tdiv, Int.tdiv_eq_ediv (by omega) (by norm_num)]
    exact castToInt_of_isInt _ (by unfold IsInt; omega)

/-- Witness for C18 (amended): 20 days after the loan. -/
theorem elapsedDays_floor_of_nonneg_witness :
    (0 : Int) ≤ 1728000 ∧ (1728000 : Int) - 0 < 2147483648 * 86400 ∧
      elapsedDays 1728000 0 = floorDays 1728000 0 :=
  ⟨by decide, by decide, (elapsedDays_floor_of_nonneg 1728000 0).1 (by decide) (by decide)⟩

/-- Timestamps 2^31 days apart: the quotient is no `int` and the conversion
yields the smallest `int`. -/
theorem elapsedDays_out_of_range :
    elapsedDays (2147483648 * 86400) 0 = -2147483648 := by
  decide

/-- C18 (counterexample): with `now = 0` and `borrowTimestamp = 1` the
elapsed days are 0 while `floor(-1 / 86400)` is -1. -/
theorem elapsedDays_not_floor_counterexample :
    elapsedDays 0 1 = 0 ∧ floorDays 0 1 = -1 := by
  refine ⟨by decide, ?_⟩
  unfold floorDays
  rw [Int.floor_eq_iff]
  norm_num

/-- C19: `Account::removeBorrowedBook` leaves exactly the records whose
`bookId` differs from the given id, in their original order: it is a sublist
of the old list, a record is kept if and only if it was there and does not
match, the fine is unchanged, and an account without matching record is
unchanged. -/
theorem removeBorrowedBook_is_filter (a : Account) (bookId : Int) :
    (a.removeBorrowedBook bookId).borrowRecords =
        a.borrowRecords.filter (fun r => decide (r.bookId ≠ bookId)) ∧
    (a.removeBorrowedBook bookId).borrowRecords.Sublist a.borrowRecords ∧
    (∀ r, r ∈ (a.removeBorrowedBook bookId).borrowRecords ↔
        r ∈ a.borrowRecords ∧ r.bookId ≠ bookId) ∧
    (a.removeBorrowedBook bookId).fineDue = a.fineDue ∧
    ((∀ r ∈ a.borrowRecords, r.bookId ≠ bookId) → a.removeBorrowedBook bookId = a) := by
  rw [removeBorrowedBook_eq]
  have hfun : (fun r : BorrowRecord => !decide (r.bookId = bookId)) =
      (fun r => decide (r.bookId ≠ bookId)) := by
    funext r; simp
  refine ⟨by simp only [hfun], List.filter_sublist _, ?_, rfl, ?_⟩
  · intro r; simp [List.mem_filter]
  · intro h
    have : List.filter (fun r => !decide (r.bookId = bookId)) a.borrowRecords =
        a.borrowRecords := by
      rw [List.filter_eq_self]
      intro r hr; simpa using h r hr
    rw [this]

/-- Witness for C19: removing the id 7 from the account of `aliceWithLoan`
changes nothing, removing the id 1 empties it. -/
theorem removeBorrowedBook_is_filter_witness :
    (aliceWithLoan.account.removeBorrowedBook 7) = aliceWithLoan.account ∧
      (aliceWithLoan.account.removeBorrowedBook 1).borrowRecords = [] :=
  ⟨(removeBorrowedBook_is_filter aliceWithLoan.account 7).2.2.2.2 (by decide), by decide⟩

/-- C20: the status printed for a book in the book list of a user is
`specStatus` of `borrowedBy`, `reservedBy` and the viewer: "Available" when
`borrowedBy = 0`, else "Borrowed" when the viewer is the borrower, else
"Reserved (For You)" or "Reserved" when there is a reservation (for the viewer
or not), else "Borrowed".  Two books with the same owner references get the
same text whatever their stored status. -/
theorem shownStatus_is_derived (lib : Library) (viewerId : Int) :
    (∀ b : Book, shownStatus b viewerId = specStatus b.borrowedBy b.reservedBy viewerId) ∧
    (∀ b b' : Book, b.borrowedBy = b'.borrowedBy → b.reservedBy = b'.reservedBy →
      shownStatus b viewerId = shownStatus b' viewerId) ∧
    (lib.printBooksForUser viewerId).map (fun e => e.status) =
      lib.books.map (fun b => specStatus b.borrowedBy b.reservedBy viewerId) := by
  have h1 : ∀ b : Book, shownStatus b viewerId =
      specStatus b.borrowedBy b.reservedBy viewerId := by
    intro b
    have key : ∀ (P : Prop), P = True ∨ P = False := fun P => by
      by_cases h : P <;> simp [h]
    unfold shownStatus specStatus
    rcases key (b.borrowedBy = 0) with hb | hb <;>
      rcases key (b.borrowedBy = viewerId) with hv | hv <;>
      rcases key (b.reservedBy = 0) with hr | hr <;>
      rcases key (b.reservedBy = viewerId) with hrv | hrv <;>
      simp [hb, hv, hr, hrv]
  refine ⟨h1, ?_, ?_⟩
  · intro b b' hb hr
    rw [h1, h1, hb, hr]
  · simp [Library.printBooksForUser, h1]

/-- Witness for C20: the stored status does not change the text shown. -/
theorem shownStatus_is_derived_witness :
    shownStatus { book1 with status := BookStatus.Available, borrowedBy := 1, reservedBy := 2 } 2 =
        "Reserved (For You)" ∧
      shownStatus { book1 with status := BookStatus.Reserved, borrowedBy := 1, reservedBy := 2 } 2 =
        "Reserved (For You)" :=
  ⟨by decide,
    ((shownStatus_is_derived defaultSeed 2).2.1 _
      { book1 with status := BookStatus.Available, borrowedBy := 1, reservedBy := 2 }
      rfl rfl).trans (by decide)⟩

theorem Consistent.findBookById_pos {lib : Library} (hc : Consistent lib) {p : Nat} {b : Book}
    (hb : lib.books[p]? = some b) : lib.findBookById b.id = some (p, b) := by
  cases h : lib.findBookById b.id with
  | none =>
    have := (bookWithId_eq_none lib b.id).1 ((findBookById_none lib b.id).1 h) b
      (List.getElem?_mem hb)
    exact absurd rfl this
  | some kb =>
    obtain ⟨k, b0⟩ := kb
    obtain ⟨hk, hid, -⟩ := findBookById_some lib b.id k b0 h
    have hkp : k = p := hc.book_unique hk hb hid
    subst hkp
    rw [hk] at hb; cases hb
    rfl

/-- C17: in every state reachable from the default seed by Borrow, Reserve,
Return and PayFine, and for every such operation as next step: a book whose
status becomes `Reserved` had the status `Borrowed`; a book whose status
`Reserved` changes is the object of a successful Return by the user whose id
is the `borrowedBy` of the book, and its new status is `Borrowed` or
`Available`; Borrow and Reserve of a `Reserved` book are rejected. -/
theorem reserved_status_transitions (lib : Library)
    (hreach : ReachableByUserOps defaultSeed lib)
    (op : Op) (hop : op.isUserOp = true) (p : Nat) (b b' : Book)
    (hb : lib.books[p]? = some b) (hb' : (step lib op).books[p]? = some b') :
    (b'.status = BookStatus.Reserved → b.status ≠ BookStatus.Reserved →
      b.status = BookStatus.Borrowed) ∧
    (b.status = BookStatus.Reserved → b'.status ≠ BookStatus.Reserved →
      ∃ self now u, op = Op.returnBook self now b.id ∧ lib.users[self]? = some u ∧
        u.userId = b.borrowedBy ∧ (User.returnBook lib self now b.id).1 = Outcome.ok ∧
        (b'.status = BookStatus.Borrowed ∨ b'.status = BookStatus.Available)) ∧
    (b.status = BookStatus.Reserved →
      (∀ self now days, (User.borrowBook lib self now b.id days).1 ≠ Outcome.ok) ∧
      (∀ self, (User.reserveBook lib self b.id).1 ≠ Outcome.ok)) := by
  have hc := reachable_consistent lib hreach
  have hfind := hc.findBookById_pos hb
  have hsame : (step lib op).books = lib.books → b' = b := by
    intro h
    rw [h, hb] at hb'
    exact (Option.some.inj hb').symm
  refine ⟨?_, ?_, ?_⟩
  · -- a book becomes Reserved from Borrowed only
    intro h1 h2
    cases op with
    | borrow self now bookId days =>
      rcases borrowBook_effect lib self now bookId days with ⟨-, h⟩ | h
      · exact absurd (hsame (by simp only [step]; rw [h]) ▸ h1) h2
      · obtain ⟨u, k, b0, -, -, -, -, -, hbooks, -⟩ := h
        simp only [step] at hb'
        rw [hbooks p, hb] at hb'
        by_cases hkp : k = p
        · simp [hkp] at hb'
          rw [← hb'] at h1
          cases h1
        · simp [hkp] at hb'
          exact absurd (hb' ▸ h1) h2
    | reserve self bookId =>
      rcases reserveBook_effect lib self bookId with ⟨-, h⟩ | h
      · exact absurd (hsame (by simp only [step]; rw [h]) ▸ h1) h2
      · obtain ⟨u, k, b0, -, hb0, hst, -, -, -, hbooks, -⟩ := h
        obtain ⟨hk, -, -⟩ := findBookById_some lib bookId k b0 hb0
        simp only [step] at hb'
        rw [hbooks p, hb] at hb'
        by_cases hkp : k = p
        · subst hkp
          rw [hk] at hb; cases hb
          exact hst
        · simp [hkp] at hb'
          exact absurd (hb' ▸ h1) h2
    | returnBook self now bookId =>
      rcases returnBook_effect lib self now bookId with ⟨-, h⟩ | h
      · exact absurd (hsame (by simp only [step]; rw [h]) ▸ h1) h2
      · obtain ⟨u, k, b0, r, -, -, -, -, hcases⟩ := h
        simp only [step] at hb'
        rcases hcases with ⟨j, v, -, -, hbooks, -⟩ | ⟨-, hbooks, -⟩
        · rw [hbooks p, hb] at hb'
          by_cases hkp : k = p
          · simp [hkp] at hb'
            rw [← hb'] at h1
            cases h1
          · simp [hkp] at hb'
            exact absurd (hb' ▸ h1) h2
        · rw [hbooks p, hb] at hb'
          by_cases hkp : k = p
          · simp [hkp] at hb'
            rw [← hb'] at h1
            cases h1
          · simp [hkp] at hb'
            exact absurd (hb' ▸ h1) h2
    | payFine self now =>
      have : (step lib (Op.payFine self now)).books = lib.books := by
        simp only [step]
        split
        · rfl
        · exact (payFine_effect lib self now).1
      exact absurd (hsame this ▸ h1) h2
    | addBook _ _ _ _ _ _ => cases hop
    | removeBook _ _ => cases hop
    | addUser _ _ _ _ => cases hop
    | removeUser _ _ => cases hop
    | register _ _ _ _ => cases hop
  · -- a Reserved book changes status only through the Return of its borrower
    intro h1 h2
    have hnotav : b.borrowedBy ≠ 0 := by
      intro h0
      have := hc.2.2.2.1 b (List.getElem?_mem hb) h0
      rw [h1] at this; cases this
    cases op with
    | borrow self now bookId days =>
      rcases borrowBook_effect lib self now bookId days with ⟨-, h⟩ | h
      · exact absurd (hsame (by simp only [step]; rw [h]) ▸ h1) h2
      · obtain ⟨u, k, b0, -, hb0, hbb, -, -, hbooks, -⟩ := h
        obtain ⟨hk, -, -⟩ := findBookById_some lib bookId k b0 hb0
        simp only [step] at hb'
        rw [hbooks p, hb] at hb'
        by_cases hkp : k = p
        · subst hkp
          rw [hk] at hb; cases hb
          exact absurd hbb hnotav
        · simp [hkp] at hb'
          exact absurd (hb' ▸ h1) h2
    | reserve self bookId =>
      rcases reserveBook_effect lib self bookId with ⟨-, h⟩ | h
      · exact absurd (hsame (by simp only [step]; rw [h]) ▸ h1) h2
      · obtain ⟨u, k, b0, -, hb0, hst, -, -, -, hbooks, -⟩ := h
        obtain ⟨hk, -, -⟩ := findBookById_some lib bookId k b0 hb0
        simp only [step] at hb'
        rw [hbooks p, hb] at hb'
        by_cases hkp : k = p
        · subst hkp
          rw [hk] at hb; cases hb
          rw [h1] at hst; cases hst
        · simp [hkp] at hb'
          exact absurd (hb' ▸ h1) h2
    | returnBook self now bookId =>
      rcases returnBook_effect lib self now bookId with ⟨-, h⟩ | h
      · exact absurd (hsame (by simp only [step]; rw [h]) ▸ h1) h2
      · obtain ⟨u, k, b0, r, hu, hb0, hrec, hok, hcases⟩ := h
        obtain ⟨hk, hid, -⟩ := findBookById_some lib bookId k b0 hb0
        obtain ⟨hr1, hr2⟩ := findRecord_some _ _ _ hrec
        simp only [step] at hb'
        have hstat : k = p → (b'.status = BookStatus.Borrowed ∨
            b'.status = BookStatus.Available) := by
          intro hkp
          rcases hcases with ⟨j, v, -, -, hbooks, -⟩ | ⟨-, hbooks, -⟩
          · rw [hbooks p, hb] at hb'
            simp [hkp] at hb'
            rw [← hb']; exact Or.inl rfl
          · rw [hbooks p, hb] at hb'
            simp [hkp] at hb'
            rw [← hb']; exact Or.inr rfl
        have hother : ¬ k = p → b' = b := by
          intro hkp
          rcases hcases with ⟨j, v, -, -, hbooks, -⟩ | ⟨-, hbooks, -⟩
          · rw [hbooks p, hb] at hb'
            simpa [hkp] using hb'.symm
          · rw [hbooks p, hb] at hb'
            simpa [hkp] using hb'.symm
        by_cases hkp : k = p
        · have hst := hstat hkp
          subst hkp
          rw [hk] at hb; cases hb
          subst hid
          exact ⟨self, now, u, rfl, hu,
            (hc.record_owner hu hk hr1 hr2.symm).symm, hok, hst⟩
        · exact absurd (hother hkp ▸ h1) h2
    | payFine self now =>
      have : (step lib (Op.payFine self now)).books = lib.books := by
        simp only [step]
        split
        · rfl
        · exact (payFine_effect lib self now).1
      exact absurd (hsame this ▸ h1) h2
    | addBook _ _ _ _ _ _ => cases hop
    | removeBook _ _ => cases hop
    | addUser _ _ _ _ => cases hop
    | removeUser _ _ => cases hop
    | register _ _ _ _ => cases hop
  · -- Borrow and Reserve of a Reserved book are rejected
    intro h1
    have hnotav : b.borrowedBy ≠ 0 := by
      intro h0
      have := hc.2.2.2.1 b (List.getElem?_mem hb) h0
      rw [h1] at this; cases this
    refine ⟨fun self now days hok => ?_, fun self hok => ?_⟩
    · rcases borrowBook_effect lib self now b.id days with ⟨hne, -⟩ | h
      · exact hne hok
      · obtain ⟨u, k, b0, -, hb0, hbb, -⟩ := h
        rw [hfind] at hb0
        cases hb0
        exact hnotav hbb
    · rcases reserveBook_effect lib self b.id with ⟨hne, -⟩ | h
      · exact hne hok
      · obtain ⟨u, k, b0, -, hb0, hst, -⟩ := h
        rw [hfind] at hb0
        cases hb0
        rw [h1] at hst; cases hst

set_option maxRecDepth 8000 in
/-- Witness for C17: book 1, borrowed by `alice` and reserved by `bob`, is
returned by `alice`; `charlie` can neither borrow nor reserve it before. -/
theorem reserved_status_transitions_witness :
    aliceLoanBobReserved.books[0]? =
        some { book1 with status := BookStatus.Reserved, borrowedBy := 1, reservedBy := 2 } ∧
      (step aliceLoanBobReserved (Op.returnBook 0 100 1)).books[0]? =
        some { book1 with status := BookStatus.Borrowed, borrowedBy := 2, reservedBy := 0 } ∧
      (User.borrowBook aliceLoanBobReserved 2 100 1 5).1 ≠ Outcome.ok ∧
      (User.reserveBook aliceLoanBobReserved 2 1).1 ≠ Outcome.ok := by
  have h := reserved_status_transitions aliceLoanBobReserved
    ⟨[Op.borrow 0 0 1 5, Op.reserve 1 1], by decide, rfl⟩
    (Op.returnBook 0 100 1) rfl 0
    { book1 with status := BookStatus.Reserved, borrowedBy := 1, reservedBy := 2 }
    { book1 with status := BookStatus.Borrowed, borrowedBy := 2, reservedBy := 0 }
    (by decide) (by decide)
  exact ⟨by decide, by decide, (h.2.2 rfl).1 2 100 5, (h.2.2 rfl).2 2⟩

/-! ## Identifiers, persistence and the text of the data files -/

theorem foldl_max_spec {α : Type} (f : α → Int) (l : List α) (a : Int) :
    a ≤ l.foldl (fun m x => max m (f x)) a ∧
    (∀ x ∈ l, f x ≤ l.foldl (fun m x => max m (f x)) a) ∧
    (l.foldl (fun m x => max m (f x)) a = a ∨
      ∃ x ∈ l, l.foldl (fun m x => max m (f x)) a = f x) := by
  induction l generalizing a with
  | nil => simp
  | cons y ys ih =>
    obtain ⟨h1, h2, h3⟩ := ih (max a (f y))
    simp only [List.foldl_cons, List.mem_cons, forall_eq_or_imp, exists_eq_or_imp]
    refine ⟨le_trans (le_max_left _ _) h1, ⟨le_trans (le_max_right _ _) h1, h2⟩, ?_⟩
    rcases h3 with h3 | ⟨x, hx, h3⟩
    · rcases max_choice a (f y) with hm | hm
      · left; rw [h3, hm]
      · right; left; rw [h3, hm]
    · right; right; exact ⟨x, hx, h3⟩

/-- Without an element of value 2147483647 the `int` sum `maxId + 1` is
exact. -/
theorem nextId_exact {α : Type} (f : α → Int) (l : List α) (h : ∀ x ∈ l, f x < 2147483647) :
    wrapInt (l.foldl (fun m x => max m (f x)) 0 + 1) =
      l.foldl (fun m x => max m (f x)) 0 + 1 := by
  obtain ⟨h1, -, h3⟩ := foldl_max_spec f l 0
  apply wrapInt_of_isInt
  unfold IsInt
  rcases h3 with h3 | ⟨x, hx, h3⟩
  · omega
  · have := h x hx
    omega

theorem nextId_spec {α : Type} (f : α → Int) (l : List α) :
    (∀ x ∈ l, f x < l.foldl (fun m x => max m (f x)) 0 + 1) ∧
    (l = [] → l.foldl (fun m x => max m (f x)) 0 + 1 = 1) ∧
    ((∃ x ∈ l, 0 ≤ f x) →
      ∃ m ∈ l, (∀ x ∈ l, f x ≤ f m) ∧ l.foldl (fun m x => max m (f x)) 0 + 1 = f m + 1) ∧
    ((∀ x ∈ l, f x < 0) → l.foldl (fun m x => max m (f x)) 0 + 1 = 1) := by
  obtain ⟨h1, h2, h3⟩ := foldl_max_spec f l 0
  refine ⟨fun x hx => by have := h2 x hx; omega, fun h => by subst h; rfl, ?_, ?_⟩
  · rintro ⟨x, hx, hx0⟩
    rcases h3 with h3 | ⟨m, hm, h3⟩
    · refine ⟨x, hx, fun y hy => ?_, ?_⟩
      · have := h2 y hy; have := h2 x hx; omega
      · have := h2 x hx; omega
    · exact ⟨m, hm, fun y hy => by have := h2 y hy; omega, by omega⟩
  · intro hneg
    rcases h3 with h3 | ⟨m, hm, h3⟩
    · omega
    · have := hneg m hm; omega

/-- C21 (amended): for a collection in which no book has the id 2147483647
(the largest `int`), `generateBookId` is greater than the id of every book of
the collection; it is 1 for the empty collection and for a collection whose
ids are all negative, and it is the maximum id plus 1 as soon as some id is
not negative.  The same holds of `generateUserId` and the users. -/
theorem generated_id_is_fresh (lib : Library)
    (hbooks : ∀ b ∈ lib.books, b.id < 2147483647)
    (husers : ∀ u ∈ lib.users, u.userId < 2147483647) :
    ((∀ b ∈ lib.books, b.id < lib.generateBookId) ∧
      (lib.books = [] → lib.generateBookId = 1) ∧
      ((∃ b ∈ lib.books, 0 ≤ b.id) →
        ∃ m ∈ lib.books, (∀ b ∈ lib.books, b.id ≤ m.id) ∧ lib.generateBookId = m.id + 1) ∧
      ((∀ b ∈ lib.books, b.id < 0) → lib.generateBookId = 1)) ∧
    ((∀ u ∈ lib.users, u.userId < lib.generateUserId) ∧
      (lib.users = [] → lib.generateUserId = 1) ∧
      ((∃ u ∈ lib.users, 0 ≤ u.userId) →
        ∃ m ∈ lib.users, (∀ u ∈ lib.users, u.userId ≤ m.userId) ∧
          lib.generateUserId = m.userId + 1) ∧
      ((∀ u ∈ lib.users, u.userId < 0) → lib.generateUserId = 1)) := by
  have hb : lib.generateBookId = lib.books.foldl (fun m b => max m b.id) 0 + 1 :=
    nextId_exact (fun b : Book => b.id) lib.books hbooks
  have hu : lib.generateUserId = lib.users.foldl (fun m u => max m u.userId) 0 + 1 :=
    nextId_exact (fun u : User => u.userId) lib.users husers
  rw [hb, hu]
  exact ⟨nextId_spec (fun b : Book => b.id) lib.books,
    nextId_spec (fun u : User => u.userId) lib.users⟩

set_option maxRecDepth 8000 in
/-- Witness for C21: in the default seed the id of book 1 is below the
generated book id; the generated ids are 51 and 12. -/
theorem generated_id_is_fresh_witness :
    (∀ b ∈ defaultSeed.books, b.id < 2147483647) ∧
      (∀ u ∈ defaultSeed.users, u.userId < 2147483647) ∧
      book1 ∈ defaultSeed.books ∧ book1.id < defaultSeed.generateBookId ∧
      defaultSeed.generateBookId = 51 ∧ defaultSeed.generateUserId = 12 :=
  ⟨by decide, by decide, by decide,
    (generated_id_is_fresh defaultSeed (by decide) (by decide)).1.1 book1 (by decide),
    by decide, by decide⟩

/-- For a collection whose only book has the id 2147483647 the `int` sum
`maxId + 1` is the smallest `int`, which is below the existing id. -/
theorem generated_id_overflow :
    Library.generateBookId
        { books := [{ book1 with id := 2147483647 }], users := [], savedBooks := none,
          savedUsers := none } = -2147483648 := by
  decide

/-- C21 (counterexample): for the collection whose only book has id -5 the
generated id is 1, which is not the maximum id plus 1; likewise for the
collection whose only user has id -5. -/
theorem generated_id_negative_counterexample :
    negativeIdLibrary.books.map (fun b => b.id) = [-5] ∧
      negativeIdLibrary.generateBookId = 1 ∧
      negativeUserIdLibrary.users.map (fun u => u.userId) = [-5] ∧
      negativeUserIdLibrary.generateUserId = 1 ∧
      (1 : Int) ≠ -5 + 1 := by
  decide

theorem borrowBook_savedUsers (lib : Library) (self : Nat) (now bookId days : Int) :
    (User.borrowBook lib self now bookId days).2.savedUsers = lib.savedUsers := by
  unfold User.borrowBook Student.borrowBook Faculty.borrowBook
  repeat' split
  all_goals rfl

theorem reserveBook_savedUsers (lib : Library) (self : Nat) (bookId : Int) :
    (User.reserveBook lib self bookId).2.savedUsers = lib.savedUsers := by
  unfold User.reserveBook Student.reserveBook Faculty.reserveBook reserveBookBody
  repeat' split
  all_goals rfl

theorem returnBook_savedUsers (lib : Library) (self : Nat) (now bookId : Int) :
    (User.returnBook lib self now bookId).2.savedUsers = lib.savedUsers := by
  unfold User.returnBook Student.returnBook Faculty.returnBook
  repeat' split
  all_goals first
    | rfl
    | (dsimp only; repeat' split) <;> rfl

/-- C22: Borrow, Reserve, Return and PayFine leave the saved user collection
as it was, and PayFine leaves the saved book collection as it was too.  When
`alice` borrows book 1 in the default seed the operation succeeds and the
books are saved, but no user collection is saved although her account has
changed; when she pays her fine in `finedState` neither collection is
saved. -/
theorem users_file_not_flushed :
    (∀ (lib : Library) (self : Nat) (now bookId days : Int),
      (User.borrowBook lib self now bookId days).2.savedUsers = lib.savedUsers ∧
      (User.reserveBook lib self bookId).2.savedUsers = lib.savedUsers ∧
      (User.returnBook lib self now bookId).2.savedUsers = lib.savedUsers ∧
      (User.payFine lib self now).2.savedUsers = lib.savedUsers ∧
      (User.payFine lib self now).2.savedBooks = lib.savedBooks) ∧
    ((User.borrowBook defaultSeed 0 0 1 5).1 = Outcome.ok ∧
      (User.borrowBook defaultSeed 0 0 1 5).2.savedBooks =
        some (User.borrowBook defaultSeed 0 0 1 5).2.books ∧
      (User.borrowBook defaultSeed 0 0 1 5).2.savedUsers = none ∧
      (User.borrowBook defaultSeed 0 0 1 5).2.users[0]? = some aliceWithLoan) ∧
    ((User.payFine finedState 0 777).1 = Outcome.ok ∧
      (User.payFine finedState 0 777).2.savedUsers = none ∧
      (User.payFine finedState 0 777).2.savedBooks = none) := by
  refine ⟨fun lib self now bookId days => ⟨borrowBook_savedUsers lib self now bookId days,
    reserveBook_savedUsers lib self bookId, returnBook_savedUsers lib self now bookId,
    (payFine_effect lib self now).2.2.1, (payFine_effect lib self now).2.1⟩,
    ⟨by decide, by decide, by decide, by decide⟩, ⟨by decide, by decide, by decide⟩⟩

theorem borrowBook_ok_of (lib : Library) (self : Nat) (u : User) (now bookId days : Int)
    (k : Nat) (b : Book)
    (hu : lib.users[self]? = some u)
    (hgate : (u.role = Role.Student ∧ ¬ u.account.fineDue > 0 ∧
        u.account.borrowRecords.length < 3 ∧ days ≤ 15) ∨
      (u.role = Role.Faculty ∧
        (∀ r ∈ u.account.borrowRecords, overdueBeyond60 now r = false) ∧
        u.account.borrowRecords.length < 5 ∧ days ≤ 30))
    (hb : lib.findBookById bookId = some (k, b)) (hbb : b.borrowedBy = 0) :
    (User.borrowBook lib self now bookId days).1 = Outcome.ok := by
  rcases hgate with ⟨hr, hf, hl, hd⟩ | ⟨hr, ho, hl, hd⟩
  · have hl' : ¬ u.account.borrowRecords.length ≥ 3 := by omega
    have hd' : ¬ days > 15 := by omega
    simp [User.borrowBook, hu, hr, Student.borrowBook, Student.maxBooks, Student.maxDays, hf,
      hl', hb, hbb, hd']
  · have hl' : ¬ u.account.borrowRecords.length ≥ 5 := by omega
    have hd' : ¬ days > 30 := by omega
    have hany : u.account.borrowRecords.any (overdueBeyond60 now) = false := by
      rw [Bool.eq_false_iff]
      intro h
      rw [List.any_eq_true] at h
      obtain ⟨r, hr1, hr2⟩ := h
      rw [ho r hr1] at hr2
      cases hr2
    simp [User.borrowBook, hu, hr, Faculty.borrowBook, Faculty.maxBooks, Faculty.maxDays, hany,
      hl', hb, hbb, hd']

/-- C24: a successful Return of a book whose `reservedBy` is the id of no
user leaves `reservedBy` as it is, with stored status `Available` and
`borrowedBy = 0`.  A later Borrow of the book by a user who passes the fine,
overdue (no record satisfies the test `overdueBeyond60` of the loop),
capacity and period tests then succeeds and produces a book with status
`Borrowed`, that user as borrower and the same `reservedBy`. -/
theorem orphan_reservation_survives (lib : Library) (self : Nat) (now bookId : Int)
    (k : Nat) (b : Book)
    (hok : (User.returnBook lib self now bookId).1 = Outcome.ok)
    (hb : lib.findBookById bookId = some (k, b))
    (hmiss : ∀ v ∈ lib.users, v.userId ≠ b.reservedBy) :
    (User.returnBook lib self now bookId).2.books[k]? =
        some { b with status := BookStatus.Available, borrowedBy := 0,
                      reservedBy := b.reservedBy } ∧
    (∀ (s : Nat) (w : User) (now2 days : Int),
      (User.returnBook lib self now bookId).2.users[s]? = some w →
      ((w.role = Role.Student ∧ ¬ w.account.fineDue > 0 ∧
          w.account.borrowRecords.length < 3 ∧ days ≤ 15) ∨
        (w.role = Role.Faculty ∧
          (∀ r ∈ w.account.borrowRecords, overdueBeyond60 now2 r = false) ∧
          w.account.borrowRecords.length < 5 ∧ days ≤ 30)) →
      (User.borrowBook (User.returnBook lib self now bookId).2 s now2 bookId days).1 =
          Outcome.ok ∧
      (User.borrowBook (User.returnBook lib self now bookId).2 s now2 bookId days).2.books[k]? =
          some { b with status := BookStatus.Borrowed, borrowedBy := w.userId,
                        reservedBy := b.reservedBy }) := by
  obtain ⟨hk, hid, -⟩ := findBookById_some lib bookId k b hb
  have hnone : lib.findUserById b.reservedBy = none := (findUserById_none lib _).2 hmiss
  rcases returnBook_effect lib self now bookId with ⟨hne, -⟩ | h
  · exact absurd hok hne
  obtain ⟨u, k0, b0, r, -, hb0, -, -, hcases⟩ := h
  rw [hb] at hb0; cases hb0
  rcases hcases with ⟨j, v, -, hj, -⟩ | ⟨-, hbooks, -⟩
  · rw [hnone] at hj; cases hj
  generalize (User.returnBook lib self now bookId).2 = lib1 at hbooks ⊢
  have hk1 : lib1.books[k]? =
      some { b with status := BookStatus.Available, borrowedBy := 0 } := by
    rw [hbooks k, hk]; simp
  have hb1 : lib1.findBookById bookId =
      some (k, { b with status := BookStatus.Available, borrowedBy := 0 }) := by
    rw [findBookById_of_pointwise lib lib1
      (fun x => { x with status := BookStatus.Available, borrowedBy := 0 })
      (fun _ => rfl) k hbooks, hb]
    simp
  refine ⟨hk1, ?_⟩
  intro s w now2 days hw hgate
  have hok2 := borrowBook_ok_of lib1 s w now2 bookId days k _ hw hgate hb1 rfl
  refine ⟨hok2, ?_⟩
  rcases borrowBook_effect lib1 s now2 bookId days with ⟨hne, -⟩ | h
  · exact absurd hok2 hne
  obtain ⟨w0, k2, b2, hw0, hb2, -, -, -, hbooks2, -⟩ := h
  rw [hw] at hw0; cases hw0
  rw [hb1] at hb2; cases hb2
  rw [hbooks2 k, hk1]
  simp

set_option maxRecDepth 8000 in
/-- Witness for C24: after `orphanReservationSession` book 1 is reserved by the
removed user 12; `alice` returns it and `bob` borrows it. -/
theorem orphan_reservation_survives_witness :
    (User.returnBook orphanReservationState 0 2000 1).1 = Outcome.ok ∧
      orphanReservationState.findBookById 1 =
        some (0, { book1 with status := BookStatus.Reserved, borrowedBy := 1,
                              reservedBy := 12 }) ∧
      (User.returnBook orphanReservationState 0 2000 1).2.books[0]? =
        some { book1 with status := BookStatus.Available, borrowedBy := 0,
                          reservedBy := 12 } ∧
      (User.borrowBook (User.returnBook orphanReservationState 0 2000 1).2 1 3000 1 5).2.books[0]? =
        some { book1 with status := BookStatus.Borrowed, borrowedBy := 2,
                          reservedBy := 12 } := by
  have h := orphan_reservation_survives orphanReservationState 0 2000 1 0
    { book1 with status := BookStatus.Reserved, borrowedBy := 1, reservedBy := 12 }
    (by decide) (by decide) (by decide)
  exact ⟨by decide, by decide, h.1,
    (h.2 1 bob 3000 5 (by decide) (Or.inl ⟨rfl, by decide, by decide, by decide⟩)).2⟩

/-- C25: when a successful Return hands the book to a reserving user other
than the returner, that account has one record more and the same fine,
whatever its size, fine and overdue state.  Sessions of Borrow, Reserve and
Return from the default seed reach a Student account with more than 3
records and a Faculty account with more than 5. -/
theorem handoff_ignores_capacity :
    (∀ (lib : Library) (self : Nat) (now bookId : Int) (k : Nat) (b : Book) (j : Nat)
        (v : User),
      (User.returnBook lib self now bookId).1 = Outcome.ok →
      lib.findBookById bookId = some (k, b) → b.reservedBy ≠ 0 →
      lib.findUserById b.reservedBy = some (j, v) → j ≠ self →
      ((User.returnBook lib self now bookId).2.users[j]?).map
          (fun w => (w.account.borrowRecords.length, w.account.fineDue)) =
        some (v.account.borrowRecords.length + 1, v.account.fineDue)) ∧
    (∃ ops : List Op, (∀ op ∈ ops, op.isLoanOp = true) ∧
      ∃ u ∈ (run defaultSeed ops).users,
        u.role = Role.Student ∧ 3 < u.account.borrowRecords.length) ∧
    (∃ ops : List Op, (∀ op ∈ ops, op.isLoanOp = true) ∧
      ∃ u ∈ (run defaultSeed ops).users,
        u.role = Role.Faculty ∧ 5 < u.account.borrowRecords.length) := by
  refine ⟨?_, ⟨studentOverCapacitySession, by decide, by decide⟩,
    ⟨facultyOverCapacitySession, by decide, by decide⟩⟩
  intro lib self now bookId k b j v hok hb hres hj hne
  obtain ⟨hv, -⟩ := findUserById_some lib b.reservedBy j v hj
  rcases returnBook_effect lib self now bookId with ⟨hn, -⟩ | h
  · exact absurd hok hn
  obtain ⟨u, k0, b0, r, -, hb0, -, -, hcases⟩ := h
  rw [hb] at hb0; cases hb0
  rcases hcases with ⟨j0, v0, -, hj0, -, husers⟩ | ⟨hor, -, -⟩
  · rw [hj] at hj0; cases hj0
    rw [husers j, hv]
    simp [Ne.symm hne]
  · rcases hor with h0 | h0
    · exact absurd h0 hres
    · rw [hj] at h0; cases h0

set_option maxRecDepth 8000 in
/-- Witness for C25: `bob` holds three records before `alice` returns book 4
and four after. -/
theorem handoff_ignores_capacity_witness :
    ((run defaultSeed (studentOverCapacitySession.take 5)).users[1]?).map
        (fun w => (w.role, w.account.borrowRecords.length)) = some (Role.Student, 3) ∧
      ((run defaultSeed studentOverCapacitySession).users[1]?).map
        (fun w => (w.account.borrowRecords.length, w.account.fineDue)) = some (4, 0) := by
  have h := handoff_ignores_capacity.1 (run defaultSeed (studentOverCapacitySession.take 5))
    0 10 4 3
    { id := 4, title := "The C++ Programming Language", author := "Bjarne Stroustrup",
      publisher := "Addison-Wesley", year := 2013, ISBN := "9780321563842",
      status := BookStatus.Reserved, borrowedBy := 1, reservedBy := 2 }
    1
    { bob with account :=
      { borrowRecords := [{ bookId := 1, borrowTimestamp := 0, borrowDays := 5 },
                          { bookId := 2, borrowTimestamp := 0, borrowDays := 5 },
                          { bookId := 3, borrowTimestamp := 0, borrowDays := 5 }],
        fineDue := 0 } }
    (by decide) (by decide) (by decide) (by decide) (by decide)
  exact ⟨by decide, h⟩

theorem Coherent.consistent {lib : Library} (hc : Coherent lib) : Consistent lib := hc.1

theorem Coherent.settled {lib : Library} (hc : Coherent lib) {p : Nat} {x : Book}
    (hx : lib.books[p]? = some x) : x.Settled lib.users :=
  hc.2.1 x (List.getElem?_mem hx)

theorem Coherent.owner_record {lib : Library} (hc : Coherent lib) {i p : Nat} {w : User}
    {x : Book} (hw : lib.users[i]? = some w) (hx : lib.books[p]? = some x)
    (h : x.borrowedBy = w.userId) : ∃ r ∈ w.account.borrowRecords, r.bookId = x.id :=
  hc.2.2.1 w (List.getElem?_mem hw) x (List.getElem?_mem hx) h

theorem Coherent.records_nodup {lib : Library} (hc : Coherent lib) {i : Nat} {w : User}
    (hw : lib.users[i]? = some w) :
    (w.account.borrowRecords.map (fun r => r.bookId)).Nodup :=
  hc.2.2.2 w (List.getElem?_mem hw)

theorem coherent_of_pointwise (lib lib' : Library) (F : Nat → User → User)
    (G : Nat → Book → Book) (hc' : Consistent lib')
    (hU : ∀ i, lib'.users[i]? = (lib.users[i]?).map (F i))
    (hB : ∀ p, lib'.books[p]? = (lib.books[p]?).map (G p))
    (hFid : ∀ i w, (F i w).userId = w.userId)
    (hGid : ∀ p x, (G p x).id = x.id)
    (hS : ∀ p x, lib.books[p]? = some x → (G p x).Settled lib.users)
    (hO : ∀ i w p x, lib.users[i]? = some w → lib.books[p]? = some x →
      (G p x).borrowedBy = w.userId →
      ∃ r ∈ (F i w).account.borrowRecords, r.bookId = x.id)
    (hN : ∀ i w, lib.users[i]? = some w →
      ((F i w).account.borrowRecords.map (fun r => r.bookId)).Nodup) :
    Coherent lib' := by
  have hum := map_eq_of_pointwise (fun u : User => u.userId) lib.users lib'.users F hU hFid
  refine ⟨hc', ?_, ?_, ?_⟩
  · intro b' hb'
    obtain ⟨p, x, hx, rfl⟩ := mem_of_pointwise _ _ G hB hb'
    obtain ⟨s1, s2, s3⟩ := hS p x hx
    refine ⟨s1, s2, fun h => ?_⟩
    obtain ⟨t1, t2, v, hv, hvid⟩ := s3 h
    refine ⟨t1, t2, ?_⟩
    have : v.userId ∈ lib'.users.map (fun u : User => u.userId) := by
      rw [hum]; exact List.mem_map.2 ⟨v, hv, rfl⟩
    obtain ⟨v', hv', hv'id⟩ := List.mem_map.1 this
    exact ⟨v', hv', hv'id.trans hvid⟩
  · intro u' hu' b' hb' h
    obtain ⟨i, w, hw, rfl⟩ := mem_of_pointwise _ _ F hU hu'
    obtain ⟨p, x, hx, rfl⟩ := mem_of_pointwise _ _ G hB hb'
    rw [hFid] at h
    rw [hGid]
    exact hO i w p x hw hx h
  · intro u' hu'
    obtain ⟨i, w, hw, rfl⟩ := mem_of_pointwise _ _ F hU hu'
    exact hN i w hw

theorem freshStart_coherent (lib : Library) (h : FreshStart lib) : Coherent lib := by
  obtain ⟨h1, h2, h3, h4, h5⟩ := h
  refine ⟨⟨h1, h2, h3, fun b hb _ => (h5 b hb).2.2, ?_⟩, ?_, ?_, ?_⟩
  · intro u hu r hr
    rw [h4 u hu] at hr; cases hr
  · intro b hb
    obtain ⟨b1, b2, b3⟩ := h5 b hb
    exact ⟨fun _ => ⟨b2, b3⟩, fun h => absurd b1 h, fun h => absurd b2 h⟩
  · intro u hu b hb hbu
    exact absurd ((h5 b hb).1.symm.trans hbu).symm (h1 u hu)
  · intro u hu
    rw [h4 u hu]; exact List.nodup_nil

theorem borrowBook_coherent (lib : Library) (self : Nat) (now bookId days : Int)
    (hc : Coherent lib) : Coherent (User.borrowBook lib self now bookId days).2 := by
  have hc' := borrowBook_consistent lib self now bookId days hc.consistent
  rcases borrowBook_effect lib self now bookId days with ⟨-, h⟩ | h
  · rw [h]; exact hc
  obtain ⟨u, k, b, hu, hb, hbb, -, -, hbooks, husers⟩ := h
  obtain ⟨hk, hid, -⟩ := findBookById_some lib bookId k b hb
  have hu0 : u.userId ≠ 0 := hc.1.1 u (List.getElem?_mem hu)
  refine coherent_of_pointwise lib _
    (fun i w => if self = i then
      { w with account := w.account.addBorrowedBook now bookId days } else w)
    (fun p x => if k = p then
      { x with status := BookStatus.Borrowed, borrowedBy := u.userId } else x)
    hc' husers hbooks ?_ ?_ ?_ ?_ ?_
  · intro i w; by_cases h : self = i <;> simp [h]
  · intro p x; by_cases h : k = p <;> simp [h]
  · intro p x hx
    by_cases h : k = p
    · subst h
      rw [hk] at hx; cases hx
      have hs := (hc.settled hk).1 hbb
      simp only [if_true]
      exact ⟨fun h0 => absurd h0 hu0, fun _ _ => rfl, fun h0 => absurd hs.1 h0⟩
    · simp only [if_neg h]
      exact hc.settled hx
  · intro i w p x hw hx hG
    by_cases h : k = p
    · subst h
      rw [hk] at hx; cases hx
      simp only [if_true] at hG
      have hi : self = i := hc.1.user_unique hu hw hG
      subst hi
      refine ⟨{ bookId := bookId, borrowTimestamp := now, borrowDays := days }, ?_, hid.symm⟩
      simp [Account.addBorrowedBook]
    · simp only [if_neg h] at hG
      obtain ⟨r, hr, hrid⟩ := hc.owner_record hw hx hG
      refine ⟨r, ?_, hrid⟩
      by_cases hs : self = i
      · simp [hs, Account.addBorrowedBook, hr]
      · simpa [hs] using hr
  · intro i w hw
    by_cases hs : self = i
    · subst hs
      rw [hu] at hw; cases hw
      simp only [if_true, Account.addBorrowedBook, List.map_append, List.map_cons,
        List.map_nil]
      rw [List.nodup_append]
      refine ⟨hc.records_nodup hu, List.nodup_singleton _, ?_⟩
      intro a ha1 ha2
      rw [List.mem_singleton] at ha2
      subst ha2
      obtain ⟨r, hr, hrid⟩ := List.mem_map.1 ha1
      have := hc.1.record_owner hu hk hr (hid.trans hrid.symm)
      rw [hbb] at this
      exact hu0 this.symm
    · simp only [if_neg hs]
      exact hc.records_nodup hw

theorem reserveBook_coherent (lib : Library) (self : Nat) (bookId : Int)
    (hc : Coherent lib) : Coherent (User.reserveBook lib self bookId).2 := by
  have hc' := reserveBook_consistent lib self bookId hc.consistent
  rcases reserveBook_effect lib self bookId with ⟨-, h⟩ | h
  · rw [h]; exact hc
  obtain ⟨u, k, b, hu, hb, hst, hrb, hne, -, hbooks, husers⟩ := h
  obtain ⟨hk, hid, -⟩ := findBookById_some lib bookId k b hb
  have hu0 : u.userId ≠ 0 := hc.1.1 u (List.getElem?_mem hu)
  refine coherent_of_pointwise lib _ (fun _ w => w)
    (fun p x => if k = p then
      { x with reservedBy := u.userId, status := BookStatus.Reserved } else x)
    hc' ?_ hbooks ?_ ?_ ?_ ?_ ?_
  · intro i; rw [husers]; simp
  · intro i w; rfl
  · intro p x; by_cases h : k = p <;> simp [h]
  · intro p x hx
    by_cases h : k = p
    · subst h
      rw [hk] at hx; cases hx
      have hb0 : b.borrowedBy ≠ 0 := by
        intro h0
        have := ((hc.settled hk).1 h0).2
        rw [hst] at this; cases this
      simp only [if_true]
      exact ⟨fun h0 => absurd h0 hb0, fun _ h0 => absurd h0 hu0,
        fun _ => ⟨rfl, fun h => hne h.symm, u, List.getElem?_mem hu, rfl⟩⟩
    · simp only [if_neg h]
      exact hc.settled hx
  · intro i w p x hw hx hG
    have : x.borrowedBy = w.userId := by
      by_cases h : k = p
      · simpa [h] using hG
      · simpa [h] using hG
    exact hc.owner_record hw hx this
  · intro i w hw
    exact hc.records_nodup hw

theorem payFine_coherent (lib : Library) (self : Nat) (now : Int)
    (hc : Coherent lib) : Coherent (User.payFine lib self now).2 := by
  have hc' := payFine_consistent lib self now hc.consistent
  obtain ⟨hbooks, -, -, husers⟩ := payFine_effect lib self now
  have hids : ∀ (i : Nat) (w : User),
      ((if self = i ∧ w.account.fineDue > 0 then
        { w with account :=
          { borrowRecords :=
              if w.role = Role.Student then
                w.account.borrowRecords.map (fun r => { r with borrowTimestamp := now })
              else w.account.borrowRecords,
            fineDue := 0 } }
        else w).account.borrowRecords.map (fun r => r.bookId)) =
        w.account.borrowRecords.map (fun r => r.bookId) := by
    intro i w
    by_cases h : self = i ∧ w.account.fineDue > 0
    · by_cases hs : w.role = Role.Student
      · simp [h, hs, Function.comp_def]
      · simp [h, hs]
    · simp [h]
  refine coherent_of_pointwise lib _
    (fun i w => if self = i ∧ w.account.fineDue > 0 then
      { w with account :=
        { borrowRecords :=
            if w.role = Role.Student then
              w.account.borrowRecords.map (fun r => { r with borrowTimestamp := now })
            else w.account.borrowRecords,
          fineDue := 0 } }
      else w)
    (fun _ x => x) hc' husers ?_ ?_ ?_ ?_ ?_ ?_
  · intro p; rw [hbooks]; simp
  · intro i w; by_cases h : self = i ∧ w.account.fineDue > 0 <;> simp [h]
  · intro p x; rfl
  · intro p x hx
    exact hc.settled hx
  · intro i w p x hw hx hG
    obtain ⟨r, hr, hrid⟩ := hc.owner_record hw hx hG
    have : x.id ∈ w.account.borrowRecords.map (fun r => r.bookId) :=
      List.mem_map.2 ⟨r, hr, hrid⟩
    rw [← hids i w] at this
    obtain ⟨r', hr', hr'id⟩ := List.mem_map.1 this
    exact ⟨r', hr', hr'id⟩
  · intro i w hw
    rw [hids i w]
    exact hc.records_nodup hw

theorem returnBook_coherent (lib : Library) (self : Nat) (now bookId : Int)
    (hc : Coherent lib) : Coherent (User.returnBook lib self now bookId).2 := by
  have hc' := returnBook_consistent lib self now bookId hc.consistent
  rcases returnBook_effect lib self now bookId with ⟨-, h⟩ | h
  · rw [h]; exact hc
  obtain ⟨u, k, b, r, hu, hb, hrec, -, hcases⟩ := h
  obtain ⟨hk, hid, -⟩ := findBookById_some lib bookId k b hb
  obtain ⟨hr1, hr2⟩ := findRecord_some _ _ _ hrec
  have hu0 : u.userId ≠ 0 := hc.1.1 u (List.getElem?_mem hu)
  have hbu : b.borrowedBy = u.userId := hc.1.record_owner hu hk hr1 (hid.trans hr2.symm)
  -- a book other than the returned one has another id
  have hidne : ∀ (p : Nat) (x : Book), lib.books[p]? = some x → ¬ k = p → x.id ≠ bookId := by
    intro p x hx hkp hxid
    exact hkp (hc.1.book_unique hk hx (hid.trans hxid.symm))
  -- the records the returner keeps
  have hkeep : ∀ (p : Nat) (x : Book), lib.books[p]? = some x → ¬ k = p →
      x.borrowedBy = u.userId →
      ∃ r' ∈ u.account.borrowRecords.filter (fun y => !decide (y.bookId = bookId)),
        r'.bookId = x.id := by
    intro p x hx hkp hxu
    obtain ⟨r', hr', hr'id⟩ := hc.owner_record hu hx hxu
    refine ⟨r', ?_, hr'id⟩
    rw [List.mem_filter]
    refine ⟨hr', ?_⟩
    have := hidne p x hx hkp
    simpa [hr'id] using this
  have hfilter_nodup : ∀ w : User,
      (w.account.borrowRecords.map (fun r => r.bookId)).Nodup →
      ((w.account.borrowRecords.filter (fun y => !decide (y.bookId = bookId))).map
        (fun r => r.bookId)).Nodup := by
    intro w hw
    exact hw.sublist ((List.filter_sublist _).map _)
  rcases hcases with ⟨j, v, h0, hj, hbooks, husers⟩ | ⟨hor, hbooks, husers⟩
  · obtain ⟨hv, hvid⟩ := findUserById_some lib b.reservedBy j v hj
    have hset := (hc.settled hk).2.2 h0
    have hvu : v.userId ≠ u.userId := by
      rw [hvid, ← hbu]; exact hset.2.1
    have hjs : ¬ self = j := by
      rintro rfl
      rw [hu] at hv; cases hv
      exact hvu rfl
    refine coherent_of_pointwise lib _
      (fun i w =>
        { w with account :=
          { borrowRecords :=
              if self = i then
                w.account.borrowRecords.filter (fun x => !decide (x.bookId = bookId))
              else if j = i then
                w.account.borrowRecords ++
                  [({ bookId := bookId, borrowTimestamp := now,
                      borrowDays := handoffDays u.role v.role } : BorrowRecord)]
              else w.account.borrowRecords,
            fineDue :=
              if self = i then
                w.account.fineDue + returnFine u.role (elapsedDays now r.borrowTimestamp)
              else w.account.fineDue } })
      (fun p x => if k = p then
        { x with status := BookStatus.Borrowed, borrowedBy := b.reservedBy, reservedBy := 0 }
        else x)
      hc' husers hbooks ?_ ?_ ?_ ?_ ?_
    · intro i w; rfl
    · intro p x; by_cases h : k = p <;> simp [h]
    · intro p x hx
      by_cases h : k = p
      · simp only [if_pos h]
        exact ⟨fun h1 => absurd h1 h0, fun _ _ => rfl, fun h1 => absurd rfl h1⟩
      · simp only [if_neg h]
        exact hc.settled hx
    · intro i w p x hw hx hG
      by_cases h : k = p
      · subst h
        rw [hk] at hx; cases hx
        simp only [if_true] at hG
        have hi : j = i := hc.1.user_unique hv hw (hvid.trans hG)
        subst hi
        refine ⟨{ bookId := bookId, borrowTimestamp := now,
                  borrowDays := handoffDays u.role v.role }, ?_, hid.symm⟩
        simp [hjs]
      · simp only [if_neg h] at hG
        by_cases hs : self = i
        · subst hs
          rw [hu] at hw; cases hw
          simpa using hkeep p x hx h hG
        · obtain ⟨r', hr', hr'id⟩ := hc.owner_record hw hx hG
          refine ⟨r', ?_, hr'id⟩
          by_cases hji : j = i
          · simp [hs, hji, hr']
          · simpa [hs, hji] using hr'
    · intro i w hw
      by_cases hs : self = i
      · simp only [if_pos hs]
        exact hfilter_nodup w (hc.records_nodup hw)
      · by_cases hji : j = i
        · subst hji
          rw [hv] at hw; cases hw
          simp only [if_neg hs, if_true, List.map_append, List.map_cons, List.map_nil]
          rw [List.nodup_append]
          refine ⟨hc.records_nodup hv, List.nodup_singleton _, ?_⟩
          intro a ha1 ha2
          rw [List.mem_singleton] at ha2
          subst ha2
          obtain ⟨r', hr', hr'id⟩ := List.mem_map.1 ha1
          have := hc.1.record_owner hv hk hr' (hid.trans hr'id.symm)
          exact hvu (this.symm.trans hbu)
        · simp only [if_neg hs, if_neg hji]
          exact hc.records_nodup hw
  · have hres0 : b.reservedBy = 0 := by
      rcases hor with h | h
      · exact h
      · by_contra h0
        obtain ⟨-, -, v, hv, hvid⟩ := (hc.settled hk).2.2 h0
        exact (findUserById_none lib b.reservedBy).1 h v hv hvid
    refine coherent_of_pointwise lib _
      (fun i w =>
        { w with account :=
          { borrowRecords :=
              if self = i then
                w.account.borrowRecords.filter (fun x => !decide (x.bookId = bookId))
              else w.account.borrowRecords,
            fineDue :=
              if self = i then
                w.account.fineDue + returnFine u.role (elapsedDays now r.borrowTimestamp)
              else w.account.fineDue } })
      (fun p x => if k = p then
        { x with status := BookStatus.Available, borrowedBy := 0 } else x)
      hc' husers hbooks ?_ ?_ ?_ ?_ ?_
    · intro i w; rfl
    · intro p x; by_cases h : k = p <;> simp [h]
    · intro p x hx
      by_cases h : k = p
      · subst h
        rw [hk] at hx; cases hx
        simp only [if_true]
        exact ⟨fun _ => ⟨hres0, rfl⟩, fun h1 => absurd rfl h1, fun h1 => absurd hres0 h1⟩
      · simp only [if_neg h]
        exact hc.settled hx
    · intro i w p x hw hx hG
      by_cases h : k = p
      · simp only [if_pos h] at hG
        exact absurd hG.symm (hc.1.1 w (List.getElem?_mem hw))
      · simp only [if_neg h] at hG
        by_cases hs : self = i
        · subst hs
          rw [hu] at hw; cases hw
          simpa using hkeep p x hx h hG
        · obtain ⟨r', hr', hr'id⟩ := hc.owner_record hw hx hG
          exact ⟨r', by simpa [hs] using hr', hr'id⟩
    · intro i w hw
      by_cases hs : self = i
      · simp only [if_pos hs]
        exact hfilter_nodup w (hc.records_nodup hw)
      · simp only [if_neg hs]
        exact hc.records_nodup hw

theorem step_coherent (lib : Library) (op : Op) (hop : op.isUserOp = true)
    (hc : Coherent lib) : Coherent (step lib op) := by
  cases op with
  | borrow self now bookId days => exact borrowBook_coherent lib self now bookId days hc
  | reserve self bookId => exact reserveBook_coherent lib self bookId hc
  | returnBook self now bookId => exact returnBook_coherent lib self now bookId hc
  | payFine self now =>
    simp only [step]
    split
    · exact hc
    · exact payFine_coherent lib self now hc
  | addBook _ _ _ _ _ _ => cases hop
  | removeBook _ _ => cases hop
  | addUser _ _ _ _ => cases hop
  | removeUser _ _ => cases hop
  | register _ _ _ _ => cases hop

theorem run_coherent (ops : List Op) (lib : Library) (hops : ∀ op ∈ ops, op.isUserOp = true)
    (hc : Coherent lib) : Coherent (run lib ops) := by
  induction ops generalizing lib with
  | nil => exact hc
  | cons op ops ih =>
    have h1 := step_coherent lib op (hops op (List.mem_cons_self _ _)) hc
    exact ih (step lib op) (fun o ho => hops o (List.mem_cons_of_mem _ ho)) h1

/-- Every state reachable through the user portal from a `FreshStart` state is
`Coherent`. -/
theorem reachable_coherent (init lib : Library) (hinit : FreshStart init)
    (h : ReachableByUserOps init lib) : Coherent lib := by
  obtain ⟨ops, hops, rfl⟩ := h
  exact run_coherent ops init hops (freshStart_coherent init hinit)

set_option maxRecDepth 8000 in
theorem defaultSeed_freshStart : FreshStart defaultSeed := by
  refine ⟨by decide, by decide, by decide, by decide, by decide⟩

/-- C26 (amended): in every state reachable by Borrow, Reserve, Return and
PayFine from a `FreshStart` state (user ids distinct and non-zero, book ids
distinct, accounts empty, every book with `borrowedBy = 0`, `reservedBy = 0`
and stored status `Available`), an account holds a record for a book if and
only if the book's `borrowedBy` is the id of that user, and no account holds
two records with one book id. -/
theorem records_match_borrowers (init lib : Library) (hinit : FreshStart init)
    (hreach : ReachableByUserOps init lib) :
    (∀ u ∈ lib.users, ∀ b ∈ lib.books,
      (∃ r ∈ u.account.borrowRecords, r.bookId = b.id) ↔ b.borrowedBy = u.userId) ∧
    (∀ u ∈ lib.users, (u.account.borrowRecords.map (fun r => r.bookId)).Nodup) := by
  have hc := reachable_coherent init lib hinit hreach
  refine ⟨fun u hu b hb => ⟨?_, hc.2.2.1 u hu b hb⟩, hc.2.2.2⟩
  rintro ⟨r, hr, hrid⟩
  exact hc.1.2.2.2.2 u hu r hr b hb hrid.symm

set_option maxRecDepth 8000 in
/-- Witness for C26: after `alice` borrows book 1 in the default seed, her
account holds a record for it and the book names her as borrower. -/
theorem records_match_borrowers_witness :
    aliceWithLoan ∈ aliceLoan.users ∧
      { book1 with status := BookStatus.Borrowed, borrowedBy := 1 } ∈ aliceLoan.books ∧
      ((∃ r ∈ aliceWithLoan.account.borrowRecords, r.bookId = 1) ↔
        (1 : Int) = aliceWithLoan.userId) :=
  ⟨by decide, by decide,
    (records_match_borrowers defaultSeed aliceLoan defaultSeed_freshStart
      ⟨[Op.borrow 0 0 1 5], by decide, rfl⟩).1 aliceWithLoan (by decide)
      { book1 with status := BookStatus.Borrowed, borrowedBy := 1 } (by decide)⟩

/-- C26 (counterexample): `misleadingStatusStart` has one user (id 1, empty
account) and one book (id 1, `borrowedBy = 0`, `reservedBy = 0`) whose stored
status is `Borrowed`.  After the user reserves, borrows and returns the book,
the book has `borrowedBy = 1` and the account of user 1 holds no record. -/
theorem records_mismatch_counterexample :
    misleadingStatusStart.users.map (fun u => (u.userId, u.account.borrowRecords)) =
        [(1, [])] ∧
      misleadingStatusStart.books.map (fun b => (b.id, b.borrowedBy, b.reservedBy)) =
        [(1, 0, 0)] ∧
      (∀ op ∈ selfHandoffSession, op.isUserOp = true) ∧
      (run misleadingStatusStart selfHandoffSession).books.map
          (fun b => (b.id, b.borrowedBy)) = [(1, 1)] ∧
      (run misleadingStatusStart selfHandoffSession).users.map
          (fun u => (u.userId, u.account.borrowRecords)) = [(1, [])] := by
  decide

theorem Book.Settled.status_iff {users : List User} {b : Book} (h : b.Settled users) :
    (b.status = BookStatus.Available ↔ b.borrowedBy = 0) ∧
    (b.status = BookStatus.Reserved ↔ b.reservedBy ≠ 0) ∧
    (b.status = BookStatus.Borrowed ↔ b.borrowedBy ≠ 0 ∧ b.reservedBy = 0) := by
  obtain ⟨h1, h2, h3⟩ := h
  by_cases hb : b.borrowedBy = 0
  · obtain ⟨hr, hs⟩ := h1 hb
    simp [hb, hr, hs]
  · by_cases hr : b.reservedBy = 0
    · have hs := h2 hb hr
      simp [hb, hr, hs]
    · have hs := (h3 hr).1
      simp [hb, hr, hs]

/-- C27: in every state reachable from the default seed by Borrow, Reserve,
Return and PayFine, each book has status `Available` if and only if
`borrowedBy = 0`, status `Reserved` if and only if `reservedBy` is non-zero,
and status `Borrowed` if and only if `borrowedBy` is non-zero and
`reservedBy = 0`. -/
theorem stored_status_agrees (lib : Library) (hreach : ReachableByUserOps defaultSeed lib) :
    ∀ b ∈ lib.books,
      (b.status = BookStatus.Available ↔ b.borrowedBy = 0) ∧
      (b.status = BookStatus.Reserved ↔ b.reservedBy ≠ 0) ∧
      (b.status = BookStatus.Borrowed ↔ b.borrowedBy ≠ 0 ∧ b.reservedBy = 0) := by
  have hc := reachable_coherent defaultSeed lib defaultSeed_freshStart hreach
  intro b hb
  exact (hc.2.1 b hb).status_iff

set_option maxRecDepth 8000 in
/-- Witness for C27: book 1 borrowed by `alice` and reserved by `bob` has
status `Reserved`. -/
theorem stored_status_agrees_witness :
    { book1 with status := BookStatus.Reserved, borrowedBy := 1, reservedBy := 2 } ∈
        aliceLoanBobReserved.books ∧
      ((BookStatus.Reserved = BookStatus.Reserved) ↔ (2 : Int) ≠ 0) :=
  ⟨by decide,
    ((stored_status_agrees aliceLoanBobReserved
      ⟨[Op.borrow 0 0 1 5, Op.reserve 1 1], by decide, rfl⟩)
      { book1 with status := BookStatus.Reserved, borrowedBy := 1, reservedBy := 2 }
      (by decide)).2.1⟩

theorem skipSpaces_le (s : List Char) : skipSpaces s ≤ s.length := by
  induction s with
  | nil => simp [skipSpaces]
  | cons c cs ih =>
    by_cases h : isspace c = true
    · simp [skipSpaces, h]; omega
    · simp [skipSpaces, h]

theorem skipSpaces_eq_length_iff (s : List Char) :
    skipSpaces s = s.length ↔ ∀ c ∈ s, isspace c = true := by
  induction s with
  | nil => simp [skipSpaces]
  | cons c cs ih =>
    by_cases h : isspace c = true
    · simp [skipSpaces, h, ih]
    · simp [skipSpaces, h]

theorem skipSpaces_drop (s : List Char) : s.drop (skipSpaces s) = s.dropWhile isspace := by
  induction s with
  | nil => simp [skipSpaces]
  | cons c cs ih =>
    by_cases h : isspace c = true
    · simp [skipSpaces, h, List.dropWhile_cons, ih]
    · simp [skipSpaces, h, List.dropWhile_cons]

theorem skipSpaces_getD (s : List Char) (h : skipSpaces s < s.length) :
    isspace (s.getD (skipSpaces s) ' ') = false := by
  induction s with
  | nil => simp at h
  | cons c cs ih =>
    by_cases hc : isspace c = true
    · simp only [skipSpaces, hc, if_true, List.length_cons] at h ⊢
      simpa using ih (by omega)
    · simp [skipSpaces, hc]

/-- For a string of whitespace only, `end + 1` lies beyond `s.end()`. -/
theorem trim_blank (s : List Char) (h : ∀ c ∈ s, isspace c = true) : trim s = none := by
  have hs := (skipSpaces_eq_length_iff s).2 h
  simp [trim, hs]

theorem trimEndLoop_spec (s : List Char) (start : Nat)
    (hstart : isspace (s.getD start ' ') = false) (e : Nat) (he : start < e) :
    start ≤ trimEndLoop s start e ∧ trimEndLoop s start e < e ∧
      isspace (s.getD (trimEndLoop s start e) ' ') = false ∧
      ∀ i, trimEndLoop s start e < i → i < e → isspace (s.getD i ' ') = true := by
  induction e with
  | zero => omega
  | succ e ih =>
    by_cases h : start < e ∧ isspace (s.getD e ' ') = true
    · obtain ⟨h1, h2, h3, h4⟩ := ih h.1
      simp only [trimEndLoop, h, and_self, if_true]
      refine ⟨h1, by omega, h3, ?_⟩
      intro i hi1 hi2
      by_cases hie : i = e
      · rw [hie]; exact h.2
      · exact h4 i hi1 (by omega)
    · simp only [trimEndLoop, h, if_false]
      refine ⟨by omega, by omega, ?_, fun i hi1 hi2 => by omega⟩
      by_cases hse : start < e
      · simpa [hse] using h
      · have : e = start := by omega
        rw [this]; exact hstart

theorem dropWhile_append_of_all (l m : List Char) (h : ∀ c ∈ l, isspace c = true) :
    (l ++ m).dropWhile isspace = m.dropWhile isspace := by
  induction l with
  | nil => rfl
  | cons c cs ih =>
    have hc : isspace c = true := h c (List.mem_cons_self _ _)
    simp only [List.cons_append, List.dropWhile_cons, hc, if_true]
    exact ih (fun x hx => h x (List.mem_cons_of_mem _ hx))

theorem rdrop_spaces (a b : List Char) (hb : ∀ c ∈ b, isspace c = true)
    (ha : ∀ c, a.getLast? = some c → isspace c = false) :
    ((a ++ b).reverse.dropWhile isspace).reverse = a := by
  rw [List.reverse_append, dropWhile_append_of_all _ _ (fun c hc => hb c (by simpa using hc))]
  have h2 : a.reverse.dropWhile isspace = a.reverse := by
    cases hrev : a.reverse with
    | nil => rfl
    | cons c t =>
      have hlast : a.getLast? = some c := by
        rw [← List.head?_reverse, hrev]; rfl
      simp [List.dropWhile_cons, ha c hlast]
  rw [h2, List.reverse_reverse]

/-- For a string with a character that is not whitespace, `trim` stays inside
the string and returns it without its leading and trailing whitespace. -/
theorem trim_nonblank (s : List Char) (h : ∃ c ∈ s, isspace c = false) :
    trim s = some (specTrim s) := by
  have hlt : skipSpaces s < s.length := by
    have h1 := skipSpaces_le s
    have h2 : skipSpaces s ≠ s.length := by
      intro heq
      obtain ⟨c, hc, hcs⟩ := h
      have := (skipSpaces_eq_length_iff s).1 heq c hc
      rw [hcs] at this; cases this
    omega
  have hstart := skipSpaces_getD s hlt
  obtain ⟨e1, e2, e3, e4⟩ := trimEndLoop_spec s (skipSpaces s) hstart s.length hlt
  have hne : skipSpaces s ≠ s.length := by omega
  simp only [trim, hne, ne_eq, not_false_eq_true, if_true]
  generalize trimEndLoop s (skipSpaces s) s.length = e at e1 e2 e3 e4
  have hle : e + 1 ≤ s.length := by omega
  rw [if_pos hle]
  congr 1
  unfold specTrim
  rw [show s.dropWhile isspace = s.drop (skipSpaces s) from (skipSpaces_drop s).symm]
  generalize skipSpaces s = n at e1 hlt
  -- split the suffix at the last character kept
  have hsplit : s.drop n = (s.drop n).take (e + 1 - n) ++ (s.drop n).drop (e + 1 - n) :=
    (List.take_append_drop _ _).symm
  have hb : ∀ c ∈ (s.drop n).drop (e + 1 - n), isspace c = true := by
    intro c hc
    rw [List.drop_drop] at hc
    obtain ⟨i, hi⟩ := List.mem_iff_getElem?.1 hc
    rw [List.getElem?_drop] at hi
    have hlen : n + (e + 1 - n) + i < s.length := by
      by_contra hcon
      rw [List.getElem?_eq_none (by omega)] at hi
      cases hi
    have := e4 (n + (e + 1 - n) + i) (by omega) hlen
    rw [List.getD_eq_getElem?_getD, hi] at this
    simpa using this
  have ha : ∀ c, ((s.drop n).take (e + 1 - n)).getLast? = some c → isspace c = false := by
    intro c hc
    rw [List.getLast?_eq_getElem?] at hc
    have hlen : ((s.drop n).take (e + 1 - n)).length = e + 1 - n := by
      rw [List.length_take, List.length_drop]; omega
    rw [hlen, List.getElem?_take_of_lt (by omega), List.getElem?_drop] at hc
    have hidx : n + (e + 1 - n - 1) = e := by omega
    rw [hidx] at hc
    rw [List.getD_eq_getElem?_getD, hc] at e3
    simpa using e3
  conv_rhs => rw [hsplit]
  exact (rdrop_spaces _ _ hb ha).symm

theorem takeWhile_ne_append (delim : Char) (xs rest : List Char) (h : delim ∉ xs) :
    (xs ++ delim :: rest).takeWhile (fun c => decide (c ≠ delim)) = xs := by
  induction xs with
  | nil => simp
  | cons x xs ih =>
    have hx : x ≠ delim := fun e => h (by simp [e])
    have hxs : delim ∉ xs := fun e => h (by simp [e])
    have hd : decide (x ≠ delim) = true := decide_eq_true hx
    simp only [List.cons_append, List.takeWhile_cons, hd, if_true, ih hxs]

theorem dropWhile_ne_append (delim : Char) (xs rest : List Char) (h : delim ∉ xs) :
    (xs ++ delim :: rest).dropWhile (fun c => decide (c ≠ delim)) = delim :: rest := by
  induction xs with
  | nil => simp
  | cons x xs ih =>
    have hx : x ≠ delim := fun e => h (by simp [e])
    have hxs : delim ∉ xs := fun e => h (by simp [e])
    have hd : decide (x ≠ delim) = true := decide_eq_true hx
    simp only [List.cons_append, List.dropWhile_cons, hd, if_true, ih hxs]

theorem takeWhile_ne_self (delim : Char) (xs : List Char) (h : delim ∉ xs) :
    xs.takeWhile (fun c => decide (c ≠ delim)) = xs := by
  induction xs with
  | nil => simp
  | cons x xs ih =>
    have hx : x ≠ delim := fun e => h (by simp [e])
    have hxs : delim ∉ xs := fun e => h (by simp [e])
    have hd : decide (x ≠ delim) = true := decide_eq_true hx
    simp only [List.takeWhile_cons, hd, if_true, ih hxs]

theorem dropWhile_ne_self (delim : Char) (xs : List Char) (h : delim ∉ xs) :
    xs.dropWhile (fun c => decide (c ≠ delim)) = [] := by
  induction xs with
  | nil => simp
  | cons x xs ih =>
    have hx : x ≠ delim := fun e => h (by simp [e])
    have hxs : delim ∉ xs := fun e => h (by simp [e])
    have hd : decide (x ≠ delim) = true := decide_eq_true hx
    simp only [List.dropWhile_cons, hd, if_true, ih hxs]

/-- Reading a field that is followed by the delimiter. -/
theorem getline_delim (delim : Char) (xs rest str : List Char) (h : delim ∉ xs) :
    IStream.getline { rest := xs ++ delim :: rest, eof := false, fail := false } str delim =
      ({ rest := rest, eof := false, fail := false }, xs) := by
  unfold IStream.getline
  simp only [takeWhile_ne_append delim xs rest h, dropWhile_ne_append delim xs rest h]
  simp

/-- Reading the last field of a line. -/
theorem getline_last (delim : Char) (xs str : List Char) (h : delim ∉ xs) :
    (IStream.getline { rest := xs, eof := false, fail := false } str delim).2 = xs := by
  unfold IStream.getline
  simp only [takeWhile_ne_self delim xs h, dropWhile_ne_self delim xs h]
  simp

theorem digitChar_mem (d : Nat) (h : d < 10) : Nat.digitChar d ∈ "0123456789".data := by
  interval_cases d <;> decide

theorem digitChar_val (d : Nat) (h : d < 10) : (Nat.digitChar d).toNat - 48 = d := by
  interval_cases d <;> decide

theorem toDigitsCore_append (fuel : Nat) : ∀ (n : Nat) (ds : List Char),
    Nat.toDigitsCore 10 fuel n ds = Nat.toDigitsCore 10 fuel n [] ++ ds := by
  induction fuel with
  | zero => intro n ds; simp [Nat.toDigitsCore]
  | succ fuel ih =>
    intro n ds
    simp only [Nat.toDigitsCore]
    by_cases h : n / 10 = 0
    · simp [h]
    · simp only [h, if_false]
      rw [ih (n / 10) (Nat.digitChar (n % 10) :: ds), ih (n / 10) [Nat.digitChar (n % 10)]]
      simp

theorem toDigitsCore_mem (fuel : Nat) : ∀ (n : Nat),
    ∀ c ∈ Nat.toDigitsCore 10 fuel n [], c ∈ "0123456789".data := by
  induction fuel with
  | zero => intro n c hc; simp [Nat.toDigitsCore] at hc
  | succ fuel ih =>
    intro n c hc
    simp only [Nat.toDigitsCore] at hc
    have hd := digitChar_mem (n % 10) (Nat.mod_lt _ (by decide))
    by_cases h : n / 10 = 0
    · simp only [h, if_true, List.mem_singleton] at hc
      rw [hc]; exact hd
    · simp only [h, if_false] at hc
      rw [toDigitsCore_append] at hc
      rcases List.mem_append.1 hc with h1 | h1
      · exact ih _ c h1
      · rw [List.mem_singleton] at h1
        rw [h1]; exact hd

theorem toDigitsCore_val (fuel : Nat) : ∀ (n : Nat), n < fuel →
    digitsVal (Nat.toDigitsCore 10 fuel n []) = n := by
  induction fuel with
  | zero => intro n h; omega
  | succ fuel ih =>
    intro n hn
    simp only [Nat.toDigitsCore]
    have hv := digitChar_val (n % 10) (Nat.mod_lt _ (by decide))
    by_cases h : n / 10 = 0
    · simp only [h, if_true, digitsVal, List.foldl_cons, List.foldl_nil, hv]
      omega
    · simp only [h, if_false]
      rw [toDigitsCore_append]
      have := ih (n / 10) (by omega)
      simp only [digitsVal] at this ⊢
      rw [List.foldl_append, this]
      simp only [List.foldl_cons, List.foldl_nil, hv]
      omega

theorem toDigits_ne_nil (n : Nat) : Nat.toDigits 10 n ≠ [] := by
  unfold Nat.toDigits
  simp only [Nat.toDigitsCore]
  by_cases h : n / 10 = 0
  · simp [h]
  · simp only [h, if_false]
    rw [toDigitsCore_append]
    simp

theorem toDigits_mem (n : Nat) : ∀ c ∈ Nat.toDigits 10 n, c ∈ "0123456789".data :=
  toDigitsCore_mem _ n

theorem toDigits_val (n : Nat) : digitsVal (Nat.toDigits 10 n) = n :=
  toDigitsCore_val _ n (by omega)

theorem digit_props : ∀ c ∈ "0123456789".data,
    c.isDigit = true ∧ isspace c = false ∧ c ≠ '-' ∧ c ≠ '+' ∧ c ≠ ';' := by
  decide

theorem toDigits_takeWhile (n : Nat) :
    (Nat.toDigits 10 n).takeWhile Char.isDigit = Nat.toDigits 10 n := by
  rw [List.takeWhile_eq_self_iff]
  intro c hc
  exact (digit_props c (toDigits_mem n c hc)).1

/-- No delimiter occurs in the text of a number. -/
theorem showInt_no_delim (v : Int) : ';' ∉ showInt v := by
  have key : ∀ c ∈ "0123456789".data, c ≠ ';' := fun c hc => (digit_props c hc).2.2.2.2
  unfold showInt
  intro h
  split at h
  · rcases List.mem_cons.1 h with h1 | h1
    · exact absurd h1 (by decide)
    · exact key _ (toDigits_mem _ _ h1) rfl
  · exact key _ (toDigits_mem _ _ h) rfl

/-- Reading back a written `int`. -/
theorem stoi_showInt (v : Int) (hv : IsInt v) : stoi (showInt v) = some v := by
  obtain ⟨c, cs, hcs⟩ : ∃ c cs, Nat.toDigits 10 v.natAbs = c :: cs := by
    cases h : Nat.toDigits 10 v.natAbs with
    | nil => exact absurd h (toDigits_ne_nil _)
    | cons c cs => exact ⟨c, cs, rfl⟩
  have hc : c ∈ "0123456789".data := toDigits_mem v.natAbs c (by rw [hcs]; simp)
  have hsp : isspace c = false := (digit_props c hc).2.1
  have hm : c ≠ '-' := (digit_props c hc).2.2.1
  have hp : c ≠ '+' := (digit_props c hc).2.2.2.1
  have htw := toDigits_takeWhile v.natAbs
  have hval := toDigits_val v.natAbs
  have hne := toDigits_ne_nil v.natAbs
  unfold IsInt at hv
  unfold showInt stoi
  by_cases hneg : v < 0
  · simp only [hneg, if_true]
    have h1 : List.dropWhile isspace ('-' :: Nat.toDigits 10 v.natAbs) =
        '-' :: Nat.toDigits 10 v.natAbs := by
      rw [List.dropWhile_cons_of_neg]; decide
    simp only [h1, List.head?_cons, true_or, if_true, List.tail_cons, htw, hne, if_false, hval]
    have h2 : -((v.natAbs : Nat) : Int) = v := by omega
    rw [h2]
    simp [hv.1, hv.2]
  · simp only [hneg, if_false]
    have h1 : List.dropWhile isspace (Nat.toDigits 10 v.natAbs) = Nat.toDigits 10 v.natAbs := by
      rw [hcs, List.dropWhile_cons_of_neg]; simp [hsp]
    have h3 : ¬ ((Nat.toDigits 10 v.natAbs).head? = some '-' ∨
        (Nat.toDigits 10 v.natAbs).head? = some '+') := by
      rw [hcs]; simp [hm, hp]
    have h4 : ¬ (Nat.toDigits 10 v.natAbs).head? = some '-' := fun e => h3 (Or.inl e)
    simp only [h1]
    rw [if_neg h3]
    simp only [h4, if_false, htw, hne, hval]
    have h2 : ((v.natAbs : Nat) : Int) = v := by omega
    rw [h2]
    simp [hv.1, hv.2]

theorem statusToString_no_delim (s : BookStatus) : ';' ∉ (statusToString s).data := by
  cases s <;> decide

theorem stringToStatus_statusToString (s : BookStatus) :
    stringToStatus (statusToString s) = s := by
  cases s <;> decide

/-- C28: for a book whose numeric fields are values of `int` and whose title,
author, publisher and ISBN contain no `;`, `deserialize` (on any object)
applied to the line `serialize` produces gives back the book in every field;
and `stringToStatus (statusToString s) = s` for every status. -/
theorem book_serialize_roundtrip (self b : Book)
    (hid : IsInt b.id) (hyear : IsInt b.year) (hbor : IsInt b.borrowedBy)
    (hres : IsInt b.reservedBy)
    (htitle : ';' ∉ b.title.data) (hauthor : ';' ∉ b.author.data)
    (hpublisher : ';' ∉ b.publisher.data) (hisbn : ';' ∉ b.ISBN.data) :
    self.deserialize b.serialize = b ∧
    ∀ s : BookStatus, stringToStatus (statusToString s) = s := by
  refine ⟨?_, stringToStatus_statusToString⟩
  unfold Book.deserialize Book.serialize
  simp only [getline_delim _ _ _ _ (showInt_no_delim _), getline_delim _ _ _ _ htitle,
    getline_delim _ _ _ _ hauthor, getline_delim _ _ _ _ hpublisher,
    getline_delim _ _ _ _ hisbn, getline_delim _ _ _ _ (statusToString_no_delim _),
    getline_last _ _ _ (showInt_no_delim _),
    stoi_showInt _ hid, stoi_showInt _ hyear, stoi_showInt _ hbor, stoi_showInt _ hres]
  show ({ id := b.id, title := b.title, author := b.author, publisher := b.publisher,
          year := b.year, ISBN := b.ISBN, status := stringToStatus (statusToString b.status),
          borrowedBy := b.borrowedBy, reservedBy := b.reservedBy } : Book) = b
  rw [stringToStatus_statusToString]

/-- Witness for C28: the book `dune` is read back from its line. -/
theorem book_serialize_roundtrip_witness :
    Book.empty.deserialize dune.serialize = dune ∧
    ∀ s : BookStatus, stringToStatus (statusToString s) = s :=
  book_serialize_roundtrip Book.empty dune (by decide) (by decide) (by decide) (by decide)
    (by decide) (by decide) (by decide) (by decide)

set_option maxRecDepth 20000 in
/-- C23: `loadBooks` yields the default books when `books.txt` is absent,
empty or begins with a malformed line.  A malformed line after a well-formed
first line is loaded as the zeroed book (id 0, empty fields) next to the
first book, and a line with two fields only as a book built from the stale
token.  `loadUsers` yields the empty collection for a line of unknown type,
raises on a user id that is not a number, and reads beyond the end of a
blank username. -/
theorem malformed_line_is_loaded :
    Library.loadBooks none = loadDefaultBooks ∧
    Library.loadBooks (some "") = loadDefaultBooks ∧
    Library.loadBooks (some "not a book\n") = loadDefaultBooks ∧
    Library.loadBooks (some malformedBooksFile) = [dune, Book.empty] ∧
    Library.loadBooks (some shortLineBooksFile) =
      [dune, { Book.empty with id := 7, title := "Emma", year := 7, borrowedBy := 7,
                               reservedBy := 7 }] ∧
    (∀ accountOf, Library.loadUsers accountOf (some "Admin;1;root;pw;0\n") = Loaded.ok []) ∧
    (∀ accountOf, Library.loadUsers accountOf (some "Student;one;bob;pw;0\n") = Loaded.raised) ∧
    (∀ accountOf, Library.loadUsers accountOf (some "Student;1; ;pw;0\n") = Loaded.readPastEnd) := by
  refine ⟨rfl, rfl, by decide, by decide, by decide, fun _ => rfl, fun _ => rfl, fun _ => rfl⟩

/-- C29: for a string made of whitespace only (the empty string included)
`trim` builds its result from a range that ends one position beyond
`s.end()`; `User::deserialize` runs into this on a user line whose username
is such a string. -/
theorem trim_blank_reads_past_end (s : List Char) (h : ∀ c ∈ s, isspace c = true) :
    trim s = none ∧
    ∀ (accountOf : List Char → Account) (self : User),
      User.deserialize accountOf self ('1' :: ';' :: (s ++ ';' :: "pw;0".data)) =
        Loaded.readPastEnd := by
  refine ⟨trim_blank s h, fun accountOf self => ?_⟩
  have hs : ';' ∉ s := fun hm => absurd (h _ hm) (by decide)
  have h1 := getline_delim ';' ['1'] (s ++ ';' :: "pw;0".data) [] (by decide)
  have h2 : stoi ['1'] = some 1 := by decide
  unfold User.deserialize
  simp only [List.singleton_append] at h1
  simp only [h1, h2, getline_delim _ _ _ _ hs, trim_blank s h]

/-- Witness for C29: the string of a blank and a tab. -/
theorem trim_blank_reads_past_end_witness :
    (∀ c ∈ [' ', '\t'], isspace c = true) ∧ trim [' ', '\t'] = none ∧
    ∀ (accountOf : List Char → Account) (self : User),
      User.deserialize accountOf self ('1' :: ';' :: ([' ', '\t'] ++ ';' :: "pw;0".data)) =
        Loaded.readPastEnd :=
  ⟨by decide, trim_blank_reads_past_end [' ', '\t'] (by decide)⟩

end LMS
